import Mathlib

/-!
Shallow embedding of the Trazamatic ETL core (src/etl/transform.py and
src/etl/load.py) and proofs about the specification's claims.

Tables are modelled as a header of column names plus a list of rows of cells.
Cell values follow the pandas value model: a missing value (None/NaN/NaT),
a string, or an IEEE-style number (finite rational, +inf or -inf); NaN is
identified with the missing value, as pandas does for float columns.
Strings are lists of Unicode codepoints so that the Python string operations
used by the pipeline (strip, title, lower, split, digit filtering) are
plain arithmetic.  Dates are represented by their civil day number.
-/

/-- Exact rationals with an executable normal form: numerator and positive
denominator in lowest terms (0 is ⟨0, 1⟩).  Built instead of `ℚ` so that
`decide` can evaluate pipeline runs in the kernel. -/
structure Q where
  n : Int
  d : Nat
deriving DecidableEq

/-- Fuel-driven gcd, kernel-reducible. -/
def fgcd : Nat → Nat → Nat → Nat
  | 0, _, b => b
  | _ + 1, 0, b => b
  | fuel + 1, a, b => fgcd fuel (b % a) a

/-- Build a normalized rational from a numerator and an integer denominator. -/
def mkQ (n : Int) (d : Int) : Q :=
  if d = 0 then ⟨0, 0⟩
  else
    let s : Int := if d < 0 then -1 else 1
    let n' := s * n
    let d' := (s * d).toNat
    let g := fgcd (n'.natAbs + d' + 1) n'.natAbs d'
    ⟨n' / g, d' / g⟩

def qZero : Q := ⟨0, 1⟩

def qOfNat (k : Nat) : Q := ⟨(k : Int), 1⟩

def qAdd (a b : Q) : Q := mkQ (a.n * b.d + b.n * a.d) ((a.d : Int) * b.d)

def qSub (a b : Q) : Q := mkQ (a.n * b.d - b.n * a.d) ((a.d : Int) * b.d)

def qMul (a b : Q) : Q := mkQ (a.n * b.n) ((a.d : Int) * b.d)

def qDivQ (a b : Q) : Q := mkQ (a.n * b.d) ((a.d : Int) * b.n)

/-- `a ≤ b` by cross multiplication (denominators are nonnegative). -/
def qLe (a b : Q) : Bool := a.n * b.d ≤ b.n * a.d

/-- Floor of a rational as an integer (flooring division). -/
def qFloor (a : Q) : Int := Int.fdiv a.n a.d

def qOfInt (k : Int) : Q := ⟨k, 1⟩

/-- IEEE-style numeric value: finite, +infinity or -infinity (NaN is
represented by the table-level missing value). -/
inductive NumF where
  | fin (q : Q)
  | inf
  | ninf
deriving DecidableEq

/-- A pandas cell: missing (None/NaN/NaT), a string, or a number. -/
inductive Val where
  | null
  | str (s : List Nat)
  | num (x : NumF)
deriving DecidableEq

instance {e a : Type} [DecidableEq e] [DecidableEq a] : DecidableEq (Except e a) := fun x y =>
  match x, y with
  | .error u, .error v =>
      if h : u = v then .isTrue (by rw [h]) else .isFalse (by simp [h])
  | .ok u, .ok v =>
      if h : u = v then .isTrue (by rw [h]) else .isFalse (by simp [h])
  | .error _, .ok _ => .isFalse (by simp)
  | .ok _, .error _ => .isFalse (by simp)

/-- Codepoints of a string literal, for readable statements. -/
def nm (s : String) : List Nat := s.data.map Char.toNat

/-- IEEE addition on numbers; `inf + -inf` is NaN, i.e. missing. -/
def addN : NumF → NumF → Val
  | .fin a, .fin b => .num (.fin (qAdd a b))
  | .fin _, .inf => .num .inf
  | .inf, .fin _ => .num .inf
  | .inf, .inf => .num .inf
  | .fin _, .ninf => .num .ninf
  | .ninf, .fin _ => .num .ninf
  | .ninf, .ninf => .num .ninf
  | .inf, .ninf => .null
  | .ninf, .inf => .null

def addV : Val → Val → Val
  | .num a, .num b => addN a b
  | _, _ => .null

/-- IEEE division: `x / 0` is `±inf` for `x ≠ 0` and NaN for `0 / 0`,
exactly as numpy float division behaves. -/
def divN : NumF → NumF → Val
  | .fin a, .fin b =>
      if b.n = 0 then
        if a.n = 0 then .null
        else if 0 < a.n then .num .inf else .num .ninf
      else .num (.fin (qDivQ a b))
  | .fin _, .inf => .num (.fin qZero)
  | .fin _, .ninf => .num (.fin qZero)
  | .inf, .fin b => if b.n < 0 then .num .ninf else .num .inf
  | .ninf, .fin b => if b.n < 0 then .num .inf else .num .ninf
  | _, _ => .null

def divV : Val → Val → Val
  | .num a, .num b => divN a b
  | _, _ => .null

/-- Multiply a cell by 100 (for percentage ratios). -/
def mul100 : Val → Val
  | .num (.fin q) => .num (.fin (qMul q (qOfNat 100)))
  | .num .inf => .num .inf
  | .num .ninf => .num .ninf
  | _ => .null

/-- `Series.round(2)`: round half to even at two decimals. -/
def round2Q (q : Q) : Q :=
  let t := qMul q (qOfNat 100)
  let f := qFloor t
  let r2 := 2 * (t.n - f * t.d)
  let k : Int :=
    if r2 < (t.d : Int) then f
    else if (t.d : Int) < r2 then f + 1
    else if f % 2 = 0 then f else f + 1
  mkQ k 100

def round2V : Val → Val
  | .num (.fin q) => .num (.fin (round2Q q))
  | .num .inf => .num .inf
  | .num .ninf => .num .ninf
  | _ => .null

/-- Sum of a column, skipping missing cells (pandas `sum` with skipna);
an empty or all-missing column sums to 0. -/
def sumVals (l : List Val) : Val :=
  l.foldl
    (fun acc v =>
      match v with
      | .null => acc
      | .str _ => acc
      | .num _ => addV acc v)
    (.num (.fin qZero))

/-- pandas `count`: number of non-missing cells. -/
def countNN (l : List Val) : Nat := (l.filter (· ≠ Val.null)).length

/-- pandas groupby `first`: first non-missing cell, if any. -/
def firstNN (l : List Val) : Val :=
  match l.find? (· ≠ Val.null) with
  | some v => v
  | none => .null

/-- Numeric comparison of cells (used for date min/max). -/
def numLeV : Val → Val → Bool
  | .num (.fin a), .num (.fin b) => qLe a b
  | .num .ninf, .num _ => true
  | .num _, .num .inf => true
  | _, _ => false

def minV (l : List Val) : Val :=
  match l.filter (· ≠ Val.null) with
  | [] => .null
  | v :: vs => vs.foldl (fun a b => if numLeV b a then b else a) v

def maxV (l : List Val) : Val :=
  match l.filter (· ≠ Val.null) with
  | [] => .null
  | v :: vs => vs.foldl (fun a b => if numLeV a b then b else a) v

/-- Python whitespace, ASCII range (space, \t, \n, \r, \v, \f). -/
def wsp (c : Nat) : Bool := c == 32 || c == 9 || c == 10 || c == 13 || c == 11 || c == 12

/-- Python `str.strip()`. -/
def stripL (l : List Nat) : List Nat :=
  ((l.dropWhile wsp).reverse.dropWhile wsp).reverse

def isDigitC (c : Nat) : Bool := 48 ≤ c && c ≤ 57

def isUpC (c : Nat) : Bool := 65 ≤ c && c ≤ 90

def isLoC (c : Nat) : Bool := 97 ≤ c && c ≤ 122

def isAlC (c : Nat) : Bool := isUpC c || isLoC c

def upC (c : Nat) : Nat := if isLoC c then c - 32 else c

def loC (c : Nat) : Nat := if isUpC c then c + 32 else c

/-- Python `str.title()` (ASCII): uppercase a letter that follows a
non-letter, lowercase a letter that follows a letter. -/
def titleGo : Bool → List Nat → List Nat
  | _, [] => []
  | prev, c :: cs => (if prev then loC c else upC c) :: titleGo (isAlC c) cs

def titleL (l : List Nat) : List Nat := titleGo false l

def lowerL (l : List Nat) : List Nat := l.map loC

/-- `.str.replace(r'\D', '', regex=True)`: keep only ASCII digits. -/
def digitsL (l : List Nat) : List Nat := l.filter isDigitC

/-- Python `s.split(sep)` for a one-character separator. -/
def splitC (sep : Nat) : List Nat → List (List Nat)
  | [] => [[]]
  | c :: cs =>
      if c == sep then [] :: splitC sep cs
      else
        match splitC sep cs with
        | [] => [[c]]
        | p :: ps => (c :: p) :: ps

/-- Decimal digits of a natural number as codepoints (`f"{idx}"`). -/
def natDigsAux : Nat → Nat → List Nat
  | 0, _ => []
  | f + 1, n => if n < 10 then [48 + n] else natDigsAux f (n / 10) ++ [48 + n % 10]

def natDigs (n : Nat) : List Nat := natDigsAux (n + 1) n

/-- Parse a nonempty all-digit string. -/
def parseDigits (l : List Nat) : Option Nat :=
  if l.isEmpty then none
  else if l.all isDigitC then some (l.foldl (fun a c => a * 10 + (c - 48)) 0)
  else none

/-- `pd.to_numeric(errors='coerce')` on a string: optional sign, integer
part, optional fractional part; anything else is unparseable. -/
def parseQ (l0 : List Nat) : Option Q :=
  let l := stripL l0
  let (sgn, l) : Int × List Nat :=
    match l with
    | 45 :: rest => (-1, rest)
    | 43 :: rest => (1, rest)
    | _ => (1, l)
  match splitC 46 l with
  | [ip] =>
      match parseDigits ip with
      | some i => some (mkQ (sgn * (i : Int)) 1)
      | none => none
  | [ip, fp] =>
      if ip.isEmpty && fp.isEmpty then none
      else if (ip.isEmpty || (ip.all isDigitC)) && (fp.isEmpty || (fp.all isDigitC)) then
        let i := (ip.foldl (fun a c => a * 10 + (c - 48)) 0 : Nat)
        let f := (fp.foldl (fun a c => a * 10 + (c - 48)) 0 : Nat)
        some (mkQ (sgn * ((i * 10 ^ fp.length + f : Nat) : Int)) ((10 ^ fp.length : Nat) : Int))
      else none
  | _ => none

/-- Numeric coercion of a cell (`pd.to_numeric(errors='coerce')`):
numbers pass through, strings are parsed, failures become missing. -/
def toNumV : Val → Val
  | .num x => .num x
  | .null => .null
  | .str s =>
      match parseQ s with
      | some q => .num (.fin q)
      | none => .null

/-- Day number of a civil date (counting from 0000-03-01). -/
def daysFromCivil (y m d : Nat) : Nat :=
  let yadj := if m ≤ 2 then y - 1 else y
  let era := yadj / 400
  let yoe := yadj % 400
  let mp := if 2 < m then m - 3 else m + 9
  let doy := (153 * mp + 2) / 5 + d - 1
  let doe := yoe * 365 + yoe / 4 - yoe / 100 + doy
  era * 146097 + doe

def isLeap (y : Nat) : Bool := (y % 4 == 0 && y % 100 != 0) || y % 400 == 0

def daysInMonth (y m : Nat) : Nat :=
  if m = 2 then (if isLeap y then 29 else 28)
  else if m = 4 || m = 6 || m = 9 || m = 11 then 30
  else 31

/-- `pd.to_datetime(errors='coerce')` on a string, modelled for ISO
`YYYY-MM-DD` literals; other shapes coerce to missing (NaT). -/
def parseDateL (l0 : List Nat) : Option Nat :=
  match splitC 45 (stripL l0) with
  | [ys, ms, ds] =>
      if ys.length = 4 then
        match parseDigits ys, parseDigits ms, parseDigits ds with
        | some y, some m, some d =>
            if 1 ≤ m && m ≤ 12 && 1 ≤ d && d ≤ daysInMonth y m && 1 ≤ y then
              some (daysFromCivil y m d)
            else none
        | _, _, _ => none
      else none
  | _ => none

/-- Date coercion of a cell: parsed timestamps (already numbers) pass
through, strings parse or coerce to missing. -/
def toDateV : Val → Val
  | .num x => .num x
  | .null => .null
  | .str s =>
      match parseDateL s with
      | some n => .num (.fin (qOfNat n))
      | none => .null

/-- `(a - b).dt.days`: day difference of two timestamps, missing when
either is missing. -/
def subDays : Val → Val → Val
  | .num (.fin a), .num (.fin b) => .num (.fin (qOfInt (qFloor (qSub a b))))
  | _, _ => .null

/-! ## Tables -/

/-- A pandas DataFrame: a header of column names and a list of rows.
Rows are lists of cells aligned with the header. -/
structure Table where
  cols : List (List Nat)
  rows : List (List Val)
deriving DecidableEq

def colIdx (cols : List (List Nat)) (c : List Nat) : Option Nat :=
  match cols with
  | [] => none
  | c' :: rest => if c' = c then some 0 else (colIdx rest c).map (· + 1)

/-- Cell of a row at a named column (missing column reads as missing). -/
def getC (cols : List (List Nat)) (row : List Val) (c : List Nat) : Val :=
  match colIdx cols c with
  | some i => row.getD i .null
  | none => .null

def hasCol (t : Table) (c : List Nat) : Bool := (colIdx t.cols c).isSome

/-- Values of one column, top to bottom. -/
def colVals (t : Table) (c : List Nat) : List Val :=
  t.rows.map (fun r => getC t.cols r c)

/-- Apply a per-column cell function to every cell (`df[c] = df[c].map f`
for each column; a guard `if c in df.columns` is the identity when the
column is absent, which this covers since absent columns have no cells). -/
def mapCells (f : List Nat → Val → Val) (t : Table) : Table :=
  ⟨t.cols, t.rows.map (fun r => List.zipWith f t.cols r)⟩

/-- `df[c] = <row-wise expression>`: overwrite column `c` if present,
else append it. -/
def setColF (c : List Nat) (f : List (List Nat) → List Val → Val) (t : Table) : Table :=
  match colIdx t.cols c with
  | some i => ⟨t.cols, t.rows.map (fun r => r.set i (f t.cols r))⟩
  | none => ⟨t.cols ++ [c], t.rows.map (fun r => r ++ [f t.cols r])⟩

/-- `df.rename(columns=m)`: applies to every matching column label. -/
def renameC (m : List (List Nat × List Nat)) (t : Table) : Table :=
  ⟨t.cols.map (fun c => match m.lookup c with | some c' => c' | none => c), t.rows⟩

def filterRows (p : List (List Nat) → List Val → Bool) (t : Table) : Table :=
  ⟨t.cols, t.rows.filter (p t.cols)⟩

/-- `df[[c₁, …]]` column selection (reads missing columns as all-missing). -/
def selectN (t : Table) (cs : List (List Nat)) : Table :=
  ⟨cs, t.rows.map (fun r => cs.map (getC t.cols r))⟩

/-- Right-row projection used by `merge(on=k)`: all cells except the key
column's. -/
def projRow (cols : List (List Nat)) (row : List Val) (k : List Nat) : List Val :=
  match cols, row with
  | [], _ => []
  | _, [] => []
  | c :: cs, v :: vs => if c = k then projRow cs vs k else v :: projRow cs vs k

/-- `left.merge(right, on=k, how='left')`.  Every left row is kept: rows
with no match get missing right attributes, rows with several matches are
repeated per match (pandas left-join semantics). -/
def mergeOn (l r : Table) (k : List Nat) (suf : List Nat) : Table :=
  let rcols := (r.cols.filter (· ≠ k)).map (fun c => if c ∈ l.cols then c ++ suf else c)
  ⟨l.cols ++ rcols,
   l.rows.flatMap (fun lrow =>
     let kv := getC l.cols lrow k
     let ms := r.rows.filter (fun rr => getC r.cols rr k = kv)
     match ms with
     | [] => [lrow ++ List.replicate rcols.length Val.null]
     | _ => ms.map (fun rr => lrow ++ projRow r.cols rr k))⟩

/-- `left.merge(right, left_on=lk, right_on=rk, how='left', suffixes)`:
both key columns are kept. -/
def mergeLR (l r : Table) (lk rk : List Nat) (suf : List Nat) : Table :=
  let rcols := r.cols.map (fun c => if c ∈ l.cols then c ++ suf else c)
  ⟨l.cols ++ rcols,
   l.rows.flatMap (fun lrow =>
     let kv := getC l.cols lrow lk
     let ms := r.rows.filter (fun rr => getC r.cols rr rk = kv)
     match ms with
     | [] => [lrow ++ List.replicate rcols.length Val.null]
     | _ => ms.map (fun rr => lrow ++ rr))⟩

/-- Group keys of `df.groupby(k)`: distinct non-missing key values in
order of first appearance (pandas additionally sorts group keys; no
property below depends on the order of the output rows). -/
def fdKeysAux : Nat → List Val → List Val
  | 0, _ => []
  | _, [] => []
  | f + 1, v :: vs => v :: fdKeysAux f (vs.filter (· ≠ v))

def fdKeys (l : List Val) : List Val := fdKeysAux l.length l

def groupKeys (t : Table) (k : List Nat) : List Val :=
  fdKeys ((colVals t k).filter (· ≠ Val.null))

/-- Rows of the group of key value `v`. -/
def groupRows (t : Table) (k : List Nat) (v : Val) : List (List Val) :=
  t.rows.filter (fun r => getC t.cols r k = v)

/-! ## String-op cell wrappers (pandas `.str` accessor on an object
column: strings are mapped, non-string cells become missing). -/

def stripS : Val → Val
  | .str s => .str (stripL s)
  | _ => .null

def titleS : Val → Val
  | .str s => .str (titleL s)
  | _ => .null

def lowerS : Val → Val
  | .str s => .str (lowerL s)
  | _ => .null

def digitsS : Val → Val
  | .str s => .str (digitsL s)
  | _ => .null

/-- `fillna(0)` on a cell. -/
def fillna0 (v : Val) : Val := if v = Val.null then .num (.fin qZero) else v

/-- An object-dtype column (as `select_dtypes(include=['object'])` sees
it): it holds at least one string cell. -/
def isObjCol (t : Table) (c : List Nat) : Bool :=
  (colVals t c).any (fun v => match v with | .str _ => true | _ => false)

/-- May pandas' `.str` accessor be used on column `c`?  The accessor
requires an object dtype: a CSV-read column is object-dtype when the
frame has no rows or the column holds at least one string cell; on an
all-numeric (or all-missing) nonempty column `.str` raises
`AttributeError`. -/
def strAccOk (t : Table) (c : List Nat) : Bool :=
  t.rows.isEmpty || isObjCol t c

/-- The error pandas raises when `.str` is used on a non-object column. -/
def attrErr : List Nat :=
  nm "AttributeError: Can only use .str accessor with string values"

/-! ## Transformer (src/etl/transform.py) -/

/-- Positions marked by `df['email'].duplicated(keep=False)`: a row is
marked when its email value occurs at least twice in the column (pandas
treats two missing values as duplicates of each other). -/
def dupPositions (emails : List Val) : List Nat :=
  (List.range emails.length).filter
    (fun i => 2 ≤ (emails.filter (· = emails.getD i Val.null)).length)

/-- One iteration of the duplicate-email loop at row index `i`:
`if '@' in email: name, domain = email.split('@'); email = f"{name}{i}@{domain}"`.
A missing or numeric cell raises (`'@' in nan` is a TypeError) and an
email with several `'@'` raises (unpacking a 3-element split). -/
def suffEmail (i : Nat) (v : Val) : Except (List Nat) Val :=
  match v with
  | .str s =>
      let ps := splitC 64 s
      if ps.length = 1 then .ok (.str s)
      else if ps.length = 2 then
        .ok (.str (ps.getD 0 [] ++ natDigs i ++ [64] ++ ps.getD 1 []))
      else .error (nm "ValueError: too many values to unpack")
  | _ => .error (nm "TypeError: argument of type float is not iterable")

/-- Apply the duplicate-email loop: every marked row except the first
marked one is rewritten in place. -/
def dedupRows (cols : List (List Nat)) (tail : List Nat) (i : Nat) :
    List (List Val) → Except (List Nat) (List (List Val))
  | [] => .ok []
  | row :: rest =>
      let step : Except (List Nat) (List Val) :=
        if i ∈ tail then
          match colIdx cols (nm "email") with
          | some j =>
              match suffEmail i (row.getD j .null) with
              | .ok v' => .ok (row.set j v')
              | .error e => .error e
          | none => .ok row
        else .ok row
      match step with
      | .error e => .error e
      | .ok row' =>
          match dedupRows cols tail (i + 1) rest with
          | .error e => .error e
          | .ok rest' => .ok (row' :: rest')

/-- Did an `Except` computation succeed? -/
def exOk {e a : Type} : Except e a → Bool
  | .ok _ => true
  | .error _ => false

/-- The first two statements of `transform_clientes`: rename the contact
columns and strip phone numbers to digits. -/
def clientesPre (t : Table) : Table :=
  mapCells (fun c v => if c = nm "telefono" then digitsS (stripS v) else v)
    (renameC
      [(nm "contacto_telefono", nm "telefono"),
       (nm "contacto_email", nm "email"),
       (nm "contacto_nombre", nm "nombre_contacto")] t)

/-- `DataTransformer.transform_clientes`.  Renames the contact columns,
strips phone numbers to digits, disambiguates duplicated emails by row
index, then strips every object-dtype column.  The email access is
unguarded in the source, so a table without an email column raises
(KeyError), as does a duplicated email that is not a plain string. -/
def transform_clientes (t : Table) : Except (List Nat) Table := do
  let t := clientesPre t
  if hasCol t (nm "email") then
    let d := dupPositions (colVals t (nm "email"))
    let t ←
      match d with
      | [] => pure t
      | _ :: tail => do
          let rows' ← dedupRows t.cols tail 0 t.rows
          pure (⟨t.cols, rows'⟩ : Table)
    let objs := t.cols.filter (isObjCol t)
    pure (mapCells (fun c v => if c ∈ objs then stripS v else v) t)
  else
    .error (nm "KeyError: email")

/-- The renamed Customer table (`df.rename(columns=...)`), the state on
which `df_clean['telefono'].str.strip()` runs. -/
def cliRen (t : Table) : Table :=
  renameC
    [(nm "contacto_telefono", nm "telefono"),
     (nm "contacto_email", nm "email"),
     (nm "contacto_nombre", nm "nombre_contacto")] t

/-- `DataTransformer.transform_clientes` including pandas' dtype check:
right after the rename, a present `telefono` column that is not
object-dtype makes `df_clean['telefono'].str.strip()` raise
`AttributeError` before any email is touched; otherwise the phone strip
maps strings and nulls numerics, and the rest of the function behaves as
`transform_clientes` (whose email accesses carry the remaining error
paths; the final per-column strip loop only visits object-dtype columns,
so its own `.str` uses never raise). -/
def transform_clientesE (t : Table) : Except (List Nat) Table :=
  if hasCol (cliRen t) (nm "telefono") && !(strAccOk (cliRen t) (nm "telefono")) then
    .error attrErr
  else transform_clientes t

/-- The value the duplicate-email loop writes at row `i` when the
rewrite succeeds (the unchanged value when it would raise). -/
def suffOr (i : Nat) (v : Val) : Val :=
  match suffEmail i v with
  | .ok v' => v'
  | .error _ => v

/-- The pure effect of a successful duplicate-email loop: from row index
`i0` on, rewrite the email cell (at column index `jdx`) of every row
whose index lies in `tail`. -/
def dedupApply (tail : List Nat) (jdx : Nat) (i0 : Nat) :
    List (List Val) → List (List Val)
  | [] => []
  | row :: rest =>
      (if i0 ∈ tail then row.set jdx (suffOr i0 (row.getD jdx Val.null)) else row) ::
        dedupApply tail jdx (i0 + 1) rest

/-- The email value row `i` carries after the duplicate loop: suffixed
when `i` is one of the rewrite positions, the original value otherwise. -/
def finalEmail (em : List Val) (tl : List Nat) (i : Nat) : Val :=
  if i ∈ tl then suffOr i (em.getD i Val.null) else em.getD i Val.null

/-- A well-formed email cell: a trimmed string containing exactly one
`@` (the shape on which the duplicate-email rewrite is meaningful). -/
def okEmail (v : Val) : Bool :=
  match v with
  | .str s => (splitC 64 s).length == 2 && stripL s == s
  | _ => false

/-- `pat in s` on Python strings: contiguous substring test. -/
def hasSub (pat : List Nat) : List Nat → Bool
  | [] => pat.isEmpty
  | c :: cs => List.isPrefixOf pat (c :: cs) || hasSub pat cs

/-- `DataTransformer.transform_ordenes_produccion`: coerce every column
whose (lowercased) name contains "fecha" to datetime, strip and
title-case the status, and derive `duracion_dias` when both date columns
exist. -/
def transform_ordenes_produccion (t : Table) : Table :=
  let t := mapCells
    (fun c v => if hasSub (nm "fecha") (lowerL c) then toDateV v else v) t
  let t := mapCells
    (fun c v => if c = nm "estado" then titleS (stripS v) else v) t
  if hasCol t (nm "fecha_orden") && hasCol t (nm "fecha_completado") then
    setColF (nm "duracion_dias")
      (fun cols row =>
        subDays (getC cols row (nm "fecha_completado")) (getC cols row (nm "fecha_orden")))
      t
  else t

/-- The order table after the date coercions, the state on which
`df_clean['estado'].str.strip()` runs. -/
def ordDates (t : Table) : Table :=
  mapCells (fun c v => if hasSub (nm "fecha") (lowerL c) then toDateV v else v) t

/-- `DataTransformer.transform_ordenes_produccion` including pandas'
dtype check: after the date coercions, a present `estado` column that is
not object-dtype makes `df_clean['estado'].str.strip()` raise
`AttributeError`; otherwise the cleaning is `transform_ordenes_produccion`
(the date coercions and the day subtraction never raise). -/
def transform_ordenes_produccionE (t : Table) : Except (List Nat) Table :=
  if hasCol (ordDates t) (nm "estado") && !(strAccOk (ordDates t) (nm "estado")) then
    .error attrErr
  else .ok (transform_ordenes_produccion t)

/-- Is a price invalid (`(precio <= 0) | precio.isna()`)? -/
def invalidPrice : Val → Bool
  | .null => true
  | .num (.fin q) => q.n ≤ 0
  | .num .ninf => true
  | .num .inf => false
  | .str _ => false

/-- `DataTransformer.transform_productos`: strip names, coerce price to
numeric, drop rows with missing or non-positive price. -/
def transform_productos (t : Table) : Table :=
  let t := mapCells
    (fun c v =>
      if c = nm "nombre_producto" then stripS v
      else if c = nm "precio" then toNumV v
      else v) t
  if hasCol t (nm "precio") then
    filterRows (fun cols row => ¬ invalidPrice (getC cols row (nm "precio"))) t
  else t

/-- `DataTransformer.transform_productos` including pandas' dtype check:
a present `nombre_producto` column that is not object-dtype makes
`df_clean['nombre_producto'].str.strip()` raise `AttributeError` (the
first statement of the function); the price coercion and filter that
follow never raise. -/
def transform_productosE (t : Table) : Except (List Nat) Table :=
  if hasCol t (nm "nombre_producto") && !(strAccOk t (nm "nombre_producto")) then
    .error attrErr
  else .ok (transform_productos t)

/-- `DataTransformer.transform_materiales`: title-case the type,
lower-case the unit, coerce availability to numeric with default 0. -/
def transform_materiales (t : Table) : Table :=
  mapCells
    (fun c v =>
      if c = nm "tipo" then titleS (stripS v)
      else if c = nm "unidad_medida" then lowerS (stripS v)
      else if c = nm "cantidad_disponible" then fillna0 (toNumV v)
      else v) t

/-- `DataTransformer.transform_materiales` including pandas' dtype
checks, in source order: `tipo` is stripped first, then `unidad_medida`
(each `.str` use raises `AttributeError` on a present non-object column;
rewriting one column never changes another column's dtype, so each
guard reads the input table); the availability coercion never raises. -/
def transform_materialesE (t : Table) : Except (List Nat) Table :=
  if hasCol t (nm "tipo") && !(strAccOk t (nm "tipo")) then
    .error attrErr
  else if hasCol t (nm "unidad_medida") && !(strAccOk t (nm "unidad_medida")) then
    .error attrErr
  else .ok (transform_materiales t)

/-- `DataTransformer.transform_empleados`: strip names, title-case roles,
lower-case emails. -/
def transform_empleados (t : Table) : Table :=
  mapCells
    (fun c v =>
      if c = nm "nombre" then stripS v
      else if c = nm "cargo" then titleS (stripS v)
      else if c = nm "email" then lowerS (stripS v)
      else v) t

/-- `DataTransformer.transform_empleados` including pandas' dtype
checks, in source order: `nombre`, then `cargo`, then `email` (each
`.str` use raises `AttributeError` on a present non-object column;
rewriting one column never changes another column's dtype, so each
guard reads the input table). -/
def transform_empleadosE (t : Table) : Except (List Nat) Table :=
  if hasCol t (nm "nombre") && !(strAccOk t (nm "nombre")) then
    .error attrErr
  else if hasCol t (nm "cargo") && !(strAccOk t (nm "cargo")) then
    .error attrErr
  else if hasCol t (nm "email") && !(strAccOk t (nm "email")) then
    .error attrErr
  else .ok (transform_empleados t)

/-- `DataTransformer.transform_detalles_orden`: coerce quantity and
subtotal to numeric, then derive `precio_unitario = subtotal / cantidad`
when both columns exist. -/
def transform_detalles_orden (t : Table) : Table :=
  let t := mapCells
    (fun c v =>
      if c = nm "cantidad" || c = nm "subtotal" then toNumV v
      else v) t
  if hasCol t (nm "cantidad") && hasCol t (nm "subtotal") then
    setColF (nm "precio_unitario")
      (fun cols row =>
        divV (getC cols row (nm "subtotal")) (getC cols row (nm "cantidad")))
      t
  else t

/-- `DataTransformer.transform_uso_materiales`: coerce used quantity to
numeric with default 0. -/
def transform_uso_materiales (t : Table) : Table :=
  mapCells
    (fun c v => if c = nm "cantidad_usada" then fillna0 (toNumV v) else v) t

/-- An entity set: a mapping from entity name to table. -/
abbrev Datasets := List (List Nat × Table)

def hasK (ds : Datasets) (k : List Nat) : Bool := (ds.lookup k).isSome

def getK (ds : Datasets) (k : List Nat) : Table := (ds.lookup k).getD ⟨[], []⟩

/-- `DataTransformer.transform_all`: clean each present entity; absent
entities stay absent.  Fails only if cleaning customers fails. -/
def transform_all (ds : Datasets) : Except (List Nat) Datasets := do
  let part1 ←
    if hasK ds (nm "clientes") then do
      let c ← transform_clientes (getK ds (nm "clientes"))
      pure [(nm "clientes", c)]
    else pure []
  pure (part1
    ++ (if hasK ds (nm "ordenes_produccion") then
          [(nm "ordenes_produccion", transform_ordenes_produccion (getK ds (nm "ordenes_produccion")))]
        else [])
    ++ (if hasK ds (nm "productos") then
          [(nm "productos", transform_productos (getK ds (nm "productos")))]
        else [])
    ++ (if hasK ds (nm "materiales") then
          [(nm "materiales", transform_materiales (getK ds (nm "materiales")))]
        else [])
    ++ (if hasK ds (nm "empleados") then
          [(nm "empleados", transform_empleados (getK ds (nm "empleados")))]
        else [])
    ++ (if hasK ds (nm "detalles_orden") then
          [(nm "detalles_orden", transform_detalles_orden (getK ds (nm "detalles_orden")))]
        else [])
    ++ (if hasK ds (nm "uso_materiales") then
          [(nm "uso_materiales", transform_uso_materiales (getK ds (nm "uso_materiales")))]
        else []))

/-! ## Aggregator / Loader (src/etl/load.py) -/

/-- `DataLoader._create_ordenes_completas`: left-join orders with customer
name and city (on `id_cliente`) and with employee name and role
(`id_empleado_responsable` against `id_empleado`), then rename the
employee attribute columns. -/
def create_ordenes_completas (ordenes clientes empleados : Table) : Table :=
  let df := mergeOn ordenes
    (selectN clientes [nm "id_cliente", nm "nombre_empresa", nm "ciudad"])
    (nm "id_cliente") (nm "_y")
  let df := mergeLR df
    (selectN empleados [nm "id_empleado", nm "nombre", nm "cargo"])
    (nm "id_empleado_responsable") (nm "id_empleado") (nm "_empleado")
  renameC [(nm "nombre", nm "nombre_empleado"), (nm "cargo", nm "cargo_empleado")] df

/-- The count of a group as a numeric cell. -/
def countCell (l : List Val) : Val := .num (.fin (qOfNat (countNN l)))

/-- `DataLoader._create_ventas_por_producto`: join order lines with
product names and order dates, group by product, aggregate name (first),
quantity (sum), subtotal (sum) and `id_orden` (count), then derive
`ticket_promedio = ingresos_totales / num_ordenes`. -/
def create_ventas_por_producto (detalles productos ordenes : Table) : Table :=
  let df := mergeOn detalles
    (selectN productos [nm "id_producto", nm "nombre_producto"])
    (nm "id_producto") (nm "_y")
  let df := mergeOn df
    (selectN ordenes [nm "id_orden", nm "fecha_orden", nm "estado"])
    (nm "id_orden") (nm "_y")
  ⟨[nm "id_producto", nm "nombre_producto", nm "cantidad_total",
    nm "ingresos_totales", nm "num_ordenes", nm "ticket_promedio"],
   (groupKeys df (nm "id_producto")).map (fun v =>
     let g := groupRows df (nm "id_producto") v
     let ing := sumVals (g.map (fun r => getC df.cols r (nm "subtotal")))
     let nord := countCell (g.map (fun r => getC df.cols r (nm "id_orden")))
     [v,
      firstNN (g.map (fun r => getC df.cols r (nm "nombre_producto"))),
      sumVals (g.map (fun r => getC df.cols r (nm "cantidad"))),
      ing,
      nord,
      divV ing nord])⟩

/-- `DataLoader._create_uso_materiales_agregado`: join material usage with
material attributes and order dates, group by material, aggregate, then
derive `tasa_rotacion = (cantidad_total_usada / cantidad_disponible).fillna(0)`.
`fillna` replaces only NaN, so a positive use over zero availability stays
`inf`. -/
def create_uso_materiales_agregado (uso materiales ordenes : Table) : Table :=
  let df := mergeOn uso
    (selectN materiales [nm "id_material", nm "nombre_material", nm "tipo", nm "cantidad_disponible"])
    (nm "id_material") (nm "_y")
  let df := mergeOn df
    (selectN ordenes [nm "id_orden", nm "fecha_orden"])
    (nm "id_orden") (nm "_y")
  ⟨[nm "id_material", nm "nombre_material", nm "tipo", nm "cantidad_disponible",
    nm "cantidad_total_usada", nm "num_ordenes", nm "tasa_rotacion"],
   (groupKeys df (nm "id_material")).map (fun v =>
     let g := groupRows df (nm "id_material") v
     let disp := firstNN (g.map (fun r => getC df.cols r (nm "cantidad_disponible")))
     let used := sumVals (g.map (fun r => getC df.cols r (nm "cantidad_usada")))
     [v,
      firstNN (g.map (fun r => getC df.cols r (nm "nombre_material"))),
      firstNN (g.map (fun r => getC df.cols r (nm "tipo"))),
      disp,
      used,
      countCell (g.map (fun r => getC df.cols r (nm "id_orden"))),
      fillna0 (divV used disp)])⟩

/-- `DataLoader._create_metricas_por_cliente`: per-order subtotal totals,
left-joined to orders, grouped by customer (order count, revenue sum,
first/last order date), joined with customer name and city, then
`ticket_promedio = ingresos_totales / num_ordenes`. -/
def create_metricas_por_cliente (ordenes detalles clientes : Table) : Table :=
  let totales : Table :=
    ⟨[nm "id_orden", nm "total_orden"],
     (groupKeys detalles (nm "id_orden")).map (fun v =>
       let g := groupRows detalles (nm "id_orden") v
       [v, sumVals (g.map (fun r => getC detalles.cols r (nm "subtotal")))])⟩
  let df := mergeOn ordenes totales (nm "id_orden") (nm "_y")
  let metricas : Table :=
    ⟨[nm "id_cliente", nm "num_ordenes", nm "ingresos_totales",
      nm "primera_orden", nm "ultima_orden"],
     (groupKeys df (nm "id_cliente")).map (fun v =>
       let g := groupRows df (nm "id_cliente") v
       [v,
        countCell (g.map (fun r => getC df.cols r (nm "id_orden"))),
        sumVals (g.map (fun r => getC df.cols r (nm "total_orden"))),
        minV (g.map (fun r => getC df.cols r (nm "fecha_orden"))),
        maxV (g.map (fun r => getC df.cols r (nm "fecha_orden")))])⟩
  let metricas := mergeOn metricas
    (selectN clientes [nm "id_cliente", nm "nombre_empresa", nm "ciudad"])
    (nm "id_cliente") (nm "_y")
  setColF (nm "ticket_promedio")
    (fun cols row =>
      divV (getC cols row (nm "ingresos_totales")) (getC cols row (nm "num_ordenes")))
    metricas

/-- `DataLoader._create_productividad_empleados`: group orders by
responsible employee (order count and count of status "Completado"),
join employee name and role, then
`tasa_completitud = (ordenes_completadas / total_ordenes * 100).round(2)`. -/
def create_productividad_empleados (ordenes empleados : Table) : Table :=
  let prod : Table :=
    ⟨[nm "id_empleado", nm "total_ordenes", nm "ordenes_completadas"],
     (groupKeys ordenes (nm "id_empleado_responsable")).map (fun v =>
       let g := groupRows ordenes (nm "id_empleado_responsable") v
       [v,
        countCell (g.map (fun r => getC ordenes.cols r (nm "id_orden"))),
        .num (.fin (qOfNat ((g.filter
          (fun r => getC ordenes.cols r (nm "estado") = .str (nm "Completado"))).length)))])⟩
  let prod := mergeOn prod
    (selectN empleados [nm "id_empleado", nm "nombre", nm "cargo"])
    (nm "id_empleado") (nm "_y")
  setColF (nm "tasa_completitud")
    (fun cols row =>
      round2V (mul100 (divV (getC cols row (nm "ordenes_completadas"))
                           (getC cols row (nm "total_ordenes")))))
    prod

/-- The `totales` frame of `_create_metricas_por_cliente`
(`detalles.groupby('id_orden').agg({'subtotal': 'sum'})`, renamed):
one row per distinct order id of OrderLine. -/
def metricasTotales (detalles : Table) : Table :=
  ⟨[nm "id_orden", nm "total_orden"],
   (groupKeys detalles (nm "id_orden")).map (fun v =>
     let g := groupRows detalles (nm "id_orden") v
     [v, sumVals (g.map (fun r => getC detalles.cols r (nm "subtotal")))])⟩

/-- The `metricas` frame of `_create_metricas_por_cliente` before the
Customer join: orders left-joined with `totales`, grouped by
`id_cliente`. -/
def metricasAgg (ordenes detalles : Table) : Table :=
  let df := mergeOn ordenes (metricasTotales detalles) (nm "id_orden") (nm "_y")
  ⟨[nm "id_cliente", nm "num_ordenes", nm "ingresos_totales",
    nm "primera_orden", nm "ultima_orden"],
   (groupKeys df (nm "id_cliente")).map (fun v =>
     let g := groupRows df (nm "id_cliente") v
     [v,
      countCell (g.map (fun r => getC df.cols r (nm "id_orden"))),
      sumVals (g.map (fun r => getC df.cols r (nm "total_orden"))),
      minV (g.map (fun r => getC df.cols r (nm "fecha_orden"))),
      maxV (g.map (fun r => getC df.cols r (nm "fecha_orden")))])⟩

/-- The `prod` frame of `_create_productividad_empleados` before the
Employee join: orders grouped by responsible employee. -/
def prodAgg (ordenes : Table) : Table :=
  ⟨[nm "id_empleado", nm "total_ordenes", nm "ordenes_completadas"],
   (groupKeys ordenes (nm "id_empleado_responsable")).map (fun v =>
     let g := groupRows ordenes (nm "id_empleado_responsable") v
     [v,
      countCell (g.map (fun r => getC ordenes.cols r (nm "id_orden"))),
      .num (.fin (qOfNat ((g.filter
        (fun r => getC ordenes.cols r (nm "estado") = .str (nm "Completado"))).length)))])⟩

/-- `DataLoader.create_analytics_tables`: build each of the five derived
tables whose required source entities are all present; skip the others. -/
def create_analytics_tables (ds : Datasets) : Datasets :=
  (if hasK ds (nm "ordenes_produccion") && hasK ds (nm "clientes") && hasK ds (nm "empleados") then
    [(nm "ordenes_completas",
      create_ordenes_completas (getK ds (nm "ordenes_produccion")) (getK ds (nm "clientes"))
        (getK ds (nm "empleados")))]
  else [])
  ++ (if hasK ds (nm "detalles_orden") && hasK ds (nm "productos") && hasK ds (nm "ordenes_produccion") then
    [(nm "ventas_por_producto",
      create_ventas_por_producto (getK ds (nm "detalles_orden")) (getK ds (nm "productos"))
        (getK ds (nm "ordenes_produccion")))]
  else [])
  ++ (if hasK ds (nm "uso_materiales") && hasK ds (nm "materiales") && hasK ds (nm "ordenes_produccion") then
    [(nm "uso_materiales_agregado",
      create_uso_materiales_agregado (getK ds (nm "uso_materiales")) (getK ds (nm "materiales"))
        (getK ds (nm "ordenes_produccion")))]
  else [])
  ++ (if hasK ds (nm "ordenes_produccion") && hasK ds (nm "detalles_orden") && hasK ds (nm "clientes") then
    [(nm "metricas_por_cliente",
      create_metricas_por_cliente (getK ds (nm "ordenes_produccion")) (getK ds (nm "detalles_orden"))
        (getK ds (nm "clientes")))]
  else [])
  ++ (if hasK ds (nm "ordenes_produccion") && hasK ds (nm "empleados") then
    [(nm "productividad_empleados",
      create_productividad_empleados (getK ds (nm "ordenes_produccion")) (getK ds (nm "empleados")))]
  else [])

/-- Does every builder that will run find the columns it reads?  For
each of the five guarded builders: either some required entity is absent
(the builder is skipped) or every column the builder's merges, groupbys
and aggregations access is present in its source tables.  On such entity
sets the pandas code raises no KeyError, so the model's output names
match the program's. -/
def dsColsOk (ds : Datasets) : Bool :=
  (!(hasK ds (nm "ordenes_produccion") && hasK ds (nm "clientes") && hasK ds (nm "empleados")) ||
    (hasCol (getK ds (nm "ordenes_produccion")) (nm "id_cliente") &&
     hasCol (getK ds (nm "ordenes_produccion")) (nm "id_empleado_responsable") &&
     hasCol (getK ds (nm "clientes")) (nm "id_cliente") &&
     hasCol (getK ds (nm "clientes")) (nm "nombre_empresa") &&
     hasCol (getK ds (nm "clientes")) (nm "ciudad") &&
     hasCol (getK ds (nm "empleados")) (nm "id_empleado") &&
     hasCol (getK ds (nm "empleados")) (nm "nombre") &&
     hasCol (getK ds (nm "empleados")) (nm "cargo"))) &&
  (!(hasK ds (nm "detalles_orden") && hasK ds (nm "productos") && hasK ds (nm "ordenes_produccion")) ||
    (hasCol (getK ds (nm "detalles_orden")) (nm "id_producto") &&
     hasCol (getK ds (nm "detalles_orden")) (nm "id_orden") &&
     hasCol (getK ds (nm "detalles_orden")) (nm "cantidad") &&
     hasCol (getK ds (nm "detalles_orden")) (nm "subtotal") &&
     hasCol (getK ds (nm "productos")) (nm "id_producto") &&
     hasCol (getK ds (nm "productos")) (nm "nombre_producto") &&
     hasCol (getK ds (nm "ordenes_produccion")) (nm "id_orden") &&
     hasCol (getK ds (nm "ordenes_produccion")) (nm "fecha_orden") &&
     hasCol (getK ds (nm "ordenes_produccion")) (nm "estado"))) &&
  (!(hasK ds (nm "uso_materiales") && hasK ds (nm "materiales") && hasK ds (nm "ordenes_produccion")) ||
    (hasCol (getK ds (nm "uso_materiales")) (nm "id_material") &&
     hasCol (getK ds (nm "uso_materiales")) (nm "id_orden") &&
     hasCol (getK ds (nm "uso_materiales")) (nm "cantidad_usada") &&
     hasCol (getK ds (nm "materiales")) (nm "id_material") &&
     hasCol (getK ds (nm "materiales")) (nm "nombre_material") &&
     hasCol (getK ds (nm "materiales")) (nm "tipo") &&
     hasCol (getK ds (nm "materiales")) (nm "cantidad_disponible") &&
     hasCol (getK ds (nm "ordenes_produccion")) (nm "id_orden") &&
     hasCol (getK ds (nm "ordenes_produccion")) (nm "fecha_orden"))) &&
  (!(hasK ds (nm "ordenes_produccion") && hasK ds (nm "detalles_orden") && hasK ds (nm "clientes")) ||
    (hasCol (getK ds (nm "detalles_orden")) (nm "id_orden") &&
     hasCol (getK ds (nm "detalles_orden")) (nm "subtotal") &&
     hasCol (getK ds (nm "ordenes_produccion")) (nm "id_orden") &&
     hasCol (getK ds (nm "ordenes_produccion")) (nm "id_cliente") &&
     hasCol (getK ds (nm "ordenes_produccion")) (nm "fecha_orden") &&
     hasCol (getK ds (nm "clientes")) (nm "id_cliente") &&
     hasCol (getK ds (nm "clientes")) (nm "nombre_empresa") &&
     hasCol (getK ds (nm "clientes")) (nm "ciudad"))) &&
  (!(hasK ds (nm "ordenes_produccion") && hasK ds (nm "empleados")) ||
    (hasCol (getK ds (nm "ordenes_produccion")) (nm "id_empleado_responsable") &&
     hasCol (getK ds (nm "ordenes_produccion")) (nm "id_orden") &&
     hasCol (getK ds (nm "ordenes_produccion")) (nm "estado") &&
     hasCol (getK ds (nm "empleados")) (nm "id_empleado") &&
     hasCol (getK ds (nm "empleados")) (nm "nombre") &&
     hasCol (getK ds (nm "empleados")) (nm "cargo")))

/-! ## Concrete tables used as test inputs in the claim theorems -/

/-- Integer-valued numeric cell. -/
def vInt (k : Int) : Val := .num (.fin (qOfInt k))

/-- An OrderLine table with quantity "0" and subtotal "100". -/
def detQZero : Table :=
  ⟨[nm "cantidad", nm "subtotal"], [[Val.str (nm "0"), Val.str (nm "100")]]⟩

/-- A one-row ProductionOrder table. -/
def ordOne : Table :=
  ⟨[nm "id_orden", nm "id_cliente", nm "id_empleado_responsable"],
   [[vInt 1, vInt 1, vInt 1]]⟩

/-- A Customer table in which two rows share `id_cliente = 1`. -/
def cliDup : Table :=
  ⟨[nm "id_cliente", nm "nombre_empresa", nm "ciudad"],
   [[vInt 1, Val.str (nm "A"), Val.str (nm "X")],
    [vInt 1, Val.str (nm "B"), Val.str (nm "Y")]]⟩

/-- A Customer table in which two rows share the contact email
`a@x.com`. -/
def cliEm : Table :=
  ⟨[nm "id_cliente", nm "contacto_email"],
   [[vInt 1, Val.str (nm "a@x.com")],
    [vInt 2, Val.str (nm "a@x.com")]]⟩

/-- A Customer table in which the suffixed email synthesized for the
second `a@x.com` row collides with a third row's `a1@x.com`. -/
def cliCol : Table :=
  ⟨[nm "contacto_email"],
   [[Val.str (nm "a@x.com")],
    [Val.str (nm "a@x.com")],
    [Val.str (nm "a1@x.com")]]⟩

/-- A one-row Customer table. -/
def cliOne : Table :=
  ⟨[nm "id_cliente", nm "nombre_empresa", nm "ciudad"],
   [[vInt 1, Val.str (nm "A"), Val.str (nm "X")]]⟩

/-- A one-row Employee table. -/
def empOne : Table :=
  ⟨[nm "id_empleado", nm "nombre", nm "cargo"],
   [[vInt 1, Val.str (nm "E"), Val.str (nm "C")]]⟩

/-- A one-row Product table. -/
def prodOne : Table :=
  ⟨[nm "id_producto", nm "nombre_producto"], [[vInt 1, Val.str (nm "P")]]⟩

/-- A one-row MaterialUsage table: order 1 used 5 units of material 1. -/
def usoOne : Table :=
  ⟨[nm "id_orden", nm "id_material", nm "cantidad_usada"], [[vInt 1, vInt 1, vInt 5]]⟩

/-- A one-row Material table with zero availability. -/
def matZero : Table :=
  ⟨[nm "id_material", nm "nombre_material", nm "tipo", nm "cantidad_disponible"],
   [[vInt 1, Val.str (nm "M"), Val.str (nm "T"), vInt 0]]⟩

/-- An OrderLine table in which one order holds the same product twice. -/
def detDup : Table :=
  ⟨[nm "id_orden", nm "id_producto", nm "cantidad", nm "subtotal"],
   [[vInt 1, vInt 1, vInt 2, vInt 50],
    [vInt 1, vInt 1, vInt 3, vInt 70]]⟩

/-- A one-row ProductionOrder table carrying every column the five
derived-table builders read. -/
def ordFive : Table :=
  ⟨[nm "id_orden", nm "id_cliente", nm "id_empleado_responsable",
    nm "fecha_orden", nm "estado"],
   [[vInt 1, vInt 1, vInt 1, Val.null, Val.str (nm "Completado")]]⟩

/-- A cleaned entity set in which the Material table is absent; every
present table carries the columns the builders that run on it read. -/
def dsNoMat : Datasets :=
  [(nm "clientes", cliOne), (nm "ordenes_produccion", ordFive), (nm "empleados", empOne),
   (nm "detalles_orden", detDup), (nm "productos", prodOne), (nm "uso_materiales", usoOne)]

/-- The spec's Scenario 1 ProductionOrder row. -/
def ordScen : Table :=
  ⟨[nm "id_orden", nm "fecha_orden", nm "fecha_completado", nm "estado"],
   [[vInt 1, Val.str (nm "2024-01-01"), Val.str (nm "2024-01-10"),
     Val.str (nm " completado ")]]⟩

/-- A cell that is not an infinity (dates read from storage are strings,
missing values, or finite timestamps). -/
def finCell : Val → Bool
  | .num .inf => false
  | .num .ninf => false
  | _ => true

/-- A one-row ProductionOrder lookup table for the Loader tests. -/
def ordF : Table := ⟨[nm "id_orden", nm "fecha_orden"], [[vInt 1, Val.null]]⟩

/-- A one-row ProductionOrder lookup table carrying the three columns
the ProductSales builder selects. -/
def ordFull : Table :=
  ⟨[nm "id_orden", nm "fecha_orden", nm "estado"],
   [[vInt 1, Val.null, Val.str (nm "Completado")]]⟩

/-- A ProductionOrder table whose single row has a missing `id_orden`
but a "Completado" status. -/
def ordNull : Table :=
  ⟨[nm "id_orden", nm "id_empleado_responsable", nm "estado"],
   [[Val.null, vInt 1, Val.str (nm "Completado")]]⟩

/-- A raw ProductionOrder table whose `estado` column is all-numeric
(not object-dtype). -/
def ordEstadoNum : Table :=
  ⟨[nm "id_orden", nm "estado"], [[vInt 1, vInt 2]]⟩

/-- A raw Employee table whose `cargo` column is all-numeric. -/
def empCargoNum : Table :=
  ⟨[nm "nombre", nm "cargo"], [[Val.str (nm "E"), vInt 3]]⟩

/-- A raw Customer table whose phone column is all-numeric. -/
def cliTelNum : Table :=
  ⟨[nm "contacto_telefono", nm "contacto_email"],
   [[vInt 5, Val.str (nm "a@x.com")]]⟩

/-! ## Generic lemmas about the table operations -/

theorem colIdx_lt_length {cols : List (List Nat)} {c : List Nat} :
    ∀ {i}, colIdx cols c = some i → i < cols.length := by
  induction cols with
  | nil => intro i h; simp [colIdx] at h
  | cons c' rest ih =>
    intro i h
    simp only [colIdx] at h
    split at h
    · cases h; simp
    · simp only [Option.map_eq_some'] at h
      obtain ⟨j, hj, rfl⟩ := h
      simp only [List.length_cons]
      exact Nat.succ_lt_succ (ih hj)

theorem colIdx_getD {cols : List (List Nat)} {c : List Nat} :
    ∀ {i}, colIdx cols c = some i → cols.getD i [] = c := by
  induction cols with
  | nil => intro i h; simp [colIdx] at h
  | cons c' rest ih =>
    intro i h
    simp only [colIdx] at h
    split at h
    · cases h
      next hc => simpa using hc
    · simp only [Option.map_eq_some'] at h
      obtain ⟨j, hj, rfl⟩ := h
      simpa using ih hj

theorem colIdx_eq_none_iff {cols : List (List Nat)} {c : List Nat} :
    colIdx cols c = none ↔ c ∉ cols := by
  induction cols with
  | nil => simp [colIdx]
  | cons c' rest ih =>
    simp only [colIdx]
    split
    · next hc => subst hc; simp
    · next hc =>
      rw [Option.map_eq_none', ih]
      constructor
      · intro h hmem
        rcases List.mem_cons.mp hmem with h1 | h2
        · exact hc h1.symm
        · exact h h2
      · intro h hmem
        exact h (List.mem_cons_of_mem _ hmem)

theorem colIdx_append_left {A B : List (List Nat)} {c : List Nat} {i : Nat}
    (h : colIdx A c = some i) : colIdx (A ++ B) c = some i := by
  induction A generalizing i with
  | nil => simp [colIdx] at h
  | cons c' rest ih =>
    simp only [colIdx] at h
    rw [List.cons_append]
    show (if c' = c then some 0 else (colIdx (rest ++ B) c).map (· + 1)) = some i
    split at h
    · next hc => cases h; rw [if_pos hc]
    · next hc =>
      rw [if_neg hc]
      simp only [Option.map_eq_some'] at h
      obtain ⟨j, hj, rfl⟩ := h
      rw [ih hj]
      rfl

theorem colIdx_append_none {A B : List (List Nat)} {c : List Nat}
    (hA : colIdx A c = none) (hB : colIdx B c = none) : colIdx (A ++ B) c = none := by
  rw [colIdx_eq_none_iff] at hA hB ⊢
  simp [hA, hB]

theorem colIdx_append_right {A B : List (List Nat)} {c : List Nat} {j : Nat}
    (hA : colIdx A c = none) (hB : colIdx B c = some j) :
    colIdx (A ++ B) c = some (A.length + j) := by
  induction A with
  | nil => simpa [colIdx] using hB
  | cons c' rest ih =>
    simp only [colIdx] at hA
    split at hA
    · exact absurd hA (by simp)
    · next hc =>
      simp only [Option.map_eq_none'] at hA
      simp only [List.cons_append, colIdx]
      rw [if_neg hc]
      simp only [List.append_eq]
      rw [ih hA]
      simp only [Option.map_some', List.length_cons]
      congr 1
      omega

/-- Reading a cell of a row extended on the right, at a column of the
original header, under a well-formed row. -/
theorem getC_append_ext {cols B : List (List Nat)} {row e : List Val} {c : List Nat}
    (hwf : row.length = cols.length) (hB : c ∉ B) :
    getC (cols ++ B) (row ++ e) c = getC cols row c := by
  unfold getC
  cases h : colIdx cols c with
  | some i =>
    rw [colIdx_append_left h]
    have hi : i < row.length := hwf ▸ colIdx_lt_length h
    simp [List.getD_eq_getElem?_getD, List.getElem?_append_left hi]
  | none =>
    cases hB' : colIdx B c with
    | some j =>
      exfalso
      have hj := colIdx_lt_length hB'
      have hg := colIdx_getD hB'
      rw [List.getD_eq_getElem _ _ hj] at hg
      exact hB (hg ▸ List.getElem_mem _)
    | none => rw [colIdx_append_none h hB']

/-- Reading a cell of a `zipWith`-transformed row. -/
theorem getC_zipWith {cols : List (List Nat)} {row : List Val} {c : List Nat}
    {f : List Nat → Val → Val} (hwf : row.length = cols.length) :
    getC cols (List.zipWith f cols row) c =
      match colIdx cols c with
      | some _ => f c (getC cols row c)
      | none => Val.null := by
  unfold getC
  cases h : colIdx cols c with
  | none => rfl
  | some i =>
    have hi : i < cols.length := colIdx_lt_length h
    have hir : i < row.length := hwf ▸ hi
    have hceq : cols[i] = c := by
      have hg := colIdx_getD h
      rwa [List.getD_eq_getElem _ _ hi] at hg
    simp only [List.getD_eq_getElem?_getD]
    rw [List.getElem?_zipWith']
    simp [List.getElem?_eq_getElem hi, List.getElem?_eq_getElem hir, hceq]

/-- Reading a cell of a row with position `i` overwritten. -/
theorem getC_set {cols : List (List Nat)} {row : List Val} {c : List Nat} {i : Nat} {v : Val}
    (hi : colIdx cols c = some i) (hwf : row.length = cols.length) :
    getC cols (row.set i v) c = v := by
  unfold getC
  rw [hi]
  have : i < row.length := hwf ▸ colIdx_lt_length hi
  simp [List.getD_eq_getElem?_getD, List.getElem?_set_self this]

theorem getC_set_ne {cols : List (List Nat)} {row : List Val} {c : List Nat} {i j : Nat} {v : Val}
    (hj : colIdx cols c = some j) (hne : i ≠ j) :
    getC cols (row.set i v) c = getC cols row c := by
  unfold getC
  rw [hj]
  simp [List.getD_eq_getElem?_getD, List.getElem?_set_ne hne]

theorem selectN_wf {t : Table} {cs : List (List Nat)} :
    ∀ r ∈ (selectN t cs).rows, r.length = cs.length := by
  intro r hr
  simp only [selectN, List.mem_map] at hr
  obtain ⟨r0, _, rfl⟩ := hr
  simp

/-- Reading a selected column out of a `selectN`-built row recovers the
original cell. -/
theorem getC_selectN {t : Table} {cs : List (List Nat)} {c : List Nat} {r : List Val}
    (hc : c ∈ cs) :
    getC cs (cs.map (getC t.cols r)) c = getC t.cols r c := by
  unfold getC
  obtain ⟨i, hi⟩ : ∃ i, colIdx cs c = some i := by
    cases h : colIdx cs c with
    | some i => exact ⟨i, rfl⟩
    | none => exact absurd (colIdx_eq_none_iff.mp h) (by simp [hc])
  rw [hi]
  have hlt : i < cs.length := colIdx_lt_length hi
  have hcs : cs[i] = c := by
    have := colIdx_getD hi
    rwa [List.getD_eq_getElem _ _ hlt] at this
  simp only [List.getD_eq_getElem?_getD, List.getElem?_map,
    List.getElem?_eq_getElem hlt, Option.map_some']
  rw [hcs]
  cases hcol : colIdx t.cols c <;> simp [getC, hcol]

theorem colVals_selectN {t : Table} {cs : List (List Nat)} {c : List Nat} (hc : c ∈ cs) :
    colVals (selectN t cs) c = colVals t c := by
  unfold colVals selectN
  simp only [List.map_map]
  exact List.map_congr_left (fun r _ => getC_selectN hc)

theorem projRow_length {cols : List (List Nat)} {row : List Val} {k : List Nat}
    (hwf : row.length = cols.length) :
    (projRow cols row k).length = (cols.filter (· ≠ k)).length := by
  induction cols generalizing row with
  | nil => simp [projRow]
  | cons c rest ih =>
    cases row with
    | nil => simp at hwf
    | cons v vs =>
      have hwf' : vs.length = rest.length := by simpa using hwf
      by_cases hk : c = k
      · simp [projRow, hk, ih hwf', List.filter_cons]
      · simp [projRow, hk, ih hwf', List.filter_cons]

/-- Every output row of `mergeOn` extends a left row by cells for the
non-key right columns. -/
theorem mergeOn_rows_mem {l r : Table} {k suf : List Nat} {row : List Val}
    (hrwf : ∀ rr ∈ r.rows, rr.length = r.cols.length)
    (h : row ∈ (mergeOn l r k suf).rows) :
    ∃ lrow ∈ l.rows, ∃ e, row = lrow ++ e ∧ e.length = (r.cols.filter (· ≠ k)).length := by
  simp only [mergeOn, List.mem_flatMap] at h
  obtain ⟨lrow, hl, hrow⟩ := h
  refine ⟨lrow, hl, ?_⟩
  set ms := r.rows.filter (fun rr => getC r.cols rr k = getC l.cols lrow k) with hms
  cases hcase : ms with
  | nil =>
    rw [hcase] at hrow
    simp only [List.mem_singleton] at hrow
    exact ⟨_, hrow, by simp⟩
  | cons m0 mrest =>
    rw [hcase] at hrow
    simp only [List.mem_map] at hrow
    obtain ⟨rr, hrr, rfl⟩ := hrow
    have hrmem : rr ∈ r.rows := by
      have : rr ∈ ms := hcase ▸ hrr
      exact List.mem_of_mem_filter this
    exact ⟨_, rfl, projRow_length (hrwf rr hrmem)⟩

theorem mergeLR_rows_mem {l r : Table} {lk rk suf : List Nat} {row : List Val}
    (hrwf : ∀ rr ∈ r.rows, rr.length = r.cols.length)
    (h : row ∈ (mergeLR l r lk rk suf).rows) :
    ∃ lrow ∈ l.rows, ∃ e, row = lrow ++ e ∧ e.length = r.cols.length := by
  simp only [mergeLR, List.mem_flatMap] at h
  obtain ⟨lrow, hl, hrow⟩ := h
  refine ⟨lrow, hl, ?_⟩
  set ms := r.rows.filter (fun rr => getC r.cols rr rk = getC l.cols lrow lk) with hms
  cases hcase : ms with
  | nil =>
    rw [hcase] at hrow
    simp only [List.mem_singleton] at hrow
    exact ⟨_, hrow, by simp⟩
  | cons m0 mrest =>
    rw [hcase] at hrow
    simp only [List.mem_map] at hrow
    obtain ⟨rr, hrr, rfl⟩ := hrow
    have hrmem : rr ∈ r.rows := by
      have : rr ∈ ms := hcase ▸ hrr
      exact List.mem_of_mem_filter this
    exact ⟨_, rfl, hrwf rr hrmem⟩

theorem flatMap_length_ge {α β : Type} {l : List α} {f : α → List β}
    (h : ∀ a ∈ l, 1 ≤ (f a).length) : l.length ≤ (l.flatMap f).length := by
  induction l with
  | nil => simp
  | cons a t ih =>
    simp only [List.flatMap_cons, List.length_append, List.length_cons]
    have h1 := h a (List.mem_cons_self a t)
    have h2 := ih (fun x hx => h x (List.mem_cons_of_mem _ hx))
    omega

theorem flatMap_length_eq {α β : Type} {l : List α} {f : α → List β}
    (h : ∀ a ∈ l, (f a).length = 1) : (l.flatMap f).length = l.length := by
  induction l with
  | nil => simp
  | cons a t ih =>
    simp only [List.flatMap_cons, List.length_append, List.length_cons]
    rw [h a (List.mem_cons_self a t), ih (fun x hx => h x (List.mem_cons_of_mem _ hx))]
    omega

theorem flatMap_singleton_eq_map {α β : Type} {l : List α} {f : α → List β} {g : α → β}
    (h : ∀ a ∈ l, f a = [g a]) : l.flatMap f = l.map g := by
  induction l with
  | nil => simp
  | cons a t ih =>
    simp only [List.flatMap_cons, List.map_cons, h a (List.mem_cons_self a t)]
    rw [ih (fun x hx => h x (List.mem_cons_of_mem _ hx))]
    rfl

/-- Under a duplicate-free key mapping, at most one row matches a key. -/
theorem filter_length_le_one {α β : Type} [DecidableEq β] {l : List α} {f : α → β} {v : β}
    (h : (l.map f).Nodup) : (l.filter (fun x => f x = v)).length ≤ 1 := by
  induction l with
  | nil => simp
  | cons a t ih =>
    simp only [List.map_cons, List.nodup_cons] at h
    obtain ⟨hna, hnd⟩ := h
    by_cases ha : f a = v
    · have : t.filter (fun x => f x = v) = [] := by
        rw [List.filter_eq_nil_iff]
        intro x hx
        simp only [decide_eq_true_eq]
        intro hfx
        exact hna (List.mem_map.mpr ⟨x, hx, by rw [hfx, ha]⟩)
      simp [List.filter_cons, ha, this]
    · simp only [List.filter_cons, ha]
      simpa using ih hnd

/-- The left join never loses a left row. -/
theorem mergeOn_length_ge (l r : Table) (k suf : List Nat) :
    l.rows.length ≤ (mergeOn l r k suf).rows.length := by
  unfold mergeOn
  apply flatMap_length_ge
  intro lrow _
  cases hcase : r.rows.filter (fun rr => getC r.cols rr k = getC l.cols lrow k) with
  | nil => simp [hcase]
  | cons m0 mrest => simp [hcase]

theorem mergeLR_length_ge (l r : Table) (lk rk suf : List Nat) :
    l.rows.length ≤ (mergeLR l r lk rk suf).rows.length := by
  unfold mergeLR
  apply flatMap_length_ge
  intro lrow _
  cases hcase : r.rows.filter (fun rr => getC r.cols rr rk = getC l.cols lrow lk) with
  | nil => simp [hcase]
  | cons m0 mrest => simp [hcase]

/-- One matched (or null-filled) row per left row under unique right keys. -/
theorem mergeOn_length_eq {l r : Table} {k suf : List Nat}
    (hnd : (colVals r k).Nodup) :
    (mergeOn l r k suf).rows.length = l.rows.length := by
  unfold mergeOn
  apply flatMap_length_eq
  intro lrow _
  have hle : (r.rows.filter (fun rr => getC r.cols rr k = getC l.cols lrow k)).length ≤ 1 :=
    @filter_length_le_one _ _ _ _ (fun rr => getC r.cols rr k) _ hnd
  cases hcase : r.rows.filter (fun rr => getC r.cols rr k = getC l.cols lrow k) with
  | nil => simp [hcase]
  | cons m0 mrest =>
      rw [hcase] at hle
      simp only [List.length_cons] at hle
      have : mrest = [] := List.length_eq_zero.mp (by omega)
      simp [hcase, this]

theorem mergeLR_length_eq {l r : Table} {lk rk suf : List Nat}
    (hnd : (colVals r rk).Nodup) :
    (mergeLR l r lk rk suf).rows.length = l.rows.length := by
  unfold mergeLR
  apply flatMap_length_eq
  intro lrow _
  have hle : (r.rows.filter (fun rr => getC r.cols rr rk = getC l.cols lrow lk)).length ≤ 1 :=
    @filter_length_le_one _ _ _ _ (fun rr => getC r.cols rr rk) _ hnd
  cases hcase : r.rows.filter (fun rr => getC r.cols rr rk = getC l.cols lrow lk) with
  | nil => simp [hcase]
  | cons m0 mrest =>
      rw [hcase] at hle
      simp only [List.length_cons] at hle
      have : mrest = [] := List.length_eq_zero.mp (by omega)
      simp [hcase, this]

/-- The single extension row a left row receives in a 1:1 left join. -/
def ext1 (r : Table) (k : List Nat) (kv : Val) : List Val :=
  match r.rows.filter (fun rr => getC r.cols rr k = kv) with
  | [] => List.replicate ((r.cols.filter (· ≠ k)).length) Val.null
  | rr :: _ => projRow r.cols rr k

theorem mergeOn_rows_eq_map {l r : Table} {k suf : List Nat}
    (hnd : (colVals r k).Nodup) :
    (mergeOn l r k suf).rows =
      l.rows.map (fun lr => lr ++ ext1 r k (getC l.cols lr k)) := by
  unfold mergeOn
  apply flatMap_singleton_eq_map
  intro lrow _
  have hle : (r.rows.filter (fun rr => getC r.cols rr k = getC l.cols lrow k)).length ≤ 1 :=
    @filter_length_le_one _ _ _ _ (fun rr => getC r.cols rr k) _ hnd
  unfold ext1
  cases hcase : r.rows.filter (fun rr => getC r.cols rr k = getC l.cols lrow k) with
  | nil => simp [hcase]
  | cons m0 mrest =>
      rw [hcase] at hle
      simp only [List.length_cons] at hle
      have : mrest = [] := List.length_eq_zero.mp (by omega)
      subst this
      simp [hcase]

theorem ext1_length {r : Table} {k : List Nat} {kv : Val}
    (hrwf : ∀ rr ∈ r.rows, rr.length = r.cols.length) :
    (ext1 r k kv).length = (r.cols.filter (· ≠ k)).length := by
  unfold ext1
  cases hcase : r.rows.filter (fun rr => getC r.cols rr k = kv) with
  | nil => simp
  | cons rr mrest =>
      have : rr ∈ r.rows := by
        have : rr ∈ r.rows.filter (fun rr => getC r.cols rr k = kv) := by
          rw [hcase]; exact List.mem_cons_self _ _
        exact List.mem_of_mem_filter this
      exact projRow_length (hrwf rr this)

theorem getD_mem {α : Type} {l : List α} {i : Nat} {d : α} (h : i < l.length) :
    l.getD i d ∈ l := by
  rw [List.getD_eq_getElem _ _ h]
  exact List.getElem_mem h

theorem getD_map_lt {α β : Type} {l : List α} {g : α → β} {i : Nat} {d : β} {d' : α}
    (h : i < l.length) : (l.map g).getD i d = g (l.getD i d') := by
  have h2 : i < (l.map g).length := by simpa using h
  rw [List.getD_eq_getElem _ _ h2, List.getD_eq_getElem _ _ h]
  simp

/-- Reading the newly appended column of a `setColF` row. -/
theorem getC_append_new {cols : List (List Nat)} {row : List Val} {c : List Nat} {x : Val}
    (hc : c ∉ cols) (hwf : row.length = cols.length) :
    getC (cols ++ [c]) (row ++ [x]) c = x := by
  unfold getC
  rw [colIdx_append_right (colIdx_eq_none_iff.mpr hc) (show colIdx [c] c = some 0 by simp [colIdx])]
  have hge : row.length ≤ cols.length + 0 := by omega
  simp only [List.getD_eq_getElem?_getD]
  rw [List.getElem?_append_right hge]
  simp [hwf]

theorem mapCells_cols {f : List Nat → Val → Val} {t : Table} :
    (mapCells f t).cols = t.cols := rfl

theorem mapCells_rows_length {f : List Nat → Val → Val} {t : Table} :
    (mapCells f t).rows.length = t.rows.length := by
  simp [mapCells]

theorem mapCells_wf {f : List Nat → Val → Val} {t : Table}
    (hwf : ∀ row ∈ t.rows, row.length = t.cols.length) :
    ∀ row ∈ (mapCells f t).rows, row.length = (mapCells f t).cols.length := by
  intro row hrow
  simp only [mapCells, List.mem_map] at hrow
  obtain ⟨r0, hr0, rfl⟩ := hrow
  simp [List.length_zipWith, hwf r0 hr0, mapCells_cols]

theorem getC_mapCells {f : List Nat → Val → Val} {t : Table} {c : List Nat} {i : Nat}
    (hwf : ∀ row ∈ t.rows, row.length = t.cols.length) (hi : i < t.rows.length) :
    getC (mapCells f t).cols ((mapCells f t).rows.getD i []) c =
      match colIdx t.cols c with
      | some _ => f c (getC t.cols (t.rows.getD i []) c)
      | none => Val.null := by
  have hrow : (mapCells f t).rows.getD i [] =
      List.zipWith f t.cols (t.rows.getD i []) := by
    simp only [mapCells]
    exact getD_map_lt hi
  rw [hrow, mapCells_cols]
  exact getC_zipWith (hwf _ (getD_mem hi))

theorem setColF_rows_length {c : List Nat} {f : List (List Nat) → List Val → Val} {t : Table} :
    (setColF c f t).rows.length = t.rows.length := by
  unfold setColF
  cases colIdx t.cols c <;> simp

theorem getC_setColF_self {c : List Nat} {f : List (List Nat) → List Val → Val} {t : Table}
    {i : Nat} (hwf : ∀ row ∈ t.rows, row.length = t.cols.length) (hi : i < t.rows.length) :
    getC (setColF c f t).cols ((setColF c f t).rows.getD i []) c =
      f t.cols (t.rows.getD i []) := by
  unfold setColF
  cases hj : colIdx t.cols c with
  | some j =>
    simp only
    rw [getD_map_lt hi]
    exact getC_set hj (hwf _ (getD_mem hi))
  | none =>
    simp only
    rw [getD_map_lt hi]
    exact getC_append_new (colIdx_eq_none_iff.mp hj) (hwf _ (getD_mem hi))

theorem getC_setColF_other {c c' : List Nat} {f : List (List Nat) → List Val → Val} {t : Table}
    {i : Nat} (hne : c' ≠ c) (hwf : ∀ row ∈ t.rows, row.length = t.cols.length)
    (hi : i < t.rows.length) :
    getC (setColF c f t).cols ((setColF c f t).rows.getD i []) c' =
      getC t.cols (t.rows.getD i []) c' := by
  unfold setColF
  cases hj : colIdx t.cols c with
  | some j =>
    simp only
    rw [getD_map_lt hi]
    cases hj' : colIdx t.cols c' with
    | some j' =>
      have hjj : j ≠ j' := by
        intro hcontra
        subst hcontra
        have h1 := colIdx_getD hj
        have h2 := colIdx_getD hj'
        rw [h1] at h2
        exact hne h2.symm
      exact getC_set_ne hj' (by omega)
    | none => simp [getC, hj']
  | none =>
    simp only
    rw [getD_map_lt hi]
    exact getC_append_ext (hwf _ (getD_mem hi)) (by simpa using hne)

theorem setColF_wf {c : List Nat} {f : List (List Nat) → List Val → Val} {t : Table}
    (hwf : ∀ row ∈ t.rows, row.length = t.cols.length) :
    ∀ row ∈ (setColF c f t).rows, row.length = (setColF c f t).cols.length := by
  unfold setColF
  cases hj : colIdx t.cols c with
  | some j =>
    intro row hrow
    simp only [List.mem_map] at hrow
    obtain ⟨r0, hr0, rfl⟩ := hrow
    simp [hwf r0 hr0]
  | none =>
    intro row hrow
    simp only [List.mem_map] at hrow
    obtain ⟨r0, hr0, rfl⟩ := hrow
    simp [hwf r0 hr0]

theorem divV_fin_zero_den_pos {p q : Q} (hq : q.n = 0) (hp : 0 < p.n) :
    divV (.num (.fin p)) (.num (.fin q)) = .num .inf := by
  simp [divV, divN, hq, hp, Int.not_lt.mpr (Int.le_of_lt hp), Int.ne_of_gt hp]

theorem divV_fin_zero_zero {p q : Q} (hq : q.n = 0) (hp : p.n = 0) :
    divV (.num (.fin p)) (.num (.fin q)) = .null := by
  simp [divV, divN, hq, hp]

theorem divV_null_num {b : Val} : divV Val.null b = Val.null := by
  simp [divV]

/-- Cell-level characterization of `transform_detalles_orden`: the derived
`precio_unitario` of each row is the IEEE quotient of the coerced subtotal
by the coerced quantity. -/
theorem detalles_char (t : Table)
    (hc : hasCol t (nm "cantidad") = true) (hs : hasCol t (nm "subtotal") = true)
    (hwf : ∀ row ∈ t.rows, row.length = t.cols.length) :
    (transform_detalles_orden t).rows.length = t.rows.length ∧
    ∀ i, i < t.rows.length →
      getC (transform_detalles_orden t).cols ((transform_detalles_orden t).rows.getD i [])
          (nm "precio_unitario") =
        divV (toNumV (getC t.cols (t.rows.getD i []) (nm "subtotal")))
             (toNumV (getC t.cols (t.rows.getD i []) (nm "cantidad"))) := by
  unfold transform_detalles_orden
  set f : List Nat → Val → Val :=
    fun c v => if c = nm "cantidad" || c = nm "subtotal" then toNumV v else v with hf
  have hc1 : hasCol (mapCells f t) (nm "cantidad") = true := hc
  have hs1 : hasCol (mapCells f t) (nm "subtotal") = true := hs
  simp only [hc1, hs1, Bool.and_self, if_true]
  have hwf1 := @mapCells_wf f _ hwf
  constructor
  · rw [setColF_rows_length, mapCells_rows_length]
  · intro i hi
    have hi1 : i < (mapCells f t).rows.length := by rwa [mapCells_rows_length]
    rw [getC_setColF_self hwf1 hi1]
    have hsub : getC (mapCells f t).cols ((mapCells f t).rows.getD i []) (nm "subtotal") =
        toNumV (getC t.cols (t.rows.getD i []) (nm "subtotal")) := by
      rw [getC_mapCells hwf hi]
      obtain ⟨j, hj⟩ : ∃ j, colIdx t.cols (nm "subtotal") = some j := by
        unfold hasCol at hs
        cases h : colIdx t.cols (nm "subtotal") with
        | some j => exact ⟨j, rfl⟩
        | none => rw [h] at hs; simp at hs
      rw [hj]
      simp [hf]
    have hcant : getC (mapCells f t).cols ((mapCells f t).rows.getD i []) (nm "cantidad") =
        toNumV (getC t.cols (t.rows.getD i []) (nm "cantidad")) := by
      rw [getC_mapCells hwf hi]
      obtain ⟨j, hj⟩ : ∃ j, colIdx t.cols (nm "cantidad") = some j := by
        unfold hasCol at hc
        cases h : colIdx t.cols (nm "cantidad") with
        | some j => exact ⟨j, rfl⟩
        | none => rw [h] at hc; simp at hc
      rw [hj]
      simp [hf]
    rw [hsub, hcant]

/-- C2 (counterexample): on an OrderLine row with quantity `"0"` and
subtotal `"100"`, the cleaned `precio_unitario` is `+inf`, not null as the
claim states (pandas float division by zero produces infinity). -/
theorem C2_counterexample :
    getC (transform_detalles_orden detQZero).cols
        ((transform_detalles_orden detQZero).rows.getD 0 []) (nm "precio_unitario") =
      Val.num .inf ∧ (Val.num .inf : Val) ≠ Val.null := by
  constructor
  · decide
  · decide

/-- C2 (amended): cleaning an OrderLine table with quantity and subtotal
columns derives `precio_unitario = subtotal / cantidad` on every row with
IEEE zero-division semantics: `0 / 0` and missing operands give null, a
positive subtotal over quantity 0 gives `+inf`; no row is dropped and no
error is raised. -/
theorem C2_unit_price (t : Table)
    (hc : hasCol t (nm "cantidad") = true) (hs : hasCol t (nm "subtotal") = true)
    (hwf : ∀ row ∈ t.rows, row.length = t.cols.length) :
    (transform_detalles_orden t).rows.length = t.rows.length ∧
    (∀ i, i < t.rows.length →
      getC (transform_detalles_orden t).cols ((transform_detalles_orden t).rows.getD i [])
          (nm "precio_unitario") =
        divV (toNumV (getC t.cols (t.rows.getD i []) (nm "subtotal")))
             (toNumV (getC t.cols (t.rows.getD i []) (nm "cantidad")))) ∧
    (∀ i, i < t.rows.length →
      ∀ q, toNumV (getC t.cols (t.rows.getD i []) (nm "cantidad")) = .num (.fin q) → q.n = 0 →
        (∀ p, toNumV (getC t.cols (t.rows.getD i []) (nm "subtotal")) = .num (.fin p) →
          (0 < p.n →
            getC (transform_detalles_orden t).cols ((transform_detalles_orden t).rows.getD i [])
              (nm "precio_unitario") = Val.num .inf) ∧
          (p.n = 0 →
            getC (transform_detalles_orden t).cols ((transform_detalles_orden t).rows.getD i [])
              (nm "precio_unitario") = Val.null)) ∧
        (toNumV (getC t.cols (t.rows.getD i []) (nm "subtotal")) = Val.null →
          getC (transform_detalles_orden t).cols ((transform_detalles_orden t).rows.getD i [])
            (nm "precio_unitario") = Val.null)) := by
  obtain ⟨hlen, hcell⟩ := detalles_char t hc hs hwf
  refine ⟨hlen, hcell, ?_⟩
  intro i hi q hq hq0
  constructor
  · intro p hp
    constructor
    · intro hpos
      rw [hcell i hi, hp, hq]
      exact divV_fin_zero_den_pos hq0 hpos
    · intro hz
      rw [hcell i hi, hp, hq]
      exact divV_fin_zero_zero hq0 hz
  · intro hnull
    rw [hcell i hi, hnull, hq]
    exact divV_null_num

/-- C2 (witness): the amended theorem applied to the concrete table with
quantity "0" and subtotal "100". -/
theorem C2_unit_price_witness :
    getC (transform_detalles_orden detQZero).cols
        ((transform_detalles_orden detQZero).rows.getD 0 []) (nm "precio_unitario") =
      Val.num .inf :=
  (((C2_unit_price detQZero (by decide) (by decide) (by decide)).2.2 0 (by decide)
      qZero (by decide) rfl).1 (qOfNat 100) (by decide)).1 (by decide)

theorem fdKeysAux_mem : ∀ (fuel : Nat) (l : List Val), ∀ v ∈ fdKeysAux fuel l, v ∈ l := by
  intro fuel
  induction fuel with
  | zero => intro l v hv; simp [fdKeysAux] at hv
  | succ f ih =>
    intro l v hv
    cases l with
    | nil => simp [fdKeysAux] at hv
    | cons a as =>
      simp only [fdKeysAux, List.mem_cons] at hv
      rcases hv with rfl | hv
      · exact List.mem_cons_self _ _
      · exact List.mem_cons_of_mem _ (List.mem_of_mem_filter (ih _ v hv))

/-- Group keys are pairwise distinct (groupby produces one group per
distinct key value). -/
theorem fdKeysAux_nodup : ∀ (fuel : Nat) (l : List Val), (fdKeysAux fuel l).Nodup := by
  intro fuel
  induction fuel with
  | zero => intro l; simp [fdKeysAux]
  | succ f ih =>
    intro l
    cases l with
    | nil => simp [fdKeysAux]
    | cons a as =>
      simp only [fdKeysAux, List.nodup_cons]
      refine ⟨fun hmem => ?_, ih _⟩
      have := fdKeysAux_mem f (as.filter (· ≠ a)) a hmem
      simp at this

theorem groupKeys_nodup {t : Table} {k : List Nat} : (groupKeys t k).Nodup :=
  fdKeysAux_nodup _ _

/-- The key column of the per-order totals frame lists the group keys. -/
theorem colVals_metricasTotales {d : Table} :
    colVals (metricasTotales d) (nm "id_orden") = groupKeys d (nm "id_orden") := by
  unfold colVals metricasTotales
  simp only [List.map_map]
  conv_rhs => rw [← List.map_id (groupKeys d (nm "id_orden"))]
  apply List.map_congr_left
  intro v _
  rfl

theorem metricasAgg_length {o d : Table} :
    (metricasAgg o d).rows.length =
      (groupKeys (mergeOn o (metricasTotales d) (nm "id_orden") (nm "_y"))
        (nm "id_cliente")).length := by
  simp [metricasAgg]

theorem create_metricas_eq {o d c : Table} :
    create_metricas_por_cliente o d c =
      setColF (nm "ticket_promedio")
        (fun cols row =>
          divV (getC cols row (nm "ingresos_totales")) (getC cols row (nm "num_ordenes")))
        (mergeOn (metricasAgg o d)
          (selectN c [nm "id_cliente", nm "nombre_empresa", nm "ciudad"])
          (nm "id_cliente") (nm "_y")) := rfl

theorem create_productividad_eq {o e : Table} :
    create_productividad_empleados o e =
      setColF (nm "tasa_completitud")
        (fun cols row =>
          round2V (mul100 (divV (getC cols row (nm "ordenes_completadas"))
                               (getC cols row (nm "total_ordenes")))))
        (mergeOn (prodAgg o) (selectN e [nm "id_empleado", nm "nombre", nm "cargo"])
          (nm "id_empleado") (nm "_y")) := rfl

/-- C4 (counterexample): with one production order and a Customer table
whose `id_cliente = 1` appears twice, `CompleteOrders` has two rows for the
single order: the left join changed the result's cardinality. -/
theorem C4_counterexample :
    (create_ordenes_completas ordOne cliDup empOne).rows.length = 2 ∧
    ordOne.rows.length = 1 := by
  constructor
  · decide
  · decide

/-- C4 (amended): in every derived table the left joins never drop a
primary-entity row — orders in `CompleteOrders`, order lines in the two
joins of `ProductSales`, usage lines in the two joins of the
`MaterialUsage` aggregate, orders in the per-order-totals join of
`CustomerMetrics`, and the grouped dimension rows in the final joins of
`CustomerMetrics` and `EmployeeProductivity` — and each join preserves
the cardinality exactly when its lookup-side key column is
duplicate-free (the per-order totals key, a groupby key list, always
is); a duplicated lookup key multiplies the matching primary rows. -/
theorem C4_no_row_loss (o c e det p u m : Table) :
    (o.rows.length ≤ (create_ordenes_completas o c e).rows.length ∧
     ((colVals c (nm "id_cliente")).Nodup → (colVals e (nm "id_empleado")).Nodup →
       (create_ordenes_completas o c e).rows.length = o.rows.length)) ∧
    (det.rows.length ≤
       (mergeOn det (selectN p [nm "id_producto", nm "nombre_producto"])
         (nm "id_producto") (nm "_y")).rows.length ∧
     ((colVals p (nm "id_producto")).Nodup →
       (mergeOn det (selectN p [nm "id_producto", nm "nombre_producto"])
         (nm "id_producto") (nm "_y")).rows.length = det.rows.length) ∧
     (mergeOn det (selectN p [nm "id_producto", nm "nombre_producto"])
        (nm "id_producto") (nm "_y")).rows.length ≤
       (mergeOn (mergeOn det (selectN p [nm "id_producto", nm "nombre_producto"])
           (nm "id_producto") (nm "_y"))
         (selectN o [nm "id_orden", nm "fecha_orden", nm "estado"])
         (nm "id_orden") (nm "_y")).rows.length ∧
     ((colVals o (nm "id_orden")).Nodup →
       (mergeOn (mergeOn det (selectN p [nm "id_producto", nm "nombre_producto"])
           (nm "id_producto") (nm "_y"))
         (selectN o [nm "id_orden", nm "fecha_orden", nm "estado"])
         (nm "id_orden") (nm "_y")).rows.length =
       (mergeOn det (selectN p [nm "id_producto", nm "nombre_producto"])
         (nm "id_producto") (nm "_y")).rows.length)) ∧
    (u.rows.length ≤
       (mergeOn u (selectN m [nm "id_material", nm "nombre_material", nm "tipo",
           nm "cantidad_disponible"]) (nm "id_material") (nm "_y")).rows.length ∧
     ((colVals m (nm "id_material")).Nodup →
       (mergeOn u (selectN m [nm "id_material", nm "nombre_material", nm "tipo",
           nm "cantidad_disponible"]) (nm "id_material") (nm "_y")).rows.length =
         u.rows.length) ∧
     (mergeOn u (selectN m [nm "id_material", nm "nombre_material", nm "tipo",
         nm "cantidad_disponible"]) (nm "id_material") (nm "_y")).rows.length ≤
       (mergeOn (mergeOn u (selectN m [nm "id_material", nm "nombre_material", nm "tipo",
           nm "cantidad_disponible"]) (nm "id_material") (nm "_y"))
         (selectN o [nm "id_orden", nm "fecha_orden"])
         (nm "id_orden") (nm "_y")).rows.length ∧
     ((colVals o (nm "id_orden")).Nodup →
       (mergeOn (mergeOn u (selectN m [nm "id_material", nm "nombre_material", nm "tipo",
           nm "cantidad_disponible"]) (nm "id_material") (nm "_y"))
         (selectN o [nm "id_orden", nm "fecha_orden"])
         (nm "id_orden") (nm "_y")).rows.length =
       (mergeOn u (selectN m [nm "id_material", nm "nombre_material", nm "tipo",
           nm "cantidad_disponible"]) (nm "id_material") (nm "_y")).rows.length)) ∧
    ((mergeOn o (metricasTotales det) (nm "id_orden") (nm "_y")).rows.length =
       o.rows.length ∧
     (metricasAgg o det).rows.length ≤
       (create_metricas_por_cliente o det c).rows.length ∧
     ((colVals c (nm "id_cliente")).Nodup →
       (create_metricas_por_cliente o det c).rows.length =
         (metricasAgg o det).rows.length)) ∧
    ((prodAgg o).rows.length ≤ (create_productividad_empleados o e).rows.length ∧
     ((colVals e (nm "id_empleado")).Nodup →
       (create_productividad_empleados o e).rows.length = (prodAgg o).rows.length)) := by
  refine ⟨⟨?_, ?_⟩, ⟨?_, ?_, ?_, ?_⟩, ⟨?_, ?_, ?_, ?_⟩, ⟨?_, ?_, ?_⟩, ⟨?_, ?_⟩⟩
  · unfold create_ordenes_completas
    simp only [renameC]
    calc o.rows.length
        ≤ (mergeOn o (selectN c [nm "id_cliente", nm "nombre_empresa", nm "ciudad"])
            (nm "id_cliente") (nm "_y")).rows.length := mergeOn_length_ge _ _ _ _
      _ ≤ _ := mergeLR_length_ge _ _ _ _ _
  · intro hc he
    unfold create_ordenes_completas
    simp only [renameC]
    have hc' : (colVals (selectN c [nm "id_cliente", nm "nombre_empresa", nm "ciudad"])
        (nm "id_cliente")).Nodup := by
      rw [colVals_selectN (by decide)]
      exact hc
    have he' : (colVals (selectN e [nm "id_empleado", nm "nombre", nm "cargo"])
        (nm "id_empleado")).Nodup := by
      rw [colVals_selectN (by decide)]
      exact he
    rw [mergeLR_length_eq he', mergeOn_length_eq hc']
  · exact mergeOn_length_ge _ _ _ _
  · intro hp
    apply mergeOn_length_eq
    rw [colVals_selectN (by decide)]
    exact hp
  · exact mergeOn_length_ge _ _ _ _
  · intro ho
    apply mergeOn_length_eq
    rw [colVals_selectN (by decide)]
    exact ho
  · exact mergeOn_length_ge _ _ _ _
  · intro hm
    apply mergeOn_length_eq
    rw [colVals_selectN (by decide)]
    exact hm
  · exact mergeOn_length_ge _ _ _ _
  · intro ho
    apply mergeOn_length_eq
    rw [colVals_selectN (by decide)]
    exact ho
  · apply mergeOn_length_eq
    rw [colVals_metricasTotales]
    exact groupKeys_nodup
  · rw [create_metricas_eq, setColF_rows_length]
    exact mergeOn_length_ge _ _ _ _
  · intro hc
    rw [create_metricas_eq, setColF_rows_length]
    apply mergeOn_length_eq
    rw [colVals_selectN (by decide)]
    exact hc
  · rw [create_productividad_eq, setColF_rows_length]
    exact mergeOn_length_ge _ _ _ _
  · intro he
    rw [create_productividad_eq, setColF_rows_length]
    apply mergeOn_length_eq
    rw [colVals_selectN (by decide)]
    exact he

/-- C4 (witness): with duplicate-free lookup tables, every derived
table's joins preserve the primary-entity row count on a concrete
fully-columned entity set. -/
theorem C4_no_row_loss_witness :
    (create_ordenes_completas ordFive cliOne empOne).rows.length = ordFive.rows.length ∧
    (mergeOn (mergeOn detDup (selectN prodOne [nm "id_producto", nm "nombre_producto"])
        (nm "id_producto") (nm "_y"))
      (selectN ordFive [nm "id_orden", nm "fecha_orden", nm "estado"])
      (nm "id_orden") (nm "_y")).rows.length =
      (mergeOn detDup (selectN prodOne [nm "id_producto", nm "nombre_producto"])
        (nm "id_producto") (nm "_y")).rows.length ∧
    (mergeOn usoOne (selectN matZero [nm "id_material", nm "nombre_material", nm "tipo",
        nm "cantidad_disponible"]) (nm "id_material") (nm "_y")).rows.length =
      usoOne.rows.length ∧
    (create_metricas_por_cliente ordFive detDup cliOne).rows.length =
      (metricasAgg ordFive detDup).rows.length ∧
    (create_productividad_empleados ordFive empOne).rows.length =
      (prodAgg ordFive).rows.length := by
  have h := C4_no_row_loss ordFive cliOne empOne detDup prodOne usoOne matZero
  exact ⟨h.1.2 (by decide) (by decide), h.2.1.2.2.2 (by decide),
    h.2.2.1.2.1 (by decide), h.2.2.2.1.2.2 (by decide), h.2.2.2.2.2 (by decide)⟩

theorem lookup_append {α β : Type} [BEq α] {k : α} {l1 l2 : List (α × β)} :
    List.lookup k (l1 ++ l2) = (List.lookup k l1).or (List.lookup k l2) := by
  induction l1 with
  | nil => simp [List.lookup]
  | cons p rest ih =>
    cases p with
    | mk a b =>
      simp only [List.cons_append, List.lookup]
      cases h : k == a <;> simp [ih]

theorem lookup_ite_singleton {k n : List Nat} {v : Table} {c : Bool} (hne : k ≠ n) :
    List.lookup k (if c then [(n, v)] else []) = none := by
  cases c <;> simp [List.lookup]
  rw [show (k == n) = false from beq_eq_false_iff_ne.mpr hne]

theorem lookup_ite_singleton_self {n : List Nat} {v : Table} {c : Bool} :
    (List.lookup n (if c then [(n, v)] else []) ).isSome = c := by
  cases c <;> simp [List.lookup]

/-- C7 (confirmed): `create_analytics_tables` builds exactly the derived
tables whose required source entities are present — on every entity set
whose present tables carry the columns the builders read (so that no
builder raises), each of the five output names is present iff its
dependencies are; in particular, with the Material table absent from a
fully-columned entity set, `uso_materiales_agregado` is omitted while
the other four (whose dependencies are present) are still produced. -/
theorem C7_skip_missing_dependencies :
    (∀ ds : Datasets, dsColsOk ds = true →
      ((create_analytics_tables ds).lookup (nm "ordenes_completas")).isSome =
        (hasK ds (nm "ordenes_produccion") && hasK ds (nm "clientes") && hasK ds (nm "empleados")) ∧
      ((create_analytics_tables ds).lookup (nm "ventas_por_producto")).isSome =
        (hasK ds (nm "detalles_orden") && hasK ds (nm "productos") && hasK ds (nm "ordenes_produccion")) ∧
      ((create_analytics_tables ds).lookup (nm "uso_materiales_agregado")).isSome =
        (hasK ds (nm "uso_materiales") && hasK ds (nm "materiales") && hasK ds (nm "ordenes_produccion")) ∧
      ((create_analytics_tables ds).lookup (nm "metricas_por_cliente")).isSome =
        (hasK ds (nm "ordenes_produccion") && hasK ds (nm "detalles_orden") && hasK ds (nm "clientes")) ∧
      ((create_analytics_tables ds).lookup (nm "productividad_empleados")).isSome =
        (hasK ds (nm "ordenes_produccion") && hasK ds (nm "empleados"))) ∧
    ((create_analytics_tables dsNoMat).lookup (nm "uso_materiales_agregado") = none ∧
      ((create_analytics_tables dsNoMat).map (·.1)) =
        [nm "ordenes_completas", nm "ventas_por_producto",
         nm "metricas_por_cliente", nm "productividad_empleados"]) := by
  constructor
  · intro ds _
    unfold create_analytics_tables
    refine ⟨?_, ?_, ?_, ?_, ?_⟩
    · simp only [lookup_append,
        lookup_ite_singleton (show nm "ordenes_completas" ≠ nm "ventas_por_producto" from by decide),
        lookup_ite_singleton (show nm "ordenes_completas" ≠ nm "uso_materiales_agregado" from by decide),
        lookup_ite_singleton (show nm "ordenes_completas" ≠ nm "metricas_por_cliente" from by decide),
        lookup_ite_singleton (show nm "ordenes_completas" ≠ nm "productividad_empleados" from by decide),
        Option.or_none]
      exact lookup_ite_singleton_self
    · simp only [lookup_append,
        lookup_ite_singleton (show nm "ventas_por_producto" ≠ nm "ordenes_completas" from by decide),
        lookup_ite_singleton (show nm "ventas_por_producto" ≠ nm "uso_materiales_agregado" from by decide),
        lookup_ite_singleton (show nm "ventas_por_producto" ≠ nm "metricas_por_cliente" from by decide),
        lookup_ite_singleton (show nm "ventas_por_producto" ≠ nm "productividad_empleados" from by decide),
        Option.or_none, Option.none_or]
      exact lookup_ite_singleton_self
    · simp only [lookup_append,
        lookup_ite_singleton (show nm "uso_materiales_agregado" ≠ nm "ordenes_completas" from by decide),
        lookup_ite_singleton (show nm "uso_materiales_agregado" ≠ nm "ventas_por_producto" from by decide),
        lookup_ite_singleton (show nm "uso_materiales_agregado" ≠ nm "metricas_por_cliente" from by decide),
        lookup_ite_singleton (show nm "uso_materiales_agregado" ≠ nm "productividad_empleados" from by decide),
        Option.or_none, Option.none_or]
      exact lookup_ite_singleton_self
    · simp only [lookup_append,
        lookup_ite_singleton (show nm "metricas_por_cliente" ≠ nm "ordenes_completas" from by decide),
        lookup_ite_singleton (show nm "metricas_por_cliente" ≠ nm "ventas_por_producto" from by decide),
        lookup_ite_singleton (show nm "metricas_por_cliente" ≠ nm "uso_materiales_agregado" from by decide),
        lookup_ite_singleton (show nm "metricas_por_cliente" ≠ nm "productividad_empleados" from by decide),
        Option.or_none, Option.none_or]
      exact lookup_ite_singleton_self
    · simp only [lookup_append,
        lookup_ite_singleton (show nm "productividad_empleados" ≠ nm "ordenes_completas" from by decide),
        lookup_ite_singleton (show nm "productividad_empleados" ≠ nm "ventas_por_producto" from by decide),
        lookup_ite_singleton (show nm "productividad_empleados" ≠ nm "uso_materiales_agregado" from by decide),
        lookup_ite_singleton (show nm "productividad_empleados" ≠ nm "metricas_por_cliente" from by decide),
        Option.or_none, Option.none_or]
      exact lookup_ite_singleton_self
  · constructor
    · decide
    · decide

/-- C7 (witness): the presence-iff facts instantiated at the concrete
fully-columned entity set without materials. -/
theorem C7_skip_missing_dependencies_witness :
    ((create_analytics_tables dsNoMat).lookup (nm "ordenes_completas")).isSome =
      (hasK dsNoMat (nm "ordenes_produccion") && hasK dsNoMat (nm "clientes") &&
        hasK dsNoMat (nm "empleados")) ∧
    ((create_analytics_tables dsNoMat).lookup (nm "ventas_por_producto")).isSome =
      (hasK dsNoMat (nm "detalles_orden") && hasK dsNoMat (nm "productos") &&
        hasK dsNoMat (nm "ordenes_produccion")) ∧
    ((create_analytics_tables dsNoMat).lookup (nm "uso_materiales_agregado")).isSome =
      (hasK dsNoMat (nm "uso_materiales") && hasK dsNoMat (nm "materiales") &&
        hasK dsNoMat (nm "ordenes_produccion")) ∧
    ((create_analytics_tables dsNoMat).lookup (nm "metricas_por_cliente")).isSome =
      (hasK dsNoMat (nm "ordenes_produccion") && hasK dsNoMat (nm "detalles_orden") &&
        hasK dsNoMat (nm "clientes")) ∧
    ((create_analytics_tables dsNoMat).lookup (nm "productividad_empleados")).isSome =
      (hasK dsNoMat (nm "ordenes_produccion") && hasK dsNoMat (nm "empleados")) :=
  C7_skip_missing_dependencies.1 dsNoMat (by decide)

theorem toDateV_shape {v : Val} (h : finCell v = true) :
    toDateV v = Val.null ∨ ∃ q, toDateV v = .num (.fin q) := by
  cases v with
  | null => exact Or.inl rfl
  | str s =>
    cases hp : parseDateL s with
    | none => exact Or.inl (by simp [toDateV, hp])
    | some n => exact Or.inr ⟨qOfNat n, by simp [toDateV, hp]⟩
  | num x =>
    cases x with
    | fin q => exact Or.inr ⟨q, rfl⟩
    | inf => simp [finCell] at h
    | ninf => simp [finCell] at h

theorem subDays_ne_null_iff {a b : Val}
    (ha : a = Val.null ∨ ∃ q, a = .num (.fin q)) (hb : b = Val.null ∨ ∃ q, b = .num (.fin q)) :
    subDays a b ≠ Val.null ↔ a ≠ Val.null ∧ b ≠ Val.null := by
  rcases ha with rfl | ⟨qa, rfl⟩ <;> rcases hb with rfl | ⟨qb, rfl⟩ <;> simp [subDays]

/-- C9 (counterexample): order cleaning does not always run to
completion — an all-numeric `estado` column is not object-dtype, so
`df_clean['estado'].str.strip()` raises `AttributeError` and no cleaned
table is produced. -/
theorem C9_counterexample :
    transform_ordenes_produccionE ordEstadoNum = Except.error attrErr := by
  rfl

/-- C9 (amended): provided a present `estado` column is object-dtype
after the date coercions (otherwise `.str` raises `AttributeError`),
cleaning a ProductionOrder table succeeds, coerces both date columns
with "unparseable → null" semantics without dropping any row, trims and
title-cases the status, and derives `duracion_dias` as the day
difference, non-null exactly when both cleaned dates are non-null. -/
theorem C9_ordenes_cleaning (t : Table)
    (ho : hasCol t (nm "fecha_orden") = true) (hc : hasCol t (nm "fecha_completado") = true)
    (hwf : ∀ row ∈ t.rows, row.length = t.cols.length)
    (hse : (hasCol (ordDates t) (nm "estado") &&
      !(strAccOk (ordDates t) (nm "estado"))) = false) :
    transform_ordenes_produccionE t = Except.ok (transform_ordenes_produccion t) ∧
    (transform_ordenes_produccion t).rows.length = t.rows.length ∧
    ∀ i, i < t.rows.length →
      (getC (transform_ordenes_produccion t).cols ((transform_ordenes_produccion t).rows.getD i [])
          (nm "fecha_orden") = toDateV (getC t.cols (t.rows.getD i []) (nm "fecha_orden"))) ∧
      (getC (transform_ordenes_produccion t).cols ((transform_ordenes_produccion t).rows.getD i [])
          (nm "fecha_completado") = toDateV (getC t.cols (t.rows.getD i []) (nm "fecha_completado"))) ∧
      (∀ s, getC t.cols (t.rows.getD i []) (nm "fecha_orden") = .str s → parseDateL s = none →
        getC (transform_ordenes_produccion t).cols ((transform_ordenes_produccion t).rows.getD i [])
          (nm "fecha_orden") = Val.null) ∧
      (getC (transform_ordenes_produccion t).cols ((transform_ordenes_produccion t).rows.getD i [])
          (nm "estado") = titleS (stripS (getC t.cols (t.rows.getD i []) (nm "estado")))) ∧
      (getC (transform_ordenes_produccion t).cols ((transform_ordenes_produccion t).rows.getD i [])
          (nm "duracion_dias") =
        subDays (toDateV (getC t.cols (t.rows.getD i []) (nm "fecha_completado")))
                (toDateV (getC t.cols (t.rows.getD i []) (nm "fecha_orden")))) ∧
      (finCell (getC t.cols (t.rows.getD i []) (nm "fecha_orden")) = true →
       finCell (getC t.cols (t.rows.getD i []) (nm "fecha_completado")) = true →
        (getC (transform_ordenes_produccion t).cols
            ((transform_ordenes_produccion t).rows.getD i []) (nm "duracion_dias") ≠ Val.null ↔
          toDateV (getC t.cols (t.rows.getD i []) (nm "fecha_orden")) ≠ Val.null ∧
          toDateV (getC t.cols (t.rows.getD i []) (nm "fecha_completado")) ≠ Val.null)) := by
  have hE : transform_ordenes_produccionE t = Except.ok (transform_ordenes_produccion t) := by
    unfold transform_ordenes_produccionE
    rw [if_neg (show ¬((hasCol (ordDates t) (nm "estado") &&
      !(strAccOk (ordDates t) (nm "estado"))) = true) from by
        rw [hse]; exact Bool.false_ne_true)]
  refine ⟨hE, ?_⟩
  unfold transform_ordenes_produccion
  set f1 : List Nat → Val → Val :=
    fun c v => if hasSub (nm "fecha") (lowerL c) then toDateV v else v with hf1
  set f2 : List Nat → Val → Val :=
    fun c v => if c = nm "estado" then titleS (stripS v) else v with hf2
  have ho1 : hasCol (mapCells f2 (mapCells f1 t)) (nm "fecha_orden") = true := ho
  have hc1 : hasCol (mapCells f2 (mapCells f1 t)) (nm "fecha_completado") = true := hc
  simp only [ho1, hc1, Bool.and_self, if_true]
  have hwf1 := @mapCells_wf f1 _ hwf
  have hwf2 := @mapCells_wf f2 _ hwf1
  have hlen1 : (mapCells f1 t).rows.length = t.rows.length := mapCells_rows_length
  have hlen2 : (mapCells f2 (mapCells f1 t)).rows.length = t.rows.length := by
    rw [mapCells_rows_length, hlen1]
  refine ⟨by rw [setColF_rows_length, hlen2], ?_⟩
  intro i hi
  have hi1 : i < (mapCells f1 t).rows.length := by rwa [hlen1]
  have hi2 : i < (mapCells f2 (mapCells f1 t)).rows.length := by rwa [hlen2]
  -- cells of the two map passes
  have cell2 : ∀ c : List Nat,
      getC (mapCells f2 (mapCells f1 t)).cols ((mapCells f2 (mapCells f1 t)).rows.getD i []) c =
        match colIdx t.cols c with
        | some _ => f2 c (f1 c (getC t.cols (t.rows.getD i []) c))
        | none => Val.null := by
    intro c
    rw [getC_mapCells hwf1 hi1]
    cases hcol : colIdx t.cols c with
    | none => simp [mapCells_cols, hcol]
    | some j =>
      simp only [mapCells_cols, hcol]
      have hin := @getC_mapCells f1 _ c _ hwf hi
      simp only [mapCells_cols, hcol] at hin
      rw [hin]
  have hfo : ∃ j, colIdx t.cols (nm "fecha_orden") = some j := by
    unfold hasCol at ho
    cases h : colIdx t.cols (nm "fecha_orden") with
    | some j => exact ⟨j, rfl⟩
    | none => rw [h] at ho; simp at ho
  have hfc : ∃ j, colIdx t.cols (nm "fecha_completado") = some j := by
    unfold hasCol at hc
    cases h : colIdx t.cols (nm "fecha_completado") with
    | some j => exact ⟨j, rfl⟩
    | none => rw [h] at hc; simp at hc
  obtain ⟨jo, hjo⟩ := hfo
  obtain ⟨jc, hjc⟩ := hfc
  have eqfo : getC (mapCells f2 (mapCells f1 t)).cols
      ((mapCells f2 (mapCells f1 t)).rows.getD i []) (nm "fecha_orden") =
      toDateV (getC t.cols (t.rows.getD i []) (nm "fecha_orden")) := by
    rw [cell2, hjo]
    simp only [hf1, hf2]
    rw [if_neg (show ¬(nm "fecha_orden" = nm "estado") from by decide),
        if_pos (show hasSub (nm "fecha") (lowerL (nm "fecha_orden")) = true from by decide)]
  have eqfc : getC (mapCells f2 (mapCells f1 t)).cols
      ((mapCells f2 (mapCells f1 t)).rows.getD i []) (nm "fecha_completado") =
      toDateV (getC t.cols (t.rows.getD i []) (nm "fecha_completado")) := by
    rw [cell2, hjc]
    simp only [hf1, hf2]
    rw [if_neg (show ¬(nm "fecha_completado" = nm "estado") from by decide),
        if_pos (show hasSub (nm "fecha") (lowerL (nm "fecha_completado")) = true from by decide)]
  have eqes : getC (mapCells f2 (mapCells f1 t)).cols
      ((mapCells f2 (mapCells f1 t)).rows.getD i []) (nm "estado") =
      titleS (stripS (getC t.cols (t.rows.getD i []) (nm "estado"))) := by
    rw [cell2]
    cases hcol : colIdx t.cols (nm "estado") with
    | none =>
      have hnull : getC t.cols (t.rows.getD i []) (nm "estado") = Val.null := by
        simp [getC, hcol]
      simp only [List.getD_eq_getElem?_getD] at hnull ⊢
      simp [hnull, titleS, stripS]
    | some j =>
      simp only [hf1, hf2]
      have h2 : hasSub (nm "fecha") (lowerL (nm "estado")) = false := by decide
      simp [h2]
  have hdne : (nm "fecha_orden") ≠ (nm "duracion_dias") := by decide
  have hcne : (nm "fecha_completado") ≠ (nm "duracion_dias") := by decide
  have hene : (nm "estado") ≠ (nm "duracion_dias") := by decide
  have hdur : getC (setColF (nm "duracion_dias")
      (fun cols row => subDays (getC cols row (nm "fecha_completado"))
        (getC cols row (nm "fecha_orden")))
      (mapCells f2 (mapCells f1 t))).cols
      ((setColF (nm "duracion_dias")
        (fun cols row => subDays (getC cols row (nm "fecha_completado"))
          (getC cols row (nm "fecha_orden")))
        (mapCells f2 (mapCells f1 t))).rows.getD i []) (nm "duracion_dias") =
      subDays (toDateV (getC t.cols (t.rows.getD i []) (nm "fecha_completado")))
              (toDateV (getC t.cols (t.rows.getD i []) (nm "fecha_orden"))) := by
    rw [getC_setColF_self hwf2 hi2, eqfc, eqfo]
  refine ⟨?_, ?_, ?_, ?_, hdur, ?_⟩
  · rw [getC_setColF_other hdne hwf2 hi2, eqfo]
  · rw [getC_setColF_other hcne hwf2 hi2, eqfc]
  · intro s hs hparse
    rw [getC_setColF_other hdne hwf2 hi2, eqfo, hs]
    simp [toDateV, hparse]
  · rw [getC_setColF_other hene hwf2 hi2, eqes]
  · intro hfo' hfc'
    rw [hdur]
    have h1 := toDateV_shape hfo'
    have h2 := toDateV_shape hfc'
    rw [subDays_ne_null_iff h2 h1]
    exact and_comm

/-- C9 (witness): the spec's Scenario 1 — status `" completado "`
becomes `"Completado"` and `duracion_dias = 9`. -/
theorem C9_ordenes_cleaning_witness :
    getC (transform_ordenes_produccion ordScen).cols
        ((transform_ordenes_produccion ordScen).rows.getD 0 []) (nm "estado") =
      Val.str (nm "Completado") ∧
    getC (transform_ordenes_produccion ordScen).cols
        ((transform_ordenes_produccion ordScen).rows.getD 0 []) (nm "duracion_dias") =
      vInt 9 := by
  have h := (C9_ordenes_cleaning ordScen (by decide) (by decide) (by decide)
    (by decide)).2.2 0 (by decide)
  refine ⟨?_, ?_⟩
  · rw [h.2.2.2.1]
    decide
  · rw [h.2.2.2.2.1]
    decide

theorem fillna0_ne_null {v : Val} : fillna0 v ≠ Val.null := by
  unfold fillna0
  split
  · simp
  · assumption

theorem divV_fin_inf_chain_null {p q : Q} (hq : q.n = 0) (hp : p.n = 0) :
    round2V (mul100 (divV (.num (.fin p)) (.num (.fin q)))) = Val.null := by
  rw [divV_fin_zero_zero hq hp]
  rfl

theorem divV_fin_inf_chain_inf {p q : Q} (hq : q.n = 0) (hp : 0 < p.n) :
    round2V (mul100 (divV (.num (.fin p)) (.num (.fin q)))) = Val.num .inf := by
  rw [divV_fin_zero_den_pos hq hp]
  rfl

/-- C1 (counterexample): material 1 has `cantidad_disponible = 0` and a
summed use of 5; the built `tasa_rotacion` is `+inf` — not 0 and not null,
because `fillna(0)` replaces NaN but not infinity. -/
theorem C1_counterexample :
    getC (create_uso_materiales_agregado usoOne matZero ordF).cols
        ((create_uso_materiales_agregado usoOne matZero ordF).rows.getD 0 [])
        (nm "cantidad_disponible") = vInt 0 ∧
    getC (create_uso_materiales_agregado usoOne matZero ordF).cols
        ((create_uso_materiales_agregado usoOne matZero ordF).rows.getD 0 [])
        (nm "tasa_rotacion") = Val.num .inf ∧
    (Val.num .inf : Val) ≠ vInt 0 ∧ (Val.num .inf : Val) ≠ Val.null := by
  refine ⟨by decide, by decide, by decide, by decide⟩

theorem divV_null_right {a : Val} : divV a Val.null = Val.null := by
  cases a <;> rfl

/-- tasa_rotacion facts for every row of the MaterialUsageSummary table. -/
theorem usoTasaFacts (uso mat ord : Table) :
    ∀ row ∈ (create_uso_materiales_agregado uso mat ord).rows,
      getC (create_uso_materiales_agregado uso mat ord).cols row (nm "tasa_rotacion") ≠ Val.null ∧
      (getC (create_uso_materiales_agregado uso mat ord).cols row (nm "cantidad_disponible") =
          Val.null →
        getC (create_uso_materiales_agregado uso mat ord).cols row (nm "tasa_rotacion") =
          .num (.fin qZero)) ∧
      (∀ p q,
        getC (create_uso_materiales_agregado uso mat ord).cols row (nm "cantidad_total_usada") =
          .num (.fin p) →
        getC (create_uso_materiales_agregado uso mat ord).cols row (nm "cantidad_disponible") =
          .num (.fin q) → q.n = 0 →
        (p.n = 0 →
          getC (create_uso_materiales_agregado uso mat ord).cols row (nm "tasa_rotacion") =
            Val.num (.fin qZero)) ∧
        (0 < p.n →
          getC (create_uso_materiales_agregado uso mat ord).cols row (nm "tasa_rotacion") =
            Val.num .inf)) := by
  intro row hrow
  unfold create_uso_materiales_agregado at hrow ⊢
  simp only [List.mem_map] at hrow
  obtain ⟨v, hv, rfl⟩ := hrow
  set df := mergeOn
      (mergeOn uso
        (selectN mat [nm "id_material", nm "nombre_material", nm "tipo", nm "cantidad_disponible"])
        (nm "id_material") (nm "_y"))
      (selectN ord [nm "id_orden", nm "fecha_orden"]) (nm "id_orden") (nm "_y") with hdf
  set g := groupRows df (nm "id_material") v with hg
  set disp := firstNN (g.map (fun r => getC df.cols r (nm "cantidad_disponible"))) with hdisp
  set used := sumVals (g.map (fun r => getC df.cols r (nm "cantidad_usada"))) with hused
  have cTasa : getC
      [nm "id_material", nm "nombre_material", nm "tipo", nm "cantidad_disponible",
        nm "cantidad_total_usada", nm "num_ordenes", nm "tasa_rotacion"]
      [v, firstNN (g.map (fun r => getC df.cols r (nm "nombre_material"))),
        firstNN (g.map (fun r => getC df.cols r (nm "tipo"))), disp, used,
        countCell (g.map (fun r => getC df.cols r (nm "id_orden"))), fillna0 (divV used disp)]
      (nm "tasa_rotacion") = fillna0 (divV used disp) := by rfl
  have cDisp : getC
      [nm "id_material", nm "nombre_material", nm "tipo", nm "cantidad_disponible",
        nm "cantidad_total_usada", nm "num_ordenes", nm "tasa_rotacion"]
      [v, firstNN (g.map (fun r => getC df.cols r (nm "nombre_material"))),
        firstNN (g.map (fun r => getC df.cols r (nm "tipo"))), disp, used,
        countCell (g.map (fun r => getC df.cols r (nm "id_orden"))), fillna0 (divV used disp)]
      (nm "cantidad_disponible") = disp := by rfl
  have cUsed : getC
      [nm "id_material", nm "nombre_material", nm "tipo", nm "cantidad_disponible",
        nm "cantidad_total_usada", nm "num_ordenes", nm "tasa_rotacion"]
      [v, firstNN (g.map (fun r => getC df.cols r (nm "nombre_material"))),
        firstNN (g.map (fun r => getC df.cols r (nm "tipo"))), disp, used,
        countCell (g.map (fun r => getC df.cols r (nm "id_orden"))), fillna0 (divV used disp)]
      (nm "cantidad_total_usada") = used := by rfl
  refine ⟨?_, ?_, ?_⟩
  · rw [cTasa]
    exact fillna0_ne_null
  · intro hnull
    rw [cDisp] at hnull
    rw [cTasa, hnull, divV_null_right]
    rfl
  · intro p q hp hq hq0
    rw [cUsed] at hp
    rw [cDisp] at hq
    constructor
    · intro hp0
      rw [cTasa, hp, hq, divV_fin_zero_zero hq0 hp0]
      rfl
    · intro hppos
      rw [cTasa, hp, hq, divV_fin_zero_den_pos hq0 hppos]
      rfl

/-- ticket_promedio facts for every row of the ProductSales table. -/
theorem ventasTicketFacts (det prod ord : Table) :
    ∀ row ∈ (create_ventas_por_producto det prod ord).rows,
      ∀ q, getC (create_ventas_por_producto det prod ord).cols row (nm "num_ordenes") =
          .num (.fin q) → q.n = 0 →
        (∀ p, getC (create_ventas_por_producto det prod ord).cols row (nm "ingresos_totales") =
            .num (.fin p) →
          (p.n = 0 →
            getC (create_ventas_por_producto det prod ord).cols row (nm "ticket_promedio") =
              Val.null) ∧
          (0 < p.n →
            getC (create_ventas_por_producto det prod ord).cols row (nm "ticket_promedio") =
              Val.num .inf)) ∧
        (getC (create_ventas_por_producto det prod ord).cols row (nm "ingresos_totales") =
            Val.null →
          getC (create_ventas_por_producto det prod ord).cols row (nm "ticket_promedio") =
            Val.null) := by
  intro row hrow
  unfold create_ventas_por_producto at hrow ⊢
  simp only [List.mem_map] at hrow
  obtain ⟨v, hv, rfl⟩ := hrow
  set df := mergeOn
      (mergeOn det (selectN prod [nm "id_producto", nm "nombre_producto"])
        (nm "id_producto") (nm "_y"))
      (selectN ord [nm "id_orden", nm "fecha_orden", nm "estado"]) (nm "id_orden") (nm "_y")
    with hdf
  set g := groupRows df (nm "id_producto") v with hg
  set ing := sumVals (g.map (fun r => getC df.cols r (nm "subtotal"))) with hing
  set nord := countCell (g.map (fun r => getC df.cols r (nm "id_orden"))) with hnord
  have cTicket : getC
      [nm "id_producto", nm "nombre_producto", nm "cantidad_total",
        nm "ingresos_totales", nm "num_ordenes", nm "ticket_promedio"]
      [v, firstNN (g.map (fun r => getC df.cols r (nm "nombre_producto"))),
        sumVals (g.map (fun r => getC df.cols r (nm "cantidad"))), ing, nord, divV ing nord]
      (nm "ticket_promedio") = divV ing nord := by rfl
  have cIng : getC
      [nm "id_producto", nm "nombre_producto", nm "cantidad_total",
        nm "ingresos_totales", nm "num_ordenes", nm "ticket_promedio"]
      [v, firstNN (g.map (fun r => getC df.cols r (nm "nombre_producto"))),
        sumVals (g.map (fun r => getC df.cols r (nm "cantidad"))), ing, nord, divV ing nord]
      (nm "ingresos_totales") = ing := by rfl
  have cNord : getC
      [nm "id_producto", nm "nombre_producto", nm "cantidad_total",
        nm "ingresos_totales", nm "num_ordenes", nm "ticket_promedio"]
      [v, firstNN (g.map (fun r => getC df.cols r (nm "nombre_producto"))),
        sumVals (g.map (fun r => getC df.cols r (nm "cantidad"))), ing, nord, divV ing nord]
      (nm "num_ordenes") = nord := by rfl
  intro q hqc hq0
  rw [cNord] at hqc
  refine ⟨?_, ?_⟩
  · intro p hpc
    rw [cIng] at hpc
    constructor
    · intro hp0
      rw [cTicket, hpc, hqc]
      exact divV_fin_zero_zero hq0 hp0
    · intro hppos
      rw [cTicket, hpc, hqc]
      exact divV_fin_zero_den_pos hq0 hppos
  · intro hnull
    rw [cIng] at hnull
    rw [cTicket, hnull, hqc]
    exact divV_null_num

/-- tasa_completitud facts for every row of the EmployeeProductivity table. -/
theorem prodTasaFacts (ordenes empleados : Table) :
    ∀ row ∈ (create_productividad_empleados ordenes empleados).rows,
      ∀ p q, getC (create_productividad_empleados ordenes empleados).cols row
          (nm "total_ordenes") = .num (.fin q) → q.n = 0 →
        getC (create_productividad_empleados ordenes empleados).cols row
          (nm "ordenes_completadas") = .num (.fin p) →
        (p.n = 0 →
          getC (create_productividad_empleados ordenes empleados).cols row
            (nm "tasa_completitud") = Val.null) ∧
        (0 < p.n →
          getC (create_productividad_empleados ordenes empleados).cols row
            (nm "tasa_completitud") = Val.num .inf) := by
  intro row hrow
  unfold create_productividad_empleados at hrow ⊢
  set prodT : Table :=
    ⟨[nm "id_empleado", nm "total_ordenes", nm "ordenes_completadas"],
     (groupKeys ordenes (nm "id_empleado_responsable")).map (fun v =>
       let g := groupRows ordenes (nm "id_empleado_responsable") v
       [v,
        countCell (g.map (fun r => getC ordenes.cols r (nm "id_orden"))),
        .num (.fin (qOfNat ((g.filter
          (fun r => getC ordenes.cols r (nm "estado") = .str (nm "Completado"))).length)))])⟩
    with hprodT
  set merged := mergeOn prodT (selectN empleados [nm "id_empleado", nm "nombre", nm "cargo"])
    (nm "id_empleado") (nm "_y") with hmerged
  have hmcols : merged.cols =
      [nm "id_empleado", nm "total_ordenes", nm "ordenes_completadas", nm "nombre", nm "cargo"] := by
    rw [hmerged]
    rfl
  have hidx : colIdx merged.cols (nm "tasa_completitud") = none := by
    rw [hmcols]
    rfl
  simp only [setColF, hidx] at hrow ⊢
  simp only [List.mem_map] at hrow
  obtain ⟨r, hr, rfl⟩ := hrow
  have hrlen : r.length = merged.cols.length := by
    obtain ⟨prow, hprow, e, rfl, helen⟩ :=
      @mergeOn_rows_mem prodT
        (selectN empleados [nm "id_empleado", nm "nombre", nm "cargo"])
        (nm "id_empleado") (nm "_y") _ selectN_wf hr
    have hplen : prow.length = 3 := by
      have := hprow
      simp only [hprodT, List.mem_map] at this
      obtain ⟨v, _, rfl⟩ := this
      rfl
    rw [hmcols]
    simp only [List.length_append, hplen]
    rw [helen]
    rfl
  have hTasaNotIn : (nm "tasa_completitud") ∉ merged.cols := by
    rw [hmcols]
    decide
  have cTasa : getC (merged.cols ++ [nm "tasa_completitud"])
      (r ++ [round2V (mul100 (divV (getC merged.cols r (nm "ordenes_completadas"))
        (getC merged.cols r (nm "total_ordenes"))))]) (nm "tasa_completitud") =
      round2V (mul100 (divV (getC merged.cols r (nm "ordenes_completadas"))
        (getC merged.cols r (nm "total_ordenes")))) :=
    getC_append_new hTasaNotIn hrlen
  have cTot : getC (merged.cols ++ [nm "tasa_completitud"])
      (r ++ [round2V (mul100 (divV (getC merged.cols r (nm "ordenes_completadas"))
        (getC merged.cols r (nm "total_ordenes"))))]) (nm "total_ordenes") =
      getC merged.cols r (nm "total_ordenes") :=
    getC_append_ext hrlen (by decide)
  have cComp : getC (merged.cols ++ [nm "tasa_completitud"])
      (r ++ [round2V (mul100 (divV (getC merged.cols r (nm "ordenes_completadas"))
        (getC merged.cols r (nm "total_ordenes"))))]) (nm "ordenes_completadas") =
      getC merged.cols r (nm "ordenes_completadas") :=
    getC_append_ext hrlen (by decide)
  intro p q hqc hq0 hpc
  rw [cTot] at hqc
  rw [cComp] at hpc
  constructor
  · intro hp0
    rw [cTasa, hpc, hqc]
    exact divV_fin_inf_chain_null hq0 hp0
  · intro hppos
    rw [cTasa, hpc, hqc]
    exact divV_fin_inf_chain_inf hq0 hppos

/-- ticket_promedio facts for every row of the CustomerMetrics table. -/
theorem metricasTicketFacts (ordenes det cli : Table) :
    ∀ row ∈ (create_metricas_por_cliente ordenes det cli).rows,
      ∀ q, getC (create_metricas_por_cliente ordenes det cli).cols row
          (nm "num_ordenes") = .num (.fin q) → q.n = 0 →
        (∀ p, getC (create_metricas_por_cliente ordenes det cli).cols row
            (nm "ingresos_totales") = .num (.fin p) →
          (p.n = 0 →
            getC (create_metricas_por_cliente ordenes det cli).cols row
              (nm "ticket_promedio") = Val.null) ∧
          (0 < p.n →
            getC (create_metricas_por_cliente ordenes det cli).cols row
              (nm "ticket_promedio") = Val.num .inf)) ∧
        (getC (create_metricas_por_cliente ordenes det cli).cols row
            (nm "ingresos_totales") = Val.null →
          getC (create_metricas_por_cliente ordenes det cli).cols row
            (nm "ticket_promedio") = Val.null) := by
  intro row hrow
  unfold create_metricas_por_cliente at hrow ⊢
  set totales : Table :=
    ⟨[nm "id_orden", nm "total_orden"],
     (groupKeys det (nm "id_orden")).map (fun v =>
       let g := groupRows det (nm "id_orden") v
       [v, sumVals (g.map (fun r => getC det.cols r (nm "subtotal")))])⟩ with htot
  set df := mergeOn ordenes totales (nm "id_orden") (nm "_y") with hdf
  set aggT : Table :=
    ⟨[nm "id_cliente", nm "num_ordenes", nm "ingresos_totales",
      nm "primera_orden", nm "ultima_orden"],
     (groupKeys df (nm "id_cliente")).map (fun v =>
       let g := groupRows df (nm "id_cliente") v
       [v,
        countCell (g.map (fun r => getC df.cols r (nm "id_orden"))),
        sumVals (g.map (fun r => getC df.cols r (nm "total_orden"))),
        minV (g.map (fun r => getC df.cols r (nm "fecha_orden"))),
        maxV (g.map (fun r => getC df.cols r (nm "fecha_orden")))])⟩ with haggT
  set merged := mergeOn aggT (selectN cli [nm "id_cliente", nm "nombre_empresa", nm "ciudad"])
    (nm "id_cliente") (nm "_y") with hmerged
  have hmcols : merged.cols =
      [nm "id_cliente", nm "num_ordenes", nm "ingresos_totales",
       nm "primera_orden", nm "ultima_orden", nm "nombre_empresa", nm "ciudad"] := by
    rw [hmerged]
    rfl
  have hidx : colIdx merged.cols (nm "ticket_promedio") = none := by
    rw [hmcols]
    rfl
  simp only [setColF, hidx] at hrow ⊢
  simp only [List.mem_map] at hrow
  obtain ⟨r, hr, rfl⟩ := hrow
  have hrlen : r.length = merged.cols.length := by
    obtain ⟨prow, hprow, e, rfl, helen⟩ :=
      @mergeOn_rows_mem aggT
        (selectN cli [nm "id_cliente", nm "nombre_empresa", nm "ciudad"])
        (nm "id_cliente") (nm "_y") _ selectN_wf hr
    have hplen : prow.length = 5 := by
      have := hprow
      simp only [haggT, List.mem_map] at this
      obtain ⟨v, _, rfl⟩ := this
      rfl
    rw [hmcols]
    simp only [List.length_append, hplen]
    rw [helen]
    rfl
  have hTickNotIn : (nm "ticket_promedio") ∉ merged.cols := by
    rw [hmcols]
    decide
  have cTick : getC (merged.cols ++ [nm "ticket_promedio"])
      (r ++ [divV (getC merged.cols r (nm "ingresos_totales"))
        (getC merged.cols r (nm "num_ordenes"))]) (nm "ticket_promedio") =
      divV (getC merged.cols r (nm "ingresos_totales"))
        (getC merged.cols r (nm "num_ordenes")) :=
    getC_append_new hTickNotIn hrlen
  have cNum : getC (merged.cols ++ [nm "ticket_promedio"])
      (r ++ [divV (getC merged.cols r (nm "ingresos_totales"))
        (getC merged.cols r (nm "num_ordenes"))]) (nm "num_ordenes") =
      getC merged.cols r (nm "num_ordenes") :=
    getC_append_ext hrlen (by decide)
  have cIng : getC (merged.cols ++ [nm "ticket_promedio"])
      (r ++ [divV (getC merged.cols r (nm "ingresos_totales"))
        (getC merged.cols r (nm "num_ordenes"))]) (nm "ingresos_totales") =
      getC merged.cols r (nm "ingresos_totales") :=
    getC_append_ext hrlen (by decide)
  intro q hqc hq0
  rw [cNum] at hqc
  refine ⟨?_, ?_⟩
  · intro p hpc
    rw [cIng] at hpc
    constructor
    · intro hp0
      rw [cTick, hpc, hqc]
      exact divV_fin_zero_zero hq0 hp0
    · intro hppos
      rw [cTick, hpc, hqc]
      exact divV_fin_zero_den_pos hq0 hppos
  · intro hnull
    rw [cIng] at hnull
    rw [cTick, hnull, hqc]
    exact divV_null_num

/-- C1 (amended): in the built derived tables, a zero or missing
denominator never raises: `tasa_rotacion` is never null and is 0 when the
denominator is missing or the 0/0 case occurs, while `ticket_promedio`
(ProductSales and CustomerMetrics) and `tasa_completitud` are null in
their 0/0 case; but a positive numerator over a zero denominator yields
`+infinity` in each ratio field (pandas division semantics; `fillna(0)`
does not catch infinity). -/
theorem C1_ratio_zero_denominator :
    (∀ uso mat ord : Table,
      ∀ row ∈ (create_uso_materiales_agregado uso mat ord).rows,
        getC (create_uso_materiales_agregado uso mat ord).cols row (nm "tasa_rotacion") ≠
          Val.null ∧
        (getC (create_uso_materiales_agregado uso mat ord).cols row (nm "cantidad_disponible") =
            Val.null →
          getC (create_uso_materiales_agregado uso mat ord).cols row (nm "tasa_rotacion") =
            .num (.fin qZero)) ∧
        (∀ p q,
          getC (create_uso_materiales_agregado uso mat ord).cols row (nm "cantidad_total_usada") =
            .num (.fin p) →
          getC (create_uso_materiales_agregado uso mat ord).cols row (nm "cantidad_disponible") =
            .num (.fin q) → q.n = 0 →
          (p.n = 0 →
            getC (create_uso_materiales_agregado uso mat ord).cols row (nm "tasa_rotacion") =
              Val.num (.fin qZero)) ∧
          (0 < p.n →
            getC (create_uso_materiales_agregado uso mat ord).cols row (nm "tasa_rotacion") =
              Val.num .inf))) ∧
    (∀ det prod ord : Table,
      ∀ row ∈ (create_ventas_por_producto det prod ord).rows,
        ∀ q, getC (create_ventas_por_producto det prod ord).cols row (nm "num_ordenes") =
            .num (.fin q) → q.n = 0 →
          (∀ p, getC (create_ventas_por_producto det prod ord).cols row (nm "ingresos_totales") =
              .num (.fin p) →
            (p.n = 0 →
              getC (create_ventas_por_producto det prod ord).cols row (nm "ticket_promedio") =
                Val.null) ∧
            (0 < p.n →
              getC (create_ventas_por_producto det prod ord).cols row (nm "ticket_promedio") =
                Val.num .inf)) ∧
          (getC (create_ventas_por_producto det prod ord).cols row (nm "ingresos_totales") =
              Val.null →
            getC (create_ventas_por_producto det prod ord).cols row (nm "ticket_promedio") =
              Val.null)) ∧
    (∀ ordenes empleados : Table,
      ∀ row ∈ (create_productividad_empleados ordenes empleados).rows,
        ∀ p q, getC (create_productividad_empleados ordenes empleados).cols row
            (nm "total_ordenes") = .num (.fin q) → q.n = 0 →
          getC (create_productividad_empleados ordenes empleados).cols row
            (nm "ordenes_completadas") = .num (.fin p) →
          (p.n = 0 →
            getC (create_productividad_empleados ordenes empleados).cols row
              (nm "tasa_completitud") = Val.null) ∧
          (0 < p.n →
            getC (create_productividad_empleados ordenes empleados).cols row
              (nm "tasa_completitud") = Val.num .inf)) ∧
    (∀ ordenes det cli : Table,
      ∀ row ∈ (create_metricas_por_cliente ordenes det cli).rows,
        ∀ q, getC (create_metricas_por_cliente ordenes det cli).cols row
            (nm "num_ordenes") = .num (.fin q) → q.n = 0 →
          (∀ p, getC (create_metricas_por_cliente ordenes det cli).cols row
              (nm "ingresos_totales") = .num (.fin p) →
            (p.n = 0 →
              getC (create_metricas_por_cliente ordenes det cli).cols row
                (nm "ticket_promedio") = Val.null) ∧
            (0 < p.n →
              getC (create_metricas_por_cliente ordenes det cli).cols row
                (nm "ticket_promedio") = Val.num .inf)) ∧
          (getC (create_metricas_por_cliente ordenes det cli).cols row
              (nm "ingresos_totales") = Val.null →
            getC (create_metricas_por_cliente ordenes det cli).cols row
              (nm "ticket_promedio") = Val.null)) :=
  ⟨usoTasaFacts, ventasTicketFacts, prodTasaFacts, metricasTicketFacts⟩

/-- C1 (witness): the amended theorem applied to the concrete zero-stock
material: 0/0 never occurs here, the 5-over-0 rotation is `+inf`. -/
theorem C1_ratio_zero_denominator_witness :
    getC (create_uso_materiales_agregado usoOne matZero ordF).cols
        ((create_uso_materiales_agregado usoOne matZero ordF).rows.getD 0 [])
        (nm "tasa_rotacion") = Val.num .inf :=
  ((C1_ratio_zero_denominator.1 usoOne matZero ordF
      ((create_uso_materiales_agregado usoOne matZero ordF).rows.getD 0 []) (by decide)).2.2
      (qOfNat 5) qZero (by decide) (by decide) (by decide)).2 (by decide)

theorem fgcd_eq_gcd : ∀ fuel a b, a < fuel → fgcd fuel a b = Nat.gcd a b := by
  intro fuel
  induction fuel with
  | zero => intro a b h; omega
  | succ f ih =>
    intro a b h
    cases a with
    | zero => simp [fgcd]
    | succ a' =>
      show fgcd f (b % (a' + 1)) (a' + 1) = Nat.gcd (a' + 1) b
      rw [ih _ _ (by have := Nat.mod_lt b (show 0 < a' + 1 by omega); omega)]
      exact (Nat.gcd_rec (a' + 1) b).symm

theorem mkQ_natCast (m n : Nat) (hn : 0 < n) :
    mkQ (m : Int) (n : Int) = ⟨((m / m.gcd n : Nat) : Int), n / m.gcd n⟩ := by
  unfold mkQ
  have hd : ¬((n : Int) = 0) := by
    simp only [Int.natCast_eq_zero]
    omega
  rw [if_neg hd]
  have hs : ¬((n : Int) < 0) := by
    simp only [Int.not_lt]
    exact Int.natCast_nonneg n
  simp only [if_neg hs, one_mul, Int.toNat_natCast, Int.natAbs_ofNat]
  rw [fgcd_eq_gcd _ _ _ (by omega)]
  congr 1

theorem nat_div_le_mul_div {x y c g : Nat} (hg : g ∣ y) (hxy : x ≤ c * y) :
    x / g ≤ c * (y / g) := by
  calc x / g ≤ (c * y) / g := Nat.div_le_div_right hxy
    _ = c * (y / g) := Nat.mul_div_assoc c hg

theorem round2Q_bounds (q : Q) (e f' : Nat) (hq : qMul q (qOfNat 100) = ⟨(e : Int), f'⟩)
    (hf : 0 < f') (he : e ≤ 10000 * f') :
    ∃ kn : Nat, kn ≤ 10000 ∧ round2Q q = mkQ (kn : Int) 100 := by
  unfold round2Q
  simp only [hq]
  unfold qFloor
  have hn1 : (⟨(e : Int), f'⟩ : Q).n = (e : Int) := rfl
  have hd1 : (⟨(e : Int), f'⟩ : Q).d = f' := rfl
  simp only [hn1, hd1]
  rw [← Int.ofNat_fdiv]
  have hdm := Nat.div_add_mod e f'
  have hmulc : (10000 * f') / f' = 10000 := by
    rw [Nat.mul_comm]
    exact Nat.mul_div_cancel_left 10000 hf
  have hqle0 : e / f' ≤ 10000 := by
    have h1 : e / f' ≤ (10000 * f') / f' := Nat.div_le_div_right he
    rwa [hmulc] at h1
  generalize hgen1 : e / f' = qq at *
  generalize hgen2 : e % f' = rr at *
  have hr2 : (2 : Int) * ((e : Int) - ((qq : Nat) : Int) * ((f' : Nat) : Int)) =
      ((2 * rr : Nat) : Int) := by
    rw [← hdm]
    push_cast
    ring
  simp only [hr2]
  split_ifs with h1 h2 h3
  · exact ⟨qq, hqle0, rfl⟩
  all_goals
    have hr1 : 1 ≤ rr := by
      simp only [Int.not_lt] at h1
      have h2' : f' ≤ 2 * rr := by exact_mod_cast h1
      omega
  all_goals
    have hqlt : qq < 10000 := by
      by_contra hcon
      have hq10 : qq = 10000 := by omega
      rw [hq10] at hdm
      omega
  all_goals
    first
      | exact ⟨qq, by omega, rfl⟩
      | exact ⟨qq + 1, by omega, by push_cast; rfl⟩

theorem tasaBounds (m n : Nat) (hm : m ≤ n) (hn : 0 < n) :
    ∃ t : Q,
      round2V (mul100 (divV (.num (.fin (qOfNat m))) (.num (.fin (qOfNat n))))) =
        .num (.fin t) ∧ qLe qZero t = true ∧ qLe t (qOfNat 100) = true := by
  have hdiv : divV (.num (.fin (qOfNat m))) (.num (.fin (qOfNat n))) =
      .num (.fin (mkQ (m : Int) (n : Int))) := by
    show divN (.fin (qOfNat m)) (.fin (qOfNat n)) = _
    simp only [divN]
    rw [if_neg (show ¬((qOfNat n).n = 0) from by
      simp only [qOfNat, Int.natCast_eq_zero]
      omega)]
    unfold qDivQ qOfNat
    simp only [Nat.cast_one, mul_one, one_mul]
  rw [hdiv, mkQ_natCast m n hn]
  set g1 := m.gcd n with hg1
  set a := m / g1 with ha
  set b := n / g1 with hb0
  have hgpos : 0 < g1 := Nat.gcd_pos_of_pos_right m hn
  have hb : 0 < b := Nat.div_pos (Nat.le_of_dvd hn (Nat.gcd_dvd_right m n)) hgpos
  have hab : a ≤ b := Nat.div_le_div_right hm
  have hq2 : qMul ⟨(a : Int), b⟩ (qOfNat 100) = mkQ ((a * 100 : Nat) : Int) ((b : Nat) : Int) := by
    unfold qMul qOfNat
    congr 1 <;> push_cast <;> ring
  have hmul : mul100 (.num (.fin (⟨(a : Int), b⟩ : Q))) =
      .num (.fin (mkQ ((a * 100 : Nat) : Int) ((b : Nat) : Int))) := by
    show Val.num (.fin (qMul ⟨(a : Int), b⟩ (qOfNat 100))) = _
    rw [hq2]
  rw [hmul, mkQ_natCast (a * 100) b hb]
  set g2 := (a * 100).gcd b with hg2
  set c := (a * 100) / g2 with hc0
  set d := b / g2 with hd0
  have hg2pos : 0 < g2 := Nat.gcd_pos_of_pos_right _ hb
  have hd : 0 < d := Nat.div_pos (Nat.le_of_dvd hb (Nat.gcd_dvd_right _ _)) hg2pos
  have hcd : c ≤ 100 * d :=
    nat_div_le_mul_div (Nat.gcd_dvd_right _ _) (by omega)
  have hq3 : qMul ⟨(c : Int), d⟩ (qOfNat 100) = mkQ ((c * 100 : Nat) : Int) ((d : Nat) : Int) := by
    unfold qMul qOfNat
    congr 1 <;> push_cast <;> ring
  set g3 := (c * 100).gcd d with hg3
  set e := (c * 100) / g3 with he0
  set f' := d / g3 with hf0
  have hg3pos : 0 < g3 := Nat.gcd_pos_of_pos_right _ hd
  have hf : 0 < f' := Nat.div_pos (Nat.le_of_dvd hd (Nat.gcd_dvd_right _ _)) hg3pos
  have he : e ≤ 10000 * f' := nat_div_le_mul_div (Nat.gcd_dvd_right _ _) (by omega)
  have hq4 : qMul ⟨(c : Int), d⟩ (qOfNat 100) = ⟨(e : Int), f'⟩ := by
    rw [hq3, mkQ_natCast (c * 100) d hd]
  obtain ⟨kn, hkn, hround⟩ := round2Q_bounds ⟨(c : Int), d⟩ e f' hq4 hf he
  refine ⟨mkQ (kn : Int) 100, ?_, ?_, ?_⟩
  · show Val.num (.fin (round2Q ⟨(c : Int), d⟩)) = _
    rw [hround]
  · rw [show mkQ (kn : Int) (100 : Int) = mkQ (kn : Int) ((100 : Nat) : Int) from by norm_num,
      mkQ_natCast kn 100 (by omega)]
    simp only [qLe, qZero, decide_eq_true_eq]
    simp
    positivity
  · rw [show mkQ (kn : Int) (100 : Int) = mkQ (kn : Int) ((100 : Nat) : Int) from by norm_num,
      mkQ_natCast kn 100 (by omega)]
    have hkb : kn / kn.gcd 100 ≤ 100 * (100 / kn.gcd 100) :=
      nat_div_le_mul_div (Nat.gcd_dvd_right _ _) (by omega)
    simp only [qLe, qOfNat, decide_eq_true_eq]
    push_cast
    simp only [mul_one]
    exact_mod_cast hkb

theorem fdKeysAux_subset : ∀ (fuel : Nat) (l : List Val), ∀ v ∈ fdKeysAux fuel l, v ∈ l := by
  intro fuel
  induction fuel with
  | zero => intro l v hv; simp [fdKeysAux] at hv
  | succ f ih =>
    intro l v hv
    cases l with
    | nil => simp [fdKeysAux] at hv
    | cons a rest =>
      simp only [fdKeysAux, List.mem_cons] at hv
      rcases hv with rfl | hv
      · exact List.mem_cons_self _ _
      · exact List.mem_cons_of_mem _ (List.mem_of_mem_filter (ih _ v hv))

theorem groupKeys_sub {t : Table} {k : List Nat} {v : Val} (hv : v ∈ groupKeys t k) :
    v ∈ colVals t k := by
  unfold groupKeys fdKeys at hv
  exact List.mem_of_mem_filter (fdKeysAux_subset _ _ v hv)

theorem groupRows_nonempty {t : Table} {k : List Nat} {v : Val} (hv : v ∈ groupKeys t k) :
    0 < (groupRows t k v).length := by
  have hcv := groupKeys_sub hv
  unfold colVals at hcv
  simp only [List.mem_map] at hcv
  obtain ⟨row, hrow, hget⟩ := hcv
  have : row ∈ groupRows t k v := by
    unfold groupRows
    exact List.mem_filter.mpr ⟨hrow, by simp [hget]⟩
  exact List.length_pos.mpr (fun hnil => by simp [hnil] at this)

theorem countNN_all {l : List Val} (h : ∀ x ∈ l, x ≠ Val.null) : countNN l = l.length := by
  unfold countNN
  rw [List.filter_eq_self.mpr]
  intro a ha
  simpa using h a ha

/-- C10 (counterexample): an order row with a missing `id_orden` and
status "Completado" gives its employee `total_ordenes = 0` (the count
skips the missing id) and `tasa_completitud = +inf` — outside [0, 100]
and with a zero denominator. -/
theorem C10_counterexample :
    getC (create_productividad_empleados ordNull empOne).cols
        ((create_productividad_empleados ordNull empOne).rows.getD 0 [])
        (nm "total_ordenes") = vInt 0 ∧
    getC (create_productividad_empleados ordNull empOne).cols
        ((create_productividad_empleados ordNull empOne).rows.getD 0 [])
        (nm "ordenes_completadas") = vInt 1 ∧
    getC (create_productividad_empleados ordNull empOne).cols
        ((create_productividad_empleados ordNull empOne).rows.getD 0 [])
        (nm "tasa_completitud") = Val.num .inf := by
  refine ⟨by decide, by decide, by decide⟩

/-- C10 (amended): when every order row has a non-missing `id_orden`, each
EmployeeProductivity row has `total_ordenes ≥ 1` (its group is nonempty),
a completed count never exceeding the total, and a `tasa_completitud`
that is a finite number between 0 and 100 inclusive; an order row with a
missing `id_orden` can break this (count 0 denominator, ratio infinity). -/
theorem C10_tasa_in_range (ordenes empleados : Table)
    (hids : ∀ row ∈ ordenes.rows, getC ordenes.cols row (nm "id_orden") ≠ Val.null) :
    ∀ row ∈ (create_productividad_empleados ordenes empleados).rows,
      ∃ m n : Nat, 1 ≤ n ∧ m ≤ n ∧
        getC (create_productividad_empleados ordenes empleados).cols row
          (nm "total_ordenes") = .num (.fin (qOfNat n)) ∧
        getC (create_productividad_empleados ordenes empleados).cols row
          (nm "ordenes_completadas") = .num (.fin (qOfNat m)) ∧
        ∃ t : Q,
          getC (create_productividad_empleados ordenes empleados).cols row
            (nm "tasa_completitud") = .num (.fin t) ∧
          qLe qZero t = true ∧ qLe t (qOfNat 100) = true := by
  intro row hrow
  unfold create_productividad_empleados at hrow ⊢
  set prodT : Table :=
    ⟨[nm "id_empleado", nm "total_ordenes", nm "ordenes_completadas"],
     (groupKeys ordenes (nm "id_empleado_responsable")).map (fun v =>
       let g := groupRows ordenes (nm "id_empleado_responsable") v
       [v,
        countCell (g.map (fun r => getC ordenes.cols r (nm "id_orden"))),
        .num (.fin (qOfNat ((g.filter
          (fun r => getC ordenes.cols r (nm "estado") = .str (nm "Completado"))).length)))])⟩
    with hprodT
  set merged := mergeOn prodT (selectN empleados [nm "id_empleado", nm "nombre", nm "cargo"])
    (nm "id_empleado") (nm "_y") with hmerged
  have hsplit : merged.cols = prodT.cols ++ [nm "nombre", nm "cargo"] := by
    rw [hmerged]
    rfl
  have hmcols : merged.cols =
      [nm "id_empleado", nm "total_ordenes", nm "ordenes_completadas", nm "nombre", nm "cargo"] := by
    rw [hsplit]
    rfl
  have hidx : colIdx merged.cols (nm "tasa_completitud") = none := by
    rw [hmcols]
    rfl
  simp only [setColF, hidx] at hrow ⊢
  simp only [List.mem_map] at hrow
  obtain ⟨r, hr, rfl⟩ := hrow
  obtain ⟨prow, hprow, e, rfl, helen⟩ :=
    @mergeOn_rows_mem prodT
      (selectN empleados [nm "id_empleado", nm "nombre", nm "cargo"])
      (nm "id_empleado") (nm "_y") _ selectN_wf hr
  simp only [hprodT, List.mem_map] at hprow
  obtain ⟨v, hv, rfl⟩ := hprow
  simp only [countCell]
  set g := groupRows ordenes (nm "id_empleado_responsable") v with hg
  set n := countNN (g.map (fun r => getC ordenes.cols r (nm "id_orden"))) with hn0
  set m := (g.filter
    (fun r => getC ordenes.cols r (nm "estado") = .str (nm "Completado"))).length with hm0
  have hplen : ([v, Val.num (.fin (qOfNat n)), Val.num (.fin (qOfNat m))] : List Val).length =
      prodT.cols.length := rfl
  have hrlen : (([v, Val.num (.fin (qOfNat n)), Val.num (.fin (qOfNat m))] : List Val) ++ e).length =
      merged.cols.length := by
    rw [hsplit]
    simp only [List.length_append, hplen]
    rw [helen]
    rfl
  -- cells of the inner merged row
  have cTotIn : getC merged.cols ([v, Val.num (.fin (qOfNat n)), Val.num (.fin (qOfNat m))] ++ e)
      (nm "total_ordenes") = .num (.fin (qOfNat n)) := by
    rw [hsplit, getC_append_ext hplen (by decide)]
    rfl
  have cCompIn : getC merged.cols ([v, Val.num (.fin (qOfNat n)), Val.num (.fin (qOfNat m))] ++ e)
      (nm "ordenes_completadas") = .num (.fin (qOfNat m)) := by
    rw [hsplit, getC_append_ext hplen (by decide)]
    rfl
  -- the outer row with the appended ratio
  have cTot : getC (merged.cols ++ [nm "tasa_completitud"])
      (([v, Val.num (.fin (qOfNat n)), Val.num (.fin (qOfNat m))] ++ e) ++
        [round2V (mul100 (divV
          (getC merged.cols ([v, Val.num (.fin (qOfNat n)), Val.num (.fin (qOfNat m))] ++ e)
            (nm "ordenes_completadas"))
          (getC merged.cols ([v, Val.num (.fin (qOfNat n)), Val.num (.fin (qOfNat m))] ++ e)
            (nm "total_ordenes"))))]) (nm "total_ordenes") =
      .num (.fin (qOfNat n)) := by
    rw [getC_append_ext hrlen (by decide), cTotIn]
  have cComp : getC (merged.cols ++ [nm "tasa_completitud"])
      (([v, Val.num (.fin (qOfNat n)), Val.num (.fin (qOfNat m))] ++ e) ++
        [round2V (mul100 (divV
          (getC merged.cols ([v, Val.num (.fin (qOfNat n)), Val.num (.fin (qOfNat m))] ++ e)
            (nm "ordenes_completadas"))
          (getC merged.cols ([v, Val.num (.fin (qOfNat n)), Val.num (.fin (qOfNat m))] ++ e)
            (nm "total_ordenes"))))]) (nm "ordenes_completadas") =
      .num (.fin (qOfNat m)) := by
    rw [getC_append_ext hrlen (by decide), cCompIn]
  have cTasa : getC (merged.cols ++ [nm "tasa_completitud"])
      (([v, Val.num (.fin (qOfNat n)), Val.num (.fin (qOfNat m))] ++ e) ++
        [round2V (mul100 (divV
          (getC merged.cols ([v, Val.num (.fin (qOfNat n)), Val.num (.fin (qOfNat m))] ++ e)
            (nm "ordenes_completadas"))
          (getC merged.cols ([v, Val.num (.fin (qOfNat n)), Val.num (.fin (qOfNat m))] ++ e)
            (nm "total_ordenes"))))]) (nm "tasa_completitud") =
      round2V (mul100 (divV (.num (.fin (qOfNat m))) (.num (.fin (qOfNat n))))) := by
    rw [getC_append_new (by rw [hmcols]; decide) hrlen, cTotIn, cCompIn]
  -- the numeric facts
  have hgn : n = g.length := by
    have hall : ∀ x ∈ g.map (fun r => getC ordenes.cols r (nm "id_orden")), x ≠ Val.null := by
      intro x hx
      simp only [List.mem_map] at hx
      obtain ⟨r0, hr0, rfl⟩ := hx
      have : r0 ∈ ordenes.rows := List.mem_of_mem_filter hr0
      exact hids r0 this
    rw [hn0, countNN_all hall, List.length_map]
  have hn1 : 1 ≤ n := by
    rw [hgn]
    exact groupRows_nonempty hv
  have hmn : m ≤ n := by
    rw [hgn, hm0]
    exact List.length_filter_le _ _
  obtain ⟨t, ht, ht0, ht100⟩ := tasaBounds m n hmn hn1
  exact ⟨m, n, hn1, hmn, cTot, cComp, t, by rw [cTasa, ht], ht0, ht100⟩

/-- C10 (witness): the amended theorem applied to a one-order table with
a present `id_orden`. -/
theorem C10_tasa_in_range_witness :
    ∃ m n : Nat, 1 ≤ n ∧ m ≤ n ∧
      getC (create_productividad_empleados ordOne empOne).cols
        ((create_productividad_empleados ordOne empOne).rows.getD 0 [])
        (nm "total_ordenes") = .num (.fin (qOfNat n)) ∧
      getC (create_productividad_empleados ordOne empOne).cols
        ((create_productividad_empleados ordOne empOne).rows.getD 0 [])
        (nm "ordenes_completadas") = .num (.fin (qOfNat m)) ∧
      ∃ t : Q,
        getC (create_productividad_empleados ordOne empOne).cols
          ((create_productividad_empleados ordOne empOne).rows.getD 0 [])
          (nm "tasa_completitud") = .num (.fin t) ∧
        qLe qZero t = true ∧ qLe t (qOfNat 100) = true :=
  C10_tasa_in_range ordOne empOne (by decide)
    ((create_productividad_empleados ordOne empOne).rows.getD 0 []) (by decide)

/-- C5 (counterexample): two order lines of the same order and product
give `num_ordenes = 2` although only one distinct order exists, and
`ticket_promedio` divides by that row count 2 (120/2 = 60, not 120/1):
`num_ordenes` is a row count, not a distinct-order count. -/
theorem C5_counterexample :
    getC (create_ventas_por_producto detDup prodOne ordFull).cols
        ((create_ventas_por_producto detDup prodOne ordFull).rows.getD 0 [])
        (nm "num_ordenes") = vInt 2 ∧
    (fdKeys ((colVals detDup (nm "id_orden")).filter (· ≠ Val.null))).length = 1 ∧
    getC (create_ventas_por_producto detDup prodOne ordFull).cols
        ((create_ventas_por_producto detDup prodOne ordFull).rows.getD 0 [])
        (nm "ticket_promedio") = vInt 60 ∧
    getC (create_ventas_por_producto detDup prodOne ordFull).cols
        ((create_ventas_por_producto detDup prodOne ordFull).rows.getD 0 [])
        (nm "ingresos_totales") = vInt 120 := by
  refine ⟨by decide, by decide, by decide, by decide⟩

/-- C5 (amended): on tables carrying the columns the builder reads
(so its selections and merges raise no KeyError), with duplicate-free
product and order keys in the lookup tables, ProductSales has one row
per distinct non-missing product id of OrderLine; for each product,
`cantidad_total` and `ingresos_totales` sum that product's order-line
quantities and subtotals, `num_ordenes` counts that product's
order-line rows with a non-missing `id_orden` (not distinct orders),
and `ticket_promedio` divides the summed subtotals by that row count. -/
theorem C5_ventas_por_producto (det productos ordenes : Table)
    (hcols : (hasCol det (nm "id_producto") && hasCol det (nm "id_orden") &&
      hasCol det (nm "cantidad") && hasCol det (nm "subtotal") &&
      hasCol productos (nm "id_producto") && hasCol productos (nm "nombre_producto") &&
      hasCol ordenes (nm "id_orden") && hasCol ordenes (nm "fecha_orden") &&
      hasCol ordenes (nm "estado")) = true)
    (hp : (colVals productos (nm "id_producto")).Nodup)
    (ho : (colVals ordenes (nm "id_orden")).Nodup)
    (hwf : ∀ row ∈ det.rows, row.length = det.cols.length) :
    (create_ventas_por_producto det productos ordenes).rows.length =
      (groupKeys det (nm "id_producto")).length ∧
    ∀ v ∈ groupKeys det (nm "id_producto"),
      ∃ row ∈ (create_ventas_por_producto det productos ordenes).rows,
        getC (create_ventas_por_producto det productos ordenes).cols row (nm "id_producto") =
          v ∧
        getC (create_ventas_por_producto det productos ordenes).cols row (nm "cantidad_total") =
          sumVals ((groupRows det (nm "id_producto") v).map
            (fun r => getC det.cols r (nm "cantidad"))) ∧
        getC (create_ventas_por_producto det productos ordenes).cols row (nm "ingresos_totales") =
          sumVals ((groupRows det (nm "id_producto") v).map
            (fun r => getC det.cols r (nm "subtotal"))) ∧
        getC (create_ventas_por_producto det productos ordenes).cols row (nm "num_ordenes") =
          .num (.fin (qOfNat (countNN ((groupRows det (nm "id_producto") v).map
            (fun r => getC det.cols r (nm "id_orden")))))) ∧
        getC (create_ventas_por_producto det productos ordenes).cols row (nm "ticket_promedio") =
          divV (sumVals ((groupRows det (nm "id_producto") v).map
                  (fun r => getC det.cols r (nm "subtotal"))))
               (.num (.fin (qOfNat (countNN ((groupRows det (nm "id_producto") v).map
                  (fun r => getC det.cols r (nm "id_orden"))))))) := by
  unfold create_ventas_por_producto
  set prodSel := selectN productos [nm "id_producto", nm "nombre_producto"] with hps
  set ordSel := selectN ordenes [nm "id_orden", nm "fecha_orden", nm "estado"] with hos
  set m1 := mergeOn det prodSel (nm "id_producto") (nm "_y") with hm1
  set m2 := mergeOn m1 ordSel (nm "id_orden") (nm "_y") with hm2
  have hp' : (colVals prodSel (nm "id_producto")).Nodup := by
    rw [hps, colVals_selectN (by decide)]
    exact hp
  have ho' : (colVals ordSel (nm "id_orden")).Nodup := by
    rw [hos, colVals_selectN (by decide)]
    exact ho
  have hr1 : m1.rows = det.rows.map
      (fun lr => lr ++ ext1 prodSel (nm "id_producto") (getC det.cols lr (nm "id_producto"))) :=
    mergeOn_rows_eq_map hp'
  have hr2 : m2.rows = m1.rows.map
      (fun lr => lr ++ ext1 ordSel (nm "id_orden") (getC m1.cols lr (nm "id_orden"))) :=
    mergeOn_rows_eq_map ho'
  set rc1 := (prodSel.cols.filter (· ≠ nm "id_producto")).map
    (fun c => if c ∈ det.cols then c ++ nm "_y" else c) with hrc1
  set rc2 := (ordSel.cols.filter (· ≠ nm "id_orden")).map
    (fun c => if c ∈ m1.cols then c ++ nm "_y" else c) with hrc2
  have hc1 : m1.cols = det.cols ++ rc1 := rfl
  have hc2 : m2.cols = m1.cols ++ rc2 := rfl
  have hrc1eq : rc1 =
      [if nm "nombre_producto" ∈ det.cols then nm "nombre_producto" ++ nm "_y"
       else nm "nombre_producto"] := by
    rw [hrc1, hps]
    rfl
  have hrc2eq : rc2 =
      [if nm "fecha_orden" ∈ m1.cols then nm "fecha_orden" ++ nm "_y" else nm "fecha_orden",
       if nm "estado" ∈ m1.cols then nm "estado" ++ nm "_y" else nm "estado"] := by
    rw [hrc2, hos]
    rfl
  have hnot1 : ∀ c : List Nat, c ≠ nm "nombre_producto" → c ≠ nm "nombre_producto" ++ nm "_y" →
      c ∉ rc1 := by
    intro c h1 h2 hmem
    rw [hrc1eq] at hmem
    simp only [List.mem_singleton] at hmem
    split_ifs at hmem
    · exact h2 hmem
    · exact h1 hmem
  have hnot2 : ∀ c : List Nat, c ≠ nm "fecha_orden" → c ≠ nm "fecha_orden" ++ nm "_y" →
      c ≠ nm "estado" → c ≠ nm "estado" ++ nm "_y" → c ∉ rc2 := by
    intro c h1 h2 h3 h4 hmem
    rw [hrc2eq] at hmem
    simp only [List.mem_cons, List.not_mem_nil, or_false] at hmem
    rcases hmem with h | h <;> split_ifs at h
    · exact h2 h
    · exact h1 h
    · exact h4 h
    · exact h3 h
  have hwf1 : ∀ r ∈ m1.rows, r.length = m1.cols.length := by
    intro r hr
    rw [hr1] at hr
    simp only [List.mem_map] at hr
    obtain ⟨lr, hlr, rfl⟩ := hr
    rw [hc1]
    simp only [List.length_append, hwf lr hlr]
    rw [ext1_length (selectN_wf), hrc1, List.length_map]
  -- cell preservation through the first merge
  have cell1 : ∀ lr ∈ det.rows, ∀ c : List Nat, c ∉ rc1 →
      getC m1.cols (lr ++ ext1 prodSel (nm "id_producto")
        (getC det.cols lr (nm "id_producto"))) c = getC det.cols lr c := by
    intro lr hlr c hc
    rw [hc1]
    exact getC_append_ext (hwf lr hlr) hc
  -- composed row function and preservation through both merges
  have hr2' : m2.rows = det.rows.map (fun lr =>
      (lr ++ ext1 prodSel (nm "id_producto") (getC det.cols lr (nm "id_producto"))) ++
        ext1 ordSel (nm "id_orden")
          (getC m1.cols (lr ++ ext1 prodSel (nm "id_producto")
            (getC det.cols lr (nm "id_producto"))) (nm "id_orden"))) := by
    rw [hr2, hr1, List.map_map]
    rfl
  have cell2 : ∀ lr ∈ det.rows, ∀ c : List Nat, c ∉ rc1 → c ∉ rc2 →
      getC m2.cols
        ((lr ++ ext1 prodSel (nm "id_producto") (getC det.cols lr (nm "id_producto"))) ++
          ext1 ordSel (nm "id_orden")
            (getC m1.cols (lr ++ ext1 prodSel (nm "id_producto")
              (getC det.cols lr (nm "id_producto"))) (nm "id_orden"))) c =
      getC det.cols lr c := by
    intro lr hlr c hc1' hc2'
    rw [hc2]
    rw [getC_append_ext (hwf1 _ (by rw [hr1]; exact List.mem_map_of_mem _ hlr)) hc2']
    exact cell1 lr hlr c hc1'
  have hcv : colVals m2 (nm "id_producto") = colVals det (nm "id_producto") := by
    unfold colVals
    rw [hr2', List.map_map]
    apply List.map_congr_left
    intro lr hlr
    exact cell2 lr hlr (nm "id_producto") (hnot1 (nm "id_producto") (by decide) (by decide))
      (hnot2 (nm "id_producto") (by decide) (by decide) (by decide) (by decide))
  have hgk : groupKeys m2 (nm "id_producto") = groupKeys det (nm "id_producto") := by
    unfold groupKeys
    rw [hcv]
  have hgr : ∀ v, groupRows m2 (nm "id_producto") v =
      (groupRows det (nm "id_producto") v).map (fun lr =>
        (lr ++ ext1 prodSel (nm "id_producto") (getC det.cols lr (nm "id_producto"))) ++
          ext1 ordSel (nm "id_orden")
            (getC m1.cols (lr ++ ext1 prodSel (nm "id_producto")
              (getC det.cols lr (nm "id_producto"))) (nm "id_orden"))) := by
    intro v
    unfold groupRows
    rw [hr2', List.filter_map]
    congr 1
    apply List.filter_congr
    intro lr hlr
    simp only [Function.comp_apply]
    rw [cell2 lr hlr (nm "id_producto") (hnot1 (nm "id_producto") (by decide) (by decide))
      (hnot2 (nm "id_producto") (by decide) (by decide) (by decide) (by decide))]
  have hcols : ∀ (v : Val) (c : List Nat), c ∉ rc1 → c ∉ rc2 →
      (groupRows m2 (nm "id_producto") v).map (fun r => getC m2.cols r c) =
      (groupRows det (nm "id_producto") v).map (fun r => getC det.cols r c) := by
    intro v c hcx1 hcx2
    rw [hgr, List.map_map]
    apply List.map_congr_left
    intro lr hlr
    exact cell2 lr (List.mem_of_mem_filter hlr) c hcx1 hcx2
  constructor
  · simp only [List.length_map, hgk]
  · intro v hv
    refine ⟨_, List.mem_map_of_mem _ (hgk ▸ hv), ?_, ?_, ?_, ?_, ?_⟩
    · show getC _ _ (nm "id_producto") = v
      rfl
    · show getC _ _ (nm "cantidad_total") = _
      have : getC
          [nm "id_producto", nm "nombre_producto", nm "cantidad_total",
           nm "ingresos_totales", nm "num_ordenes", nm "ticket_promedio"]
          [v, firstNN ((groupRows m2 (nm "id_producto") v).map
                (fun r => getC m2.cols r (nm "nombre_producto"))),
           sumVals ((groupRows m2 (nm "id_producto") v).map
                (fun r => getC m2.cols r (nm "cantidad"))),
           sumVals ((groupRows m2 (nm "id_producto") v).map
                (fun r => getC m2.cols r (nm "subtotal"))),
           countCell ((groupRows m2 (nm "id_producto") v).map
                (fun r => getC m2.cols r (nm "id_orden"))),
           divV (sumVals ((groupRows m2 (nm "id_producto") v).map
                (fun r => getC m2.cols r (nm "subtotal"))))
             (countCell ((groupRows m2 (nm "id_producto") v).map
                (fun r => getC m2.cols r (nm "id_orden"))))]
          (nm "cantidad_total") =
          sumVals ((groupRows m2 (nm "id_producto") v).map
            (fun r => getC m2.cols r (nm "cantidad"))) := rfl
      rw [this, hcols v (nm "cantidad") (hnot1 _ (by decide) (by decide))
        (hnot2 _ (by decide) (by decide) (by decide) (by decide))]
    · show getC _ _ (nm "ingresos_totales") = _
      have : getC
          [nm "id_producto", nm "nombre_producto", nm "cantidad_total",
           nm "ingresos_totales", nm "num_ordenes", nm "ticket_promedio"]
          [v, firstNN ((groupRows m2 (nm "id_producto") v).map
                (fun r => getC m2.cols r (nm "nombre_producto"))),
           sumVals ((groupRows m2 (nm "id_producto") v).map
                (fun r => getC m2.cols r (nm "cantidad"))),
           sumVals ((groupRows m2 (nm "id_producto") v).map
                (fun r => getC m2.cols r (nm "subtotal"))),
           countCell ((groupRows m2 (nm "id_producto") v).map
                (fun r => getC m2.cols r (nm "id_orden"))),
           divV (sumVals ((groupRows m2 (nm "id_producto") v).map
                (fun r => getC m2.cols r (nm "subtotal"))))
             (countCell ((groupRows m2 (nm "id_producto") v).map
                (fun r => getC m2.cols r (nm "id_orden"))))]
          (nm "ingresos_totales") =
          sumVals ((groupRows m2 (nm "id_producto") v).map
            (fun r => getC m2.cols r (nm "subtotal"))) := rfl
      rw [this, hcols v (nm "subtotal") (hnot1 _ (by decide) (by decide))
        (hnot2 _ (by decide) (by decide) (by decide) (by decide))]
    · show getC _ _ (nm "num_ordenes") = _
      have : getC
          [nm "id_producto", nm "nombre_producto", nm "cantidad_total",
           nm "ingresos_totales", nm "num_ordenes", nm "ticket_promedio"]
          [v, firstNN ((groupRows m2 (nm "id_producto") v).map
                (fun r => getC m2.cols r (nm "nombre_producto"))),
           sumVals ((groupRows m2 (nm "id_producto") v).map
                (fun r => getC m2.cols r (nm "cantidad"))),
           sumVals ((groupRows m2 (nm "id_producto") v).map
                (fun r => getC m2.cols r (nm "subtotal"))),
           countCell ((groupRows m2 (nm "id_producto") v).map
                (fun r => getC m2.cols r (nm "id_orden"))),
           divV (sumVals ((groupRows m2 (nm "id_producto") v).map
                (fun r => getC m2.cols r (nm "subtotal"))))
             (countCell ((groupRows m2 (nm "id_producto") v).map
                (fun r => getC m2.cols r (nm "id_orden"))))]
          (nm "num_ordenes") =
          countCell ((groupRows m2 (nm "id_producto") v).map
            (fun r => getC m2.cols r (nm "id_orden"))) := rfl
      rw [this, hcols v (nm "id_orden") (hnot1 _ (by decide) (by decide))
        (hnot2 _ (by decide) (by decide) (by decide) (by decide))]
      rfl
    · show getC _ _ (nm "ticket_promedio") = _
      have : getC
          [nm "id_producto", nm "nombre_producto", nm "cantidad_total",
           nm "ingresos_totales", nm "num_ordenes", nm "ticket_promedio"]
          [v, firstNN ((groupRows m2 (nm "id_producto") v).map
                (fun r => getC m2.cols r (nm "nombre_producto"))),
           sumVals ((groupRows m2 (nm "id_producto") v).map
                (fun r => getC m2.cols r (nm "cantidad"))),
           sumVals ((groupRows m2 (nm "id_producto") v).map
                (fun r => getC m2.cols r (nm "subtotal"))),
           countCell ((groupRows m2 (nm "id_producto") v).map
                (fun r => getC m2.cols r (nm "id_orden"))),
           divV (sumVals ((groupRows m2 (nm "id_producto") v).map
                (fun r => getC m2.cols r (nm "subtotal"))))
             (countCell ((groupRows m2 (nm "id_producto") v).map
                (fun r => getC m2.cols r (nm "id_orden"))))]
          (nm "ticket_promedio") =
          divV (sumVals ((groupRows m2 (nm "id_producto") v).map
                (fun r => getC m2.cols r (nm "subtotal"))))
            (countCell ((groupRows m2 (nm "id_producto") v).map
                (fun r => getC m2.cols r (nm "id_orden")))) := rfl
      rw [this, hcols v (nm "subtotal") (hnot1 _ (by decide) (by decide))
        (hnot2 _ (by decide) (by decide) (by decide) (by decide)),
        hcols v (nm "id_orden") (hnot1 _ (by decide) (by decide))
        (hnot2 _ (by decide) (by decide) (by decide) (by decide))]
      rfl

/-- C5 (witness): the amended theorem applied to the duplicate-line
table with duplicate-free lookups. -/
theorem C5_ventas_por_producto_witness :
    ∃ row ∈ (create_ventas_por_producto detDup prodOne ordFull).rows,
      getC (create_ventas_por_producto detDup prodOne ordFull).cols row (nm "id_producto") =
        vInt 1 ∧
      getC (create_ventas_por_producto detDup prodOne ordFull).cols row (nm "cantidad_total") =
        sumVals ((groupRows detDup (nm "id_producto") (vInt 1)).map
          (fun r => getC detDup.cols r (nm "cantidad"))) ∧
      getC (create_ventas_por_producto detDup prodOne ordFull).cols row (nm "ingresos_totales") =
        sumVals ((groupRows detDup (nm "id_producto") (vInt 1)).map
          (fun r => getC detDup.cols r (nm "subtotal"))) ∧
      getC (create_ventas_por_producto detDup prodOne ordFull).cols row (nm "num_ordenes") =
        .num (.fin (qOfNat (countNN ((groupRows detDup (nm "id_producto") (vInt 1)).map
          (fun r => getC detDup.cols r (nm "id_orden")))))) ∧
      getC (create_ventas_por_producto detDup prodOne ordFull).cols row (nm "ticket_promedio") =
        divV (sumVals ((groupRows detDup (nm "id_producto") (vInt 1)).map
                (fun r => getC detDup.cols r (nm "subtotal"))))
             (.num (.fin (qOfNat (countNN ((groupRows detDup (nm "id_producto") (vInt 1)).map
                (fun r => getC detDup.cols r (nm "id_orden"))))))) :=
  (C5_ventas_por_producto detDup prodOne ordFull (by decide) (by decide) (by decide) (by decide)).2
    (vInt 1) (by decide)

theorem exOk_bind_pure {e a b : Type} {x : Except e a} {f : a → b} :
    exOk (x.bind (fun v => Except.pure (f v))) = exOk x := by
  cases x <;> rfl

theorem dupPositions_lt {l : List Val} {i : Nat} (h : i ∈ dupPositions l) : i < l.length := by
  unfold dupPositions at h
  have := List.mem_of_mem_filter h
  simpa using this

theorem dedupRows_ok_iff (cols : List (List Nat)) (tail : List Nat) :
    ∀ (rows : List (List Val)) (i0 : Nat),
      exOk (dedupRows cols tail i0 rows) = true ↔
        ∀ j, j < rows.length → (i0 + j) ∈ tail →
          (match colIdx cols (nm "email") with
           | some jdx => exOk (suffEmail (i0 + j) ((rows.getD j []).getD jdx Val.null)) = true
           | none => True) := by
  intro rows
  induction rows with
  | nil =>
    intro i0
    simp [dedupRows, exOk]
  | cons row rest ih =>
    intro i0
    show exOk (match (if i0 ∈ tail then
          match colIdx cols (nm "email") with
          | some j =>
              match suffEmail i0 (row.getD j .null) with
              | .ok v' => .ok (row.set j v')
              | .error e => .error e
          | none => .ok row
        else .ok row : Except (List Nat) (List Val)) with
      | .error e => .error e
      | .ok row' =>
          match dedupRows cols tail (i0 + 1) rest with
          | .error e => .error e
          | .ok rest' => .ok (row' :: rest')) = true ↔ _
    constructor
    · intro h j hj hjt
      rcases j with _ | j
      · simp only [Nat.add_zero] at hjt ⊢
        rw [if_pos hjt] at h
        cases hjdx : colIdx cols (nm "email") with
        | none => simp [hjdx]
        | some jdx =>
          simp only [hjdx, List.getD_cons_zero]
          cases hsf : suffEmail i0 (row.getD jdx Val.null) with
          | error e =>
            exfalso
            rw [List.getD_eq_getElem?_getD] at hsf
            simp [hjdx, hsf, exOk] at h
          | ok v' => rfl
      · have hok' : exOk (dedupRows cols tail (i0 + 1) rest) = true := by
          cases hstep : (if i0 ∈ tail then
              match colIdx cols (nm "email") with
              | some jx =>
                  match suffEmail i0 (row.getD jx .null) with
                  | .ok v' => .ok (row.set jx v')
                  | .error e => .error e
              | none => .ok row
            else .ok row : Except (List Nat) (List Val)) with
          | error e =>
            rw [hstep] at h
            simp [exOk] at h
          | ok row' =>
            rw [hstep] at h
            cases hrec : dedupRows cols tail (i0 + 1) rest with
            | error e =>
              rw [hrec] at h
              simp [exOk] at h
            | ok rs => rfl
        have hres := (ih (i0 + 1)).mp hok' j (by simpa using hj) (by
          have h3 : i0 + 1 + j = i0 + (j + 1) := by omega
          rw [h3]
          exact hjt)
        cases hjdx : colIdx cols (nm "email") with
        | none => simp [hjdx]
        | some jdx =>
          rw [hjdx] at hres
          simp only [hjdx, List.getD_cons_succ]
          have h3 : i0 + (j + 1) = i0 + 1 + j := by omega
          rw [h3]
          exact hres
    · intro hall
      have hok' : exOk (dedupRows cols tail (i0 + 1) rest) = true := by
        apply (ih (i0 + 1)).mpr
        intro j hj hjt
        have h2 := hall (j + 1) (by simpa using Nat.succ_lt_succ hj) (by
          have h3 : i0 + (j + 1) = i0 + 1 + j := by omega
          rw [h3]
          exact hjt)
        cases hjdx : colIdx cols (nm "email") with
        | none => simp [hjdx]
        | some jdx =>
          rw [hjdx] at h2
          simp only [hjdx, List.getD_cons_succ] at h2 ⊢
          have h3 : i0 + 1 + j = i0 + (j + 1) := by omega
          rw [h3]
          exact h2
      by_cases hi : i0 ∈ tail
      · rw [if_pos hi]
        cases hjdx : colIdx cols (nm "email") with
        | none =>
          cases hrec : dedupRows cols tail (i0 + 1) rest with
          | error e =>
            rw [hrec] at hok'
            simp [exOk] at hok'
          | ok rs => simp [hrec, exOk]
        | some jdx =>
          have h0 := hall 0 (by simp) (by simpa using hi)
          rw [hjdx] at h0
          simp only [Nat.add_zero, List.getD_cons_zero] at h0
          cases hsf : suffEmail i0 (row.getD jdx Val.null) with
          | error e =>
            rw [hsf] at h0
            simp [exOk] at h0
          | ok v' =>
            cases hrec : dedupRows cols tail (i0 + 1) rest with
            | error e =>
              rw [hrec] at hok'
              simp [exOk] at hok'
            | ok rs =>
              rw [List.getD_eq_getElem?_getD] at hsf
              simp [hjdx, hsf, hrec, exOk]
      · rw [if_neg hi]
        cases hrec : dedupRows cols tail (i0 + 1) rest with
        | error e =>
          rw [hrec] at hok'
          simp [exOk] at hok'
        | ok rs => simp [hrec, exOk]

theorem exOk_bind_pp {e a b c : Type} (x : Except e a) (g : a → b) (f : b → c) :
    exOk (x >>= (fun v => (pure (g v) : Except e b) >>= (fun y => pure (f y)))) =
      exOk x := by
  cases x <;> rfl

theorem colVals_getD_eq {t : Table} {c : List Nat} {jdx : Nat}
    (hjdx : colIdx t.cols c = some jdx) {i : Nat} (hi : i < t.rows.length) :
    (colVals t c).getD i Val.null = (t.rows.getD i []).getD jdx Val.null := by
  unfold colVals
  rw [List.getD_eq_getElem _ _ (by simpa using hi), List.getElem_map,
      List.getD_eq_getElem _ _ hi]
  unfold getC
  rw [hjdx]

/-- `exOk` through a boolean error guard. -/
theorem exOk_ite {e a : Type} {b : Bool} {err : e} {x : Except e a} :
    exOk (if b then Except.error err else x) = (!b && exOk x) := by
  cases b <;> simp [exOk]

/-- When the phone guard passes (column absent or object-dtype), the
dtype-aware Customer cleaner is the plain one. -/
theorem transform_clientesE_eq {t : Table}
    (htel : hasCol (cliRen t) (nm "telefono") = true →
      strAccOk (cliRen t) (nm "telefono") = true) :
    transform_clientesE t = transform_clientes t := by
  have hg : (hasCol (cliRen t) (nm "telefono") &&
      !(strAccOk (cliRen t) (nm "telefono"))) = false := by
    cases h : hasCol (cliRen t) (nm "telefono") with
    | false => rfl
    | true => simp [htel h]
  unfold transform_clientesE
  rw [if_neg (show ¬((hasCol (cliRen t) (nm "telefono") &&
    !(strAccOk (cliRen t) (nm "telefono"))) = true) from by
      rw [hg]; exact Bool.false_ne_true)]

theorem transform_clientes_keyerror {t : Table}
    (h : hasCol (clientesPre t) (nm "email") = false) :
    transform_clientes t = Except.error (nm "KeyError: email") := by
  simp only [transform_clientes]
  rw [if_neg]
  simp [h]

theorem transform_clientes_ok_iff {t : Table}
    (h : hasCol (clientesPre t) (nm "email") = true) :
    exOk (transform_clientes t) = true ↔
      ∀ i ∈ (dupPositions (colVals (clientesPre t) (nm "email"))).tail,
        exOk (suffEmail i
          ((colVals (clientesPre t) (nm "email")).getD i Val.null)) = true := by
  have h' := h
  simp only [hasCol] at h'
  obtain ⟨jdx, hjdx⟩ := Option.isSome_iff_exists.mp h'
  simp only [transform_clientes]
  rw [if_pos h]
  cases hd : dupPositions (colVals (clientesPre t) (nm "email")) with
  | nil =>
    simp only [List.tail_nil]
    constructor
    · intro _ i hi
      exact absurd hi (List.not_mem_nil i)
    · intro _
      rfl
  | cons p tail =>
    rw [exOk_bind_pp, dedupRows_ok_iff]
    simp only [Nat.zero_add, List.tail_cons]
    constructor
    · intro hcond i hi
      have hid : i ∈ dupPositions (colVals (clientesPre t) (nm "email")) := by
        rw [hd]
        exact List.mem_cons_of_mem p hi
      have hilt := dupPositions_lt hid
      have hrlt : i < (clientesPre t).rows.length := by
        simpa [colVals] using hilt
      have h2 := hcond i hrlt hi
      simp only [hjdx] at h2
      rw [colVals_getD_eq hjdx hrlt]
      exact h2
    · intro hcond j hjl hjt
      simp only [hjdx]
      have h2 := hcond j hjt
      rwa [colVals_getD_eq hjdx hjl] at h2

/-- C6 (counterexample): cleaning is not total.  A Customer table without
an email column raises `KeyError: 'email'`, a Customer table whose
duplicated email is missing raises a TypeError inside the disambiguation
loop, and an Employee table whose `cargo` column is all-numeric raises
`AttributeError` at `.str.strip()`. -/
theorem C6_counterexample :
    transform_clientesE ⟨[nm "id_cliente"], [[vInt 1]]⟩ =
      Except.error (nm "KeyError: email") ∧
    transform_clientesE ⟨[nm "email"], [[Val.null], [Val.null]]⟩ =
      Except.error (nm "TypeError: argument of type float is not iterable") ∧
    transform_empleadosE empCargoNum = Except.error attrErr := by
  refine ⟨rfl, rfl, rfl⟩

/-- C6 (amended): only the OrderLine and MaterialUsage cleaners are
unconditionally total (and keep every row); the Order, Product, Material
and Employee cleaners keep every row and succeed exactly when each of
their present `.str`-target columns is object-dtype — otherwise they
raise `AttributeError` — and on success their value is the plain mapped
table; the Customer cleaner first raises `AttributeError` when a present
phone column is not object-dtype, then `KeyError` when the renamed table
has no email column, and otherwise succeeds exactly when each
duplicated-email row after the first marked one holds a plain string
with a single `@`. -/
theorem C6_cleaning_totality (t : Table) :
    (transform_detalles_orden t).rows.length = t.rows.length ∧
    (transform_uso_materiales t).rows.length = t.rows.length ∧
    (transform_ordenes_produccion t).rows.length = t.rows.length ∧
    (transform_materiales t).rows.length = t.rows.length ∧
    (transform_empleados t).rows.length = t.rows.length ∧
    (exOk (transform_ordenes_produccionE t) = true ↔
      (hasCol (ordDates t) (nm "estado") = true →
        strAccOk (ordDates t) (nm "estado") = true)) ∧
    (exOk (transform_productosE t) = true ↔
      (hasCol t (nm "nombre_producto") = true →
        strAccOk t (nm "nombre_producto") = true)) ∧
    (exOk (transform_materialesE t) = true ↔
      ((hasCol t (nm "tipo") = true → strAccOk t (nm "tipo") = true) ∧
       (hasCol t (nm "unidad_medida") = true →
         strAccOk t (nm "unidad_medida") = true))) ∧
    (exOk (transform_empleadosE t) = true ↔
      ((hasCol t (nm "nombre") = true → strAccOk t (nm "nombre") = true) ∧
       (hasCol t (nm "cargo") = true → strAccOk t (nm "cargo") = true) ∧
       (hasCol t (nm "email") = true → strAccOk t (nm "email") = true))) ∧
    (∀ u, transform_ordenes_produccionE t = Except.ok u →
      u = transform_ordenes_produccion t) ∧
    (∀ u, transform_productosE t = Except.ok u → u = transform_productos t) ∧
    (∀ u, transform_materialesE t = Except.ok u → u = transform_materiales t) ∧
    (∀ u, transform_empleadosE t = Except.ok u → u = transform_empleados t) ∧
    (hasCol (cliRen t) (nm "telefono") = true →
      strAccOk (cliRen t) (nm "telefono") = false →
      transform_clientesE t = Except.error attrErr) ∧
    ((hasCol (cliRen t) (nm "telefono") = true →
        strAccOk (cliRen t) (nm "telefono") = true) →
      hasCol (clientesPre t) (nm "email") = false →
      transform_clientesE t = Except.error (nm "KeyError: email")) ∧
    ((hasCol (cliRen t) (nm "telefono") = true →
        strAccOk (cliRen t) (nm "telefono") = true) →
      hasCol (clientesPre t) (nm "email") = true →
      (exOk (transform_clientesE t) = true ↔
        ∀ i ∈ (dupPositions (colVals (clientesPre t) (nm "email"))).tail,
          exOk (suffEmail i
            ((colVals (clientesPre t) (nm "email")).getD i Val.null)) = true)) := by
  refine ⟨?_, ?_, ?_, ?_, ?_, ?_, ?_, ?_, ?_, ?_, ?_, ?_, ?_, ?_, ?_, ?_⟩
  · simp only [transform_detalles_orden]
    split
    · rw [setColF_rows_length, mapCells_rows_length]
    · rw [mapCells_rows_length]
  · simp only [transform_uso_materiales]
    exact mapCells_rows_length
  · simp only [transform_ordenes_produccion]
    split
    · rw [setColF_rows_length, mapCells_rows_length, mapCells_rows_length]
    · rw [mapCells_rows_length, mapCells_rows_length]
  · simp only [transform_materiales]
    exact mapCells_rows_length
  · simp only [transform_empleados]
    exact mapCells_rows_length
  · unfold transform_ordenes_produccionE
    rw [exOk_ite]
    cases hg : hasCol (ordDates t) (nm "estado") <;>
      cases hs : strAccOk (ordDates t) (nm "estado") <;> simp [exOk]
  · unfold transform_productosE
    rw [exOk_ite]
    cases hg : hasCol t (nm "nombre_producto") <;>
      cases hs : strAccOk t (nm "nombre_producto") <;> simp [exOk]
  · unfold transform_materialesE
    simp only [exOk_ite]
    cases hg1 : hasCol t (nm "tipo") <;> cases hs1 : strAccOk t (nm "tipo") <;>
      cases hg2 : hasCol t (nm "unidad_medida") <;>
        cases hs2 : strAccOk t (nm "unidad_medida") <;> simp [exOk]
  · unfold transform_empleadosE
    simp only [exOk_ite]
    cases hg1 : hasCol t (nm "nombre") <;> cases hs1 : strAccOk t (nm "nombre") <;>
      cases hg2 : hasCol t (nm "cargo") <;> cases hs2 : strAccOk t (nm "cargo") <;>
        cases hg3 : hasCol t (nm "email") <;>
          cases hs3 : strAccOk t (nm "email") <;> simp [exOk]
  · intro u hu
    unfold transform_ordenes_produccionE at hu
    split at hu
    · exact absurd hu (by simp)
    · injection hu with h
      exact h.symm
  · intro u hu
    unfold transform_productosE at hu
    split at hu
    · exact absurd hu (by simp)
    · injection hu with h
      exact h.symm
  · intro u hu
    unfold transform_materialesE at hu
    split at hu
    · exact absurd hu (by simp)
    · split at hu
      · exact absurd hu (by simp)
      · injection hu with h
        exact h.symm
  · intro u hu
    unfold transform_empleadosE at hu
    split at hu
    · exact absurd hu (by simp)
    · split at hu
      · exact absurd hu (by simp)
      · split at hu
        · exact absurd hu (by simp)
        · injection hu with h
          exact h.symm
  · intro h1 h2
    unfold transform_clientesE
    rw [if_pos (show (hasCol (cliRen t) (nm "telefono") &&
      !(strAccOk (cliRen t) (nm "telefono"))) = true from by rw [h1, h2]; rfl)]
  · intro htel hem
    rw [transform_clientesE_eq htel]
    exact transform_clientes_keyerror hem
  · intro htel hem
    rw [transform_clientesE_eq htel]
    exact transform_clientes_ok_iff hem

/-- C6 (witness): the amended theorem applied to a Customer table with a
numeric phone column, to a table without an email column, and to the
shared-email customer table. -/
theorem C6_cleaning_totality_witness :
    transform_clientesE cliTelNum = Except.error attrErr ∧
    transform_clientesE ⟨[nm "id_cliente"], [[vInt 1]]⟩ =
      Except.error (nm "KeyError: email") ∧
    (exOk (transform_clientesE cliEm) = true ↔
      ∀ i ∈ (dupPositions (colVals (clientesPre cliEm) (nm "email"))).tail,
        exOk (suffEmail i
          ((colVals (clientesPre cliEm) (nm "email")).getD i Val.null)) = true) := by
  obtain ⟨-, -, -, -, -, -, -, -, -, -, -, -, -, hA, -, -⟩ :=
    C6_cleaning_totality cliTelNum
  obtain ⟨-, -, -, -, -, -, -, -, -, -, -, -, -, -, hK, -⟩ :=
    C6_cleaning_totality (⟨[nm "id_cliente"], [[vInt 1]]⟩ : Table)
  obtain ⟨-, -, -, -, -, -, -, -, -, -, -, -, -, -, -, hI⟩ :=
    C6_cleaning_totality cliEm
  exact ⟨hA (by decide) (by decide), hK (by decide) (by decide),
    hI (by decide) (by decide)⟩

theorem dedupApply_length {tl : List Nat} {jdx : Nat} :
    ∀ (rows : List (List Val)) (i0 : Nat),
      (dedupApply tl jdx i0 rows).length = rows.length := by
  intro rows
  induction rows with
  | nil => intro i0; rfl
  | cons row rest ih =>
    intro i0
    simp [dedupApply, ih (i0 + 1)]

theorem dedupApply_getD {tl : List Nat} {jdx : Nat} :
    ∀ (rows : List (List Val)) (i0 j : Nat), j < rows.length →
      (dedupApply tl jdx i0 rows).getD j [] =
        (if (i0 + j) ∈ tl then
          (rows.getD j []).set jdx (suffOr (i0 + j) ((rows.getD j []).getD jdx Val.null))
        else rows.getD j []) := by
  intro rows
  induction rows with
  | nil => intro i0 j hj; simp at hj
  | cons row rest ih =>
    intro i0 j hj
    rcases j with _ | j
    · simp [dedupApply]
    · have hj' : j < rest.length := by simpa using hj
      have h3 : i0 + (j + 1) = i0 + 1 + j := by omega
      simp only [dedupApply, List.getD_cons_succ, h3]
      exact ih (i0 + 1) j hj'

theorem dedupApply_mem_length {tl : List Nat} {jdx : Nat} :
    ∀ (rows : List (List Val)) (i0 : Nat) (r : List Val),
      r ∈ dedupApply tl jdx i0 rows → ∃ r0 ∈ rows, r.length = r0.length := by
  intro rows
  induction rows with
  | nil => intro i0 r hr; simp [dedupApply] at hr
  | cons row rest ih =>
    intro i0 r hr
    simp only [dedupApply, List.mem_cons] at hr
    rcases hr with hr | hr
    · refine ⟨row, List.mem_cons_self _ _, ?_⟩
      subst hr
      split
      · exact List.length_set row jdx _
      · rfl
    · obtain ⟨r0, hr0, hlen⟩ := ih (i0 + 1) r hr
      exact ⟨r0, List.mem_cons_of_mem _ hr0, hlen⟩

theorem dedupRows_eq_ok {cols : List (List Nat)} {tl : List Nat} {jdx : Nat}
    (hjdx : colIdx cols (nm "email") = some jdx) :
    ∀ (rows : List (List Val)) (i0 : Nat),
      (∀ j, j < rows.length → (i0 + j) ∈ tl →
        exOk (suffEmail (i0 + j) ((rows.getD j []).getD jdx Val.null)) = true) →
      dedupRows cols tl i0 rows = Except.ok (dedupApply tl jdx i0 rows) := by
  intro rows
  induction rows with
  | nil => intro i0 _; rfl
  | cons row rest ih =>
    intro i0 hok
    have hrec := ih (i0 + 1) (fun j hj hjt => by
      have h3 : i0 + 1 + j = i0 + (j + 1) := by omega
      rw [h3] at hjt ⊢
      exact hok (j + 1) (by simpa using Nat.succ_lt_succ hj) hjt)
    by_cases hi : i0 ∈ tl
    · have h0 := hok 0 (by simp) (by simpa using hi)
      simp only [Nat.add_zero, List.getD_cons_zero] at h0
      cases hsf : suffEmail i0 (row.getD jdx Val.null) with
      | error e => rw [hsf] at h0; simp [exOk] at h0
      | ok v' =>
        simp only [dedupRows, hi, if_pos, hjdx, hsf, hrec, dedupApply, suffOr]
    · simp only [dedupRows, hi, if_neg, hrec, dedupApply, suffOr, ite_false]

theorem natDigsAux_ne_nil {f n : Nat} (hf : 0 < f) : natDigsAux f n ≠ [] := by
  cases f with
  | zero => omega
  | succ f' =>
    simp only [natDigsAux]
    split
    · simp
    · simp

theorem natDigs_ne_nil {n : Nat} : natDigs n ≠ [] :=
  natDigsAux_ne_nil (Nat.succ_pos n)

theorem natDigsAux_mem_digit :
    ∀ (f n : Nat), ∀ c ∈ natDigsAux f n, 48 ≤ c ∧ c ≤ 57 := by
  intro f
  induction f with
  | zero => intro n c hc; simp [natDigsAux] at hc
  | succ f' ih =>
    intro n c hc
    simp only [natDigsAux] at hc
    split at hc
    · next h10 =>
      simp at hc
      omega
    · next h10 =>
      rcases List.mem_append.mp hc with hc | hc
      · exact ih _ c hc
      · simp at hc
        have := Nat.mod_lt n (show 0 < 10 by norm_num)
        omega

theorem natDigsAux_val :
    ∀ (f n acc : Nat), n < 10 ^ f →
      (natDigsAux f n).foldl (fun a c => a * 10 + (c - 48)) acc =
        acc * 10 ^ (natDigsAux f n).length + n := by
  intro f
  induction f with
  | zero =>
    intro n acc hn
    simp only [pow_zero, Nat.lt_one_iff] at hn
    subst hn
    simp [natDigsAux]
  | succ f' ih =>
    intro n acc hn
    by_cases h10 : n < 10
    · simp only [natDigsAux, h10, if_pos, List.foldl, List.length_cons,
        List.length_nil, Nat.zero_add, pow_one]
      omega
    · simp only [natDigsAux, h10, if_neg, not_false_iff]
      rw [List.foldl_append]
      have hdiv : n / 10 < 10 ^ f' := by
        rw [Nat.div_lt_iff_lt_mul (by norm_num : (0:Nat) < 10)]
        calc n < 10 ^ (f' + 1) := hn
        _ = 10 ^ f' * 10 := by rw [pow_succ]
      rw [ih (n / 10) acc hdiv]
      simp only [List.foldl, List.length_append, List.length_cons, List.length_nil]
      have hsub : 48 + n % 10 - 48 = n % 10 := by omega
      rw [hsub]
      have hmod := Nat.div_add_mod n 10
      calc (acc * 10 ^ (natDigsAux f' (n / 10)).length + n / 10) * 10 + n % 10
          = acc * (10 ^ (natDigsAux f' (n / 10)).length * 10) + (10 * (n / 10) + n % 10) := by
            ring
        _ = acc * 10 ^ ((natDigsAux f' (n / 10)).length + 0 + 1) + n := by
            rw [hmod, Nat.add_zero, pow_succ]

theorem natDigs_inj {m n : Nat} (h : natDigs m = natDigs n) : m = n := by
  have hm : m < 10 ^ (m + 1) :=
    lt_of_lt_of_le (Nat.lt_pow_self (by norm_num) m)
      (Nat.pow_le_pow_right (by norm_num) (by omega))
  have hn : n < 10 ^ (n + 1) :=
    lt_of_lt_of_le (Nat.lt_pow_self (by norm_num) n)
      (Nat.pow_le_pow_right (by norm_num) (by omega))
  have h1 := natDigsAux_val (m + 1) m 0 hm
  have h2 := natDigsAux_val (n + 1) n 0 hn
  simp only [Nat.zero_mul] at h1 h2
  have : (natDigs m).foldl (fun a c => a * 10 + (c - 48)) 0 = m := by
    simpa [natDigs] using h1
  rw [h] at this
  have h2' : (natDigs n).foldl (fun a c => a * 10 + (c - 48)) 0 = n := by
    simpa [natDigs] using h2
  omega

theorem two_le_filter_length {α : Type} (p : α → Bool) :
    ∀ (l : List α) (i j : Nat) (d : α), i < j → j < l.length →
      p (l.getD i d) = true → p (l.getD j d) = true →
      2 ≤ (l.filter p).length := by
  intro l
  induction l with
  | nil => intro i j d h1 h2 _ _; simp at h2
  | cons x xs ih =>
    intro i j d hij hj hpi hpj
    rcases j with _ | j
    · omega
    · have hj' : j < xs.length := by simpa using hj
      rw [List.getD_cons_succ] at hpj
      rcases i with _ | i
      · rw [List.getD_cons_zero] at hpi
        have hmem : xs.getD j d ∈ xs.filter p :=
          List.mem_filter.mpr ⟨getD_mem hj', hpj⟩
        have h1 : 0 < (xs.filter p).length :=
          List.length_pos.mpr (List.ne_nil_of_mem hmem)
        rw [List.filter_cons, hpi]
        simp only [if_pos, List.length_cons]
        omega
      · rw [List.getD_cons_succ] at hpi
        have := ih i j d (by omega) hj' hpi hpj
        rw [List.filter_cons]
        split
        · simp only [List.length_cons]
          omega
        · exact this

theorem splitC_ne_nil {sep : Nat} : ∀ (l : List Nat), splitC sep l ≠ [] := by
  intro l
  induction l with
  | nil => simp [splitC]
  | cons c cs ih =>
    simp only [splitC]
    split
    · simp
    · split
      · simp
      · simp

theorem splitC_one {sep : Nat} :
    ∀ {l p : List Nat}, splitC sep l = [p] → l = p ∧ sep ∉ p := by
  intro l
  induction l with
  | nil =>
    intro p h
    simp only [splitC, List.cons.injEq] at h
    exact ⟨h.1, by rw [← h.1]; simp⟩
  | cons c cs ih =>
    intro p h
    simp only [splitC] at h
    split at h
    · next hceq =>
      simp only [List.cons.injEq] at h
      exact absurd h.2 (splitC_ne_nil cs)
    · next hcne =>
      split at h
      · next heq =>
        exact absurd heq (splitC_ne_nil cs)
      · next q qs heq =>
        simp only [List.cons.injEq] at h
        obtain ⟨h1, h2⟩ := h
        rw [h2] at heq
        obtain ⟨hcs, hsep⟩ := ih heq
        refine ⟨by rw [hcs, h1], ?_⟩
        rw [← h1]
        intro hmem
        rcases List.mem_cons.mp hmem with h3 | h3
        · exact hcne (by simp [h3])
        · exact hsep h3

theorem splitC_two {sep : Nat} :
    ∀ {l a b : List Nat}, splitC sep l = [a, b] →
      l = a ++ sep :: b ∧ sep ∉ a ∧ sep ∉ b := by
  intro l
  induction l with
  | nil =>
    intro a b h
    simp [splitC] at h
  | cons c cs ih =>
    intro a b h
    simp only [splitC] at h
    split at h
    · next hceq =>
      simp only [List.cons.injEq] at h
      obtain ⟨h1, h2⟩ := h
      obtain ⟨hcs, hsep⟩ := splitC_one h2
      have hc : c = sep := by simpa using hceq
      refine ⟨?_, ?_, hsep⟩
      · rw [← h1, hcs, hc]
        rfl
      · rw [← h1]; simp
    · next hcne =>
      split at h
      · next heq =>
        simp at h
      · next q qs heq =>
        simp only [List.cons.injEq] at h
        obtain ⟨h1, h2⟩ := h
        rw [h2] at heq
        obtain ⟨hcs, hq, hb⟩ := ih heq
        refine ⟨?_, ?_, hb⟩
        · rw [← h1, hcs]
          rfl
        · rw [← h1]
          intro hmem
          rcases List.mem_cons.mp hmem with h3 | h3
          · exact hcne (by simp [h3])
          · exact hq h3

theorem wsp_ge_48 {c : Nat} (h : 48 ≤ c) : wsp c = false := by
  simp only [wsp, Bool.or_eq_false_iff, beq_eq_false_iff_ne, ne_eq]
  omega

theorem dropWhile_eq_self_of_head {p : Nat → Bool} {l : List Nat}
    (h : ∀ c ∈ l.head?, p c = false) : l.dropWhile p = l := by
  cases l with
  | nil => rfl
  | cons c cs =>
    have hc := h c (by simp)
    simp [List.dropWhile_cons, hc]

theorem head_of_dropWhile_eq_self {p : Nat → Bool} {l : List Nat}
    (h : l.dropWhile p = l) : ∀ c ∈ l.head?, p c = false := by
  intro c hc
  cases l with
  | nil => simp at hc
  | cons x xs =>
    simp only [List.head?_cons, Option.mem_def, Option.some.injEq] at hc
    subst hc
    by_contra hp
    simp only [Bool.not_eq_false] at hp
    simp only [List.dropWhile_cons, hp, if_true] at h
    have h1 : (xs.dropWhile p).length ≤ xs.length :=
      (List.dropWhile_suffix p).length_le
    have h2 := congrArg List.length h
    simp only [List.length_cons] at h2
    omega

theorem stripL_eq_self_iff {l : List Nat} :
    stripL l = l ↔
      (∀ c ∈ l.head?, wsp c = false) ∧ (∀ c ∈ l.getLast?, wsp c = false) := by
  constructor
  · intro h
    have hs1 : (l.dropWhile wsp) <:+ l := List.dropWhile_suffix wsp
    have hs2 : ((l.dropWhile wsp).reverse.dropWhile wsp) <:+ (l.dropWhile wsp).reverse :=
      List.dropWhile_suffix wsp
    have hlen : (((l.dropWhile wsp).reverse.dropWhile wsp).reverse).length = l.length := by
      rw [show ((l.dropWhile wsp).reverse.dropWhile wsp).reverse = stripL l from rfl, h]
    simp only [List.length_reverse] at hlen
    have hl1 : (l.dropWhile wsp).length ≤ l.length := hs1.length_le
    have hl2 : ((l.dropWhile wsp).reverse.dropWhile wsp).length ≤
        (l.dropWhile wsp).reverse.length := hs2.length_le
    simp only [List.length_reverse] at hl2
    have he1 : l.dropWhile wsp = l := hs1.eq_of_length (by omega)
    constructor
    · exact head_of_dropWhile_eq_self he1
    · rw [he1] at hs2 hl2
      have he2 : l.reverse.dropWhile wsp = l.reverse :=
        hs2.eq_of_length (by simp only [List.length_reverse]; rw [he1] at hlen; omega)
      intro c hc
      apply head_of_dropWhile_eq_self he2
      rw [List.head?_reverse]
      exact hc
  · intro hpair
    obtain ⟨h1, h2⟩ := hpair
    have e1 : l.dropWhile wsp = l := dropWhile_eq_self_of_head h1
    have e2 : l.reverse.dropWhile wsp = l.reverse := by
      apply dropWhile_eq_self_of_head
      intro c hc
      rw [List.head?_reverse] at hc
      exact h2 c hc
    show ((l.dropWhile wsp).reverse.dropWhile wsp).reverse = l
    rw [e1, e2, List.reverse_reverse]

theorem stripL_suffixed {a b d : List Nat} (hdnil : d ≠ [])
    (hdig : ∀ c ∈ d, 48 ≤ c ∧ c ≤ 57)
    (hfix : stripL (a ++ 64 :: b) = a ++ 64 :: b) :
    stripL (a ++ d ++ 64 :: b) = a ++ d ++ 64 :: b := by
  obtain ⟨hh, hl⟩ := stripL_eq_self_iff.mp hfix
  apply stripL_eq_self_iff.mpr
  constructor
  · intro c hc
    cases a with
    | nil =>
      cases d with
      | nil => exact absurd rfl hdnil
      | cons d0 ds =>
        have hcd : c = d0 := by
          simp only [List.nil_append, List.cons_append, List.head?_cons,
            Option.mem_def, Option.some.injEq] at hc
          omega
        rw [hcd]
        exact wsp_ge_48 (hdig d0 (by simp)).1
    | cons a0 as =>
      have hca : c = a0 := by
        simp only [List.cons_append, List.head?_cons, Option.mem_def,
          Option.some.injEq] at hc
        omega
      rw [hca]
      exact hh a0 (by simp)
  · intro c hc
    cases b with
    | nil =>
      rw [show a ++ d ++ 64 :: [] = (a ++ d) ++ [64] from by simp,
        List.getLast?_append_of_ne_nil (a ++ d) (by simp)] at hc
      simp only [List.getLast?_singleton, Option.mem_def, Option.some.injEq] at hc
      subst hc
      rfl
    | cons b0 bs =>
      rw [show a ++ d ++ 64 :: b0 :: bs = (a ++ d) ++ (64 :: b0 :: bs) from by simp,
        List.getLast?_append_of_ne_nil (a ++ d) (by simp)] at hc
      apply hl
      rw [show a ++ 64 :: b0 :: bs = a ++ (64 :: b0 :: bs) from rfl,
        List.getLast?_append_of_ne_nil a (by simp)]
      exact hc

theorem mem_dupPositions_of {em : List Val} {i j : Nat}
    (hi : i < em.length) (hj : j < em.length) (hne : i ≠ j)
    (heq : em.getD i Val.null = em.getD j Val.null) :
    i ∈ dupPositions em := by
  unfold dupPositions
  apply List.mem_filter.mpr
  refine ⟨List.mem_range.mpr hi, ?_⟩
  simp only [decide_eq_true_eq]
  rcases Nat.lt_or_ge i j with hlt | hge
  · exact two_le_filter_length _ em i j Val.null hlt hj (by simp)
      (by simp only [decide_eq_true_eq]; exact heq.symm)
  · have hlt : j < i := by omega
    exact two_le_filter_length _ em j i Val.null hlt hi
      (by simp only [decide_eq_true_eq]; exact heq.symm) (by simp)

theorem nodup_of_getD_inj {l : List Val}
    (h : ∀ i j, i < l.length → j < l.length →
      l.getD i Val.null = l.getD j Val.null → i = j) :
    l.Nodup := by
  rw [List.nodup_iff_injective_get]
  intro k k' hk
  apply Fin.ext
  apply h _ _ k.isLt k'.isLt
  rw [List.getD_eq_getElem _ _ k.isLt, List.getD_eq_getElem _ _ k'.isLt]
  simpa using hk

theorem getD_set_self {l : List Val} {i : Nat} {v : Val} (h : i < l.length) :
    (l.set i v).getD i Val.null = v := by
  rw [List.getD_eq_getElem _ _ (by simpa using h)]
  simp [List.getElem_set]

theorem okEmail_parts {s : List Nat} (h : okEmail (Val.str s) = true) :
    ∃ a b, splitC 64 s = [a, b] ∧ s = a ++ 64 :: b ∧ stripL s = s := by
  simp only [okEmail, Bool.and_eq_true, beq_iff_eq] at h
  obtain ⟨h2, hfix⟩ := h
  obtain ⟨a, b, hab⟩ := List.length_eq_two.mp h2
  exact ⟨a, b, hab, (splitC_two hab).1, hfix⟩

theorem suffEmail_ok_of {s a b : List Nat} (i : Nat)
    (hab : splitC 64 s = [a, b]) :
    suffEmail i (Val.str s) = Except.ok (Val.str (a ++ natDigs i ++ 64 :: b)) := by
  simp [suffEmail, hab]

theorem suffOr_str {s a b : List Nat} (i : Nat) (hab : splitC 64 s = [a, b]) :
    suffOr i (Val.str s) = Val.str (a ++ natDigs i ++ 64 :: b) := by
  simp [suffOr, suffEmail_ok_of i hab]

theorem stripS_suffOr {s a b : List Nat} (i : Nat) (hab : splitC 64 s = [a, b])
    (hfix : stripL s = s) :
    stripS (suffOr i (Val.str s)) = suffOr i (Val.str s) := by
  rw [suffOr_str i hab]
  have hs := (splitC_two hab).1
  have hfx : stripL (a ++ natDigs i ++ 64 :: b) = a ++ natDigs i ++ 64 :: b :=
    stripL_suffixed natDigs_ne_nil
      (fun c hc => natDigsAux_mem_digit _ _ c hc)
      (by rw [← hs]; exact hfix)
  show Val.str (stripL (a ++ natDigs i ++ 64 :: b)) = Val.str (a ++ natDigs i ++ 64 :: b)
  rw [hfx]

theorem suffOr_inj_same {s a b : List Nat} {i j : Nat}
    (hab : splitC 64 s = [a, b])
    (h : suffOr i (Val.str s) = suffOr j (Val.str s)) : i = j := by
  rw [suffOr_str i hab, suffOr_str j hab] at h
  simp only [Val.str.injEq] at h
  exact natDigs_inj (List.append_cancel_left (List.append_cancel_right h))

theorem suffOr_ne_base {s a b : List Nat} {i : Nat}
    (hab : splitC 64 s = [a, b]) :
    suffOr i (Val.str s) ≠ Val.str s := by
  rw [suffOr_str i hab]
  intro h
  simp only [Val.str.injEq] at h
  rw [(splitC_two hab).1] at h
  have hlen := congrArg List.length h
  simp only [List.length_append, List.length_cons] at hlen
  have hpos : 0 < (natDigs i).length := List.length_pos.mpr natDigs_ne_nil
  omega

theorem colVals_length {t : Table} {c : List Nat} :
    (colVals t c).length = t.rows.length := by
  simp [colVals]

theorem colVals_mapCells_ite {objs : List (List Nat)} {t : Table} {c : List Nat}
    {jdx : Nat} (hjdx : colIdx t.cols c = some jdx)
    (hwf : ∀ r ∈ t.rows, r.length = t.cols.length)
    {j : Nat} (hj : j < t.rows.length) :
    (colVals (mapCells (fun c' v => if c' ∈ objs then stripS v else v) t) c).getD j Val.null =
      (if c ∈ objs then stripS (getC t.cols (t.rows.getD j []) c)
       else getC t.cols (t.rows.getD j []) c) := by
  have h1 : (colVals (mapCells (fun c' v => if c' ∈ objs then stripS v else v) t) c).getD
        j Val.null =
      getC (mapCells (fun c' v => if c' ∈ objs then stripS v else v) t).cols
        ((mapCells (fun c' v => if c' ∈ objs then stripS v else v) t).rows.getD j []) c := by
    simp only [colVals]
    exact getD_map_lt (by rw [mapCells_rows_length]; exact hj)
  rw [h1, getC_mapCells hwf hj]
  simp only [hjdx]

/-- C3 (counterexample): the cleaned Customer emails need not be unique.
With raw emails `a@x.com, a@x.com, a1@x.com`, the second row is rewritten
to `a1@x.com`, which collides with the third row's untouched email. -/
theorem C3_counterexample :
    (transform_clientesE cliCol).map
      (fun t' => decide ((colVals t' (nm "email")).Nodup)) = Except.ok false := by
  decide

/-- C3 (amended): when every raw Customer email is a trimmed string with
a single `@`, any present phone column is object-dtype (so the phone
strip raises no `AttributeError`), and no synthesized email collides
with an email of a different base (the freshness hypothesis the code
omits to check), cleaning succeeds, the cleaned email column is
duplicate-free, and every row other than the later occurrences of a
duplicated email keeps its original email; in particular the suffix
mechanism itself never maps two rows of the same duplicated email to the
same address. -/
theorem C3_email_uniqueness (t : Table)
    (hwf : ∀ r ∈ t.rows, r.length = t.cols.length)
    (htel : hasCol (cliRen t) (nm "telefono") = true →
      strAccOk (cliRen t) (nm "telefono") = true)
    (hcol : hasCol (clientesPre t) (nm "email") = true)
    (hok : ∀ v ∈ colVals (clientesPre t) (nm "email"), okEmail v = true)
    (hfresh : ∀ i ∈ (dupPositions (colVals (clientesPre t) (nm "email"))).tail,
      ∀ j, j < (colVals (clientesPre t) (nm "email")).length → i ≠ j →
        (colVals (clientesPre t) (nm "email")).getD i Val.null ≠
          (colVals (clientesPre t) (nm "email")).getD j Val.null →
        finalEmail (colVals (clientesPre t) (nm "email"))
            (dupPositions (colVals (clientesPre t) (nm "email"))).tail i ≠
          finalEmail (colVals (clientesPre t) (nm "email"))
            (dupPositions (colVals (clientesPre t) (nm "email"))).tail j) :
    ∃ t', transform_clientesE t = Except.ok t' ∧
      (colVals t' (nm "email")).length =
        (colVals (clientesPre t) (nm "email")).length ∧
      (∀ j, j < (colVals (clientesPre t) (nm "email")).length →
        (colVals t' (nm "email")).getD j Val.null =
          finalEmail (colVals (clientesPre t) (nm "email"))
            (dupPositions (colVals (clientesPre t) (nm "email"))).tail j) ∧
      (colVals t' (nm "email")).Nodup ∧
      (∀ j, j < (colVals (clientesPre t) (nm "email")).length →
        j ∉ (dupPositions (colVals (clientesPre t) (nm "email"))).tail →
        (colVals t' (nm "email")).getD j Val.null =
          (colVals (clientesPre t) (nm "email")).getD j Val.null) := by
  have hEeq : transform_clientesE t = transform_clientes t := transform_clientesE_eq htel
  set em := colVals (clientesPre t) (nm "email") with hem
  set tl := (dupPositions em).tail with htl
  have hcol' := hcol
  simp only [hasCol] at hcol'
  obtain ⟨jdx, hjdx0⟩ := Option.isSome_iff_exists.mp hcol'
  have hjlt := colIdx_lt_length hjdx0
  have hwfp : ∀ r ∈ (clientesPre t).rows, r.length = (clientesPre t).cols.length := by
    simp only [clientesPre]
    apply mapCells_wf
    intro r hr
    simp only [renameC, List.length_map]
    exact hwf r (by simpa [renameC] using hr)
  have hlen : em.length = (clientesPre t).rows.length := by
    rw [hem, colVals_length]
  have hemj : ∀ j, j < (clientesPre t).rows.length →
      em.getD j Val.null = ((clientesPre t).rows.getD j []).getD jdx Val.null := by
    intro j hj
    rw [hem]
    exact colVals_getD_eq hjdx0 hj
  have hfixv : ∀ k, k < em.length →
      stripS (em.getD k Val.null) = em.getD k Val.null := by
    intro k hk
    have hvk := hok (em.getD k Val.null) (getD_mem hk)
    cases hv : em.getD k Val.null with
    | str s =>
      rw [hv] at hvk
      simp only [okEmail, Bool.and_eq_true, beq_iff_eq] at hvk
      show Val.str (stripL s) = Val.str s
      rw [hvk.2]
    | null => rw [hv] at hvk; simp [okEmail] at hvk
    | num q => rw [hv] at hvk; simp [okEmail] at hvk
  have hfixsuff : ∀ k, k < em.length →
      stripS (suffOr k (em.getD k Val.null)) = suffOr k (em.getD k Val.null) := by
    intro k hk
    have hvk := hok (em.getD k Val.null) (getD_mem hk)
    cases hv : em.getD k Val.null with
    | str s =>
      rw [hv] at hvk
      obtain ⟨a, b, hab, _, hfix⟩ := okEmail_parts hvk
      exact stripS_suffOr k hab hfix
    | null => rw [hv] at hvk; simp [okEmail] at hvk
    | num q => rw [hv] at hvk; simp [okEmail] at hvk
  have hfixFin : ∀ k, k < em.length →
      stripS (finalEmail em tl k) = finalEmail em tl k := by
    intro k hk
    unfold finalEmail
    by_cases hkt : k ∈ tl
    · rw [if_pos hkt]
      exact hfixsuff k hk
    · rw [if_neg hkt]
      exact hfixv k hk
  have hinj : ∀ i j, i < em.length → j < em.length →
      finalEmail em tl i = finalEmail em tl j → i = j := by
    have hkey : ∀ i j, i < em.length → j < em.length → i ≠ j → i ∈ tl →
        finalEmail em tl i = finalEmail em tl j → False := by
      intro i j hi hj hne hmi heqF
      have hvi := hok (em.getD i Val.null) (getD_mem hi)
      by_cases hbase : em.getD i Val.null = em.getD j Val.null
      · cases hv : em.getD i Val.null with
        | str s =>
          rw [hv] at hvi
          obtain ⟨a, b, hab, _, _⟩ := okEmail_parts hvi
          unfold finalEmail at heqF
          rw [if_pos hmi] at heqF
          by_cases hmj : j ∈ tl
          · rw [if_pos hmj, ← hbase, hv] at heqF
            exact hne (suffOr_inj_same hab heqF)
          · rw [if_neg hmj, ← hbase, hv] at heqF
            exact suffOr_ne_base hab heqF
        | null => rw [hv] at hvi; simp [okEmail] at hvi
        | num q => rw [hv] at hvi; simp [okEmail] at hvi
      · exact hfresh i hmi j hj hne hbase heqF
    intro i j hi hj heqF
    by_contra hne
    by_cases hmi : i ∈ tl
    · exact hkey i j hi hj hne hmi heqF
    · by_cases hmj : j ∈ tl
      · exact hkey j i hj hi (Ne.symm hne) hmj heqF.symm
      · unfold finalEmail at heqF
        rw [if_neg hmi, if_neg hmj] at heqF
        have hdi : i ∈ dupPositions em := mem_dupPositions_of hi hj hne heqF
        have hdj : j ∈ dupPositions em :=
          mem_dupPositions_of hj hi (Ne.symm hne) heqF.symm
        cases hdp : dupPositions em with
        | nil => rw [hdp] at hdi; simp at hdi
        | cons p tl0 =>
          rw [hdp] at hdi hdj
          rw [htl, hdp] at hmi hmj
          simp only [List.tail_cons] at hmi hmj
          rcases List.mem_cons.mp hdi with h1 | h1
          · rcases List.mem_cons.mp hdj with h2 | h2
            · exact hne (h1.trans h2.symm)
            · exact hmj h2
          · exact hmi h1
  cases hd : dupPositions em with
  | nil =>
    obtain ⟨T1, hT1⟩ : ∃ T1, T1 = mapCells
        (fun c v => if c ∈ List.filter (isObjCol (clientesPre t)) (clientesPre t).cols
          then stripS v else v) (clientesPre t) := ⟨_, rfl⟩
    have heqT : transform_clientes t = Except.ok T1 := by
      rw [hT1]
      simp only [transform_clientes]
      rw [if_pos hcol, ← hem, hd]
      rfl
    have hlenT : (colVals T1 (nm "email")).length = em.length := by
      rw [hT1, colVals_length, mapCells_rows_length, hlen]
    have hvals : ∀ j, j < em.length →
        (colVals T1 (nm "email")).getD j Val.null = finalEmail em tl j := by
      intro j hj
      have hj' : j < (clientesPre t).rows.length := by rw [← hlen]; exact hj
      rw [hT1, colVals_mapCells_ite hjdx0 hwfp hj']
      have hgc : getC (clientesPre t).cols ((clientesPre t).rows.getD j [])
          (nm "email") = em.getD j Val.null := by
        rw [hemj j hj']
        unfold getC
        rw [hjdx0]
      have hnotin : j ∉ tl := by rw [htl, hd]; simp
      have hfe : finalEmail em tl j = em.getD j Val.null := by
        unfold finalEmail
        rw [if_neg hnotin]
      rw [hgc, hfe]
      split
      · exact hfixv j hj
      · rfl
    have hnodup : (colVals T1 (nm "email")).Nodup := by
      apply nodup_of_getD_inj
      intro i j hi hj hv
      rw [hlenT] at hi hj
      rw [hvals i hi, hvals j hj] at hv
      exact hinj i j hi hj hv
    have hkeep : ∀ j, j < em.length → j ∉ tl →
        (colVals T1 (nm "email")).getD j Val.null = em.getD j Val.null := by
      intro j hj hjn
      rw [hvals j hj]
      unfold finalEmail
      rw [if_neg hjn]
    exact ⟨T1, hEeq.trans heqT, hlenT, hvals, hnodup, hkeep⟩
  | cons p tl0 =>
    have htl0 : tl = tl0 := by rw [htl, hd]; rfl
    have hsuffok : ∀ j, j < (clientesPre t).rows.length → j ∈ tl0 →
        exOk (suffEmail j (((clientesPre t).rows.getD j []).getD jdx Val.null)) =
          true := by
      intro j hj hjt
      have hjem : j < em.length := by rw [hlen]; exact hj
      have hvk := hok (em.getD j Val.null) (getD_mem hjem)
      rw [← hemj j hj]
      cases hv : em.getD j Val.null with
      | str s =>
        rw [hv] at hvk
        obtain ⟨a, b, hab, _, _⟩ := okEmail_parts hvk
        rw [suffEmail_ok_of j hab]
        rfl
      | null => rw [hv] at hvk; simp [okEmail] at hvk
      | num q => rw [hv] at hvk; simp [okEmail] at hvk
    have hded : dedupRows (clientesPre t).cols tl0 0 (clientesPre t).rows =
        Except.ok (dedupApply tl0 jdx 0 (clientesPre t).rows) :=
      dedupRows_eq_ok hjdx0 (clientesPre t).rows 0 (fun j hj hjt => by
        simp only [Nat.zero_add] at hjt ⊢
        exact hsuffok j hj hjt)
    obtain ⟨TF, hTF⟩ : ∃ TF, TF =
        (⟨(clientesPre t).cols, dedupApply tl0 jdx 0 (clientesPre t).rows⟩ : Table) :=
      ⟨_, rfl⟩
    have hjdxF : colIdx TF.cols (nm "email") = some jdx := by rw [hTF]; exact hjdx0
    have hwfF : ∀ r ∈ TF.rows, r.length = TF.cols.length := by
      rw [hTF]
      intro r hr
      obtain ⟨r0, hr0, hlenr⟩ := dedupApply_mem_length (clientesPre t).rows 0 r hr
      rw [hlenr]
      exact hwfp r0 hr0
    have hlenF : TF.rows.length = (clientesPre t).rows.length := by
      rw [hTF]
      exact dedupApply_length (clientesPre t).rows 0
    have hrowF : ∀ j, j < (clientesPre t).rows.length →
        TF.rows.getD j [] =
          (if j ∈ tl0 then
            ((clientesPre t).rows.getD j []).set jdx
              (suffOr j (((clientesPre t).rows.getD j []).getD jdx Val.null))
          else (clientesPre t).rows.getD j []) := by
      intro j hj
      rw [hTF]
      have h2 := @dedupApply_getD tl0 jdx (clientesPre t).rows 0 j hj
      simpa [Nat.zero_add] using h2
    obtain ⟨T1, hT1⟩ : ∃ T1, T1 = mapCells
        (fun c v => if c ∈ List.filter (isObjCol TF) TF.cols then stripS v else v)
        TF := ⟨_, rfl⟩
    have heqT : transform_clientes t = Except.ok T1 := by
      rw [hT1, hTF]
      simp only [transform_clientes]
      rw [if_pos hcol, ← hem, hd]
      simp only [hded]
      rfl
    have hlenT : (colVals T1 (nm "email")).length = em.length := by
      rw [hT1, colVals_length, mapCells_rows_length, hlenF, hlen]
    have hgetCF : ∀ row : List Val,
        getC TF.cols row (nm "email") = row.getD jdx Val.null := by
      intro row
      unfold getC
      rw [hjdxF]
    have hvals : ∀ j, j < em.length →
        (colVals T1 (nm "email")).getD j Val.null = finalEmail em tl j := by
      intro j hj
      have hj' : j < (clientesPre t).rows.length := by rw [← hlen]; exact hj
      have hjF : j < TF.rows.length := by rw [hlenF]; exact hj'
      have hrl : ((clientesPre t).rows.getD j []).length =
          (clientesPre t).cols.length := hwfp _ (getD_mem hj')
      rw [hT1, colVals_mapCells_ite hjdxF hwfF hjF]
      have hgcF : getC TF.cols (TF.rows.getD j []) (nm "email") =
          finalEmail em tl j := by
        rw [hgetCF, hrowF j hj']
        by_cases hjt : j ∈ tl0
        · rw [if_pos hjt, getD_set_self (by rw [hrl]; exact hjlt), ← hemj j hj']
          unfold finalEmail
          rw [if_pos (show j ∈ tl by rw [htl0]; exact hjt)]
        · rw [if_neg hjt, ← hemj j hj']
          unfold finalEmail
          rw [if_neg (show j ∉ tl by rw [htl0]; exact hjt)]
      rw [hgcF]
      split
      · exact hfixFin j hj
      · rfl
    have hnodup : (colVals T1 (nm "email")).Nodup := by
      apply nodup_of_getD_inj
      intro i j hi hj hv
      rw [hlenT] at hi hj
      rw [hvals i hi, hvals j hj] at hv
      exact hinj i j hi hj hv
    have hkeep : ∀ j, j < em.length → j ∉ tl →
        (colVals T1 (nm "email")).getD j Val.null = em.getD j Val.null := by
      intro j hj hjn
      rw [hvals j hj]
      unfold finalEmail
      rw [if_neg hjn]
    exact ⟨T1, hEeq.trans heqT, hlenT, hvals, hnodup, hkeep⟩

/-- C3 (witness): the amended theorem applied to the shared-email
customer table, whose synthesized email is fresh. -/
theorem C3_email_uniqueness_witness :
    ∃ t', transform_clientesE cliEm = Except.ok t' ∧
      (colVals t' (nm "email")).length =
        (colVals (clientesPre cliEm) (nm "email")).length ∧
      (∀ j, j < (colVals (clientesPre cliEm) (nm "email")).length →
        (colVals t' (nm "email")).getD j Val.null =
          finalEmail (colVals (clientesPre cliEm) (nm "email"))
            (dupPositions (colVals (clientesPre cliEm) (nm "email"))).tail j) ∧
      (colVals t' (nm "email")).Nodup ∧
      (∀ j, j < (colVals (clientesPre cliEm) (nm "email")).length →
        j ∉ (dupPositions (colVals (clientesPre cliEm) (nm "email"))).tail →
        (colVals t' (nm "email")).getD j Val.null =
          (colVals (clientesPre cliEm) (nm "email")).getD j Val.null) :=
  C3_email_uniqueness cliEm (by decide) (by decide) (by decide) (by decide) (by decide)

theorem loC_idem {c : Nat} : loC (loC c) = loC c := by
  simp only [loC, isUpC, Bool.and_eq_true, decide_eq_true_eq]
  split_ifs <;> omega

theorem upC_idem {c : Nat} : upC (upC c) = upC c := by
  simp only [upC, isLoC, Bool.and_eq_true, decide_eq_true_eq]
  split_ifs <;> omega

theorem wsp_loC {c : Nat} : wsp (loC c) = wsp c := by
  simp only [loC, isUpC, Bool.and_eq_true, decide_eq_true_eq]
  split_ifs with h
  · rw [wsp_ge_48 (by omega), wsp_ge_48 (by omega)]
  · rfl

theorem wsp_upC {c : Nat} : wsp (upC c) = wsp c := by
  simp only [upC, isLoC, Bool.and_eq_true, decide_eq_true_eq]
  split_ifs with h
  · rw [wsp_ge_48 (by omega), wsp_ge_48 (by omega)]
  · rfl

theorem isAlC_loC {c : Nat} : isAlC (loC c) = isAlC c := by
  simp only [loC]
  split
  · next h =>
    simp only [isUpC, Bool.and_eq_true, decide_eq_true_eq] at h
    have h1 : isAlC (c + 32) = true := by
      simp only [isAlC, isUpC, isLoC, Bool.or_eq_true, Bool.and_eq_true,
        decide_eq_true_eq]
      omega
    have h2 : isAlC c = true := by
      simp only [isAlC, isUpC, isLoC, Bool.or_eq_true, Bool.and_eq_true,
        decide_eq_true_eq]
      omega
    rw [h1, h2]
  · rfl

theorem isAlC_upC {c : Nat} : isAlC (upC c) = isAlC c := by
  simp only [upC]
  split
  · next h =>
    simp only [isLoC, Bool.and_eq_true, decide_eq_true_eq] at h
    have h1 : isAlC (c - 32) = true := by
      simp only [isAlC, isUpC, isLoC, Bool.or_eq_true, Bool.and_eq_true,
        decide_eq_true_eq]
      omega
    have h2 : isAlC c = true := by
      simp only [isAlC, isUpC, isLoC, Bool.or_eq_true, Bool.and_eq_true,
        decide_eq_true_eq]
      omega
    rw [h1, h2]
  · rfl

theorem head_dropWhile {p : Nat → Bool} :
    ∀ (l : List Nat), ∀ c ∈ (l.dropWhile p).head?, p c = false := by
  intro l
  induction l with
  | nil => intro c hc; simp at hc
  | cons x xs ih =>
    intro c hc
    rw [List.dropWhile_cons] at hc
    by_cases hp : p x = true
    · rw [if_pos hp] at hc
      exact ih c hc
    · rw [if_neg hp] at hc
      simp only [List.head?_cons, Option.mem_def, Option.some.injEq] at hc
      cases hc
      simpa using hp

theorem stripL_idem {l : List Nat} : stripL (stripL l) = stripL l := by
  apply stripL_eq_self_iff.mpr
  constructor
  · intro c hc
    simp only [stripL] at hc
    have h0 : ((l.dropWhile wsp).reverse.dropWhile wsp).reverse <+:
        (l.dropWhile wsp).reverse.reverse :=
      List.reverse_prefix.mpr (List.dropWhile_suffix wsp)
    rw [List.reverse_reverse] at h0
    obtain ⟨tail0, htail⟩ := h0
    have hcY : c ∈ (l.dropWhile wsp).head? := by
      rw [← htail, List.head?_append]
      simp only [Option.mem_def] at hc ⊢
      rw [hc]
      rfl
    exact head_dropWhile l c hcY
  · intro c hc
    simp only [stripL] at hc
    rw [← List.head?_reverse, List.reverse_reverse] at hc
    exact head_dropWhile _ c hc

theorem stripS_stripS {v : Val} : stripS (stripS v) = stripS v := by
  cases v with
  | str s =>
    show Val.str (stripL (stripL s)) = Val.str (stripL s)
    rw [stripL_idem]
  | null => rfl
  | num x => rfl

theorem stripL_lowerL {l : List Nat} (h : stripL l = l) :
    stripL (lowerL l) = lowerL l := by
  obtain ⟨h1, h2⟩ := stripL_eq_self_iff.mp h
  apply stripL_eq_self_iff.mpr
  constructor
  · intro c hc
    simp only [lowerL, List.head?_map, Option.mem_def, Option.map_eq_some'] at hc
    obtain ⟨c0, hc0, rfl⟩ := hc
    rw [wsp_loC]
    exact h1 c0 hc0
  · intro c hc
    simp only [lowerL, List.getLast?_map, Option.mem_def, Option.map_eq_some'] at hc
    obtain ⟨c0, hc0, rfl⟩ := hc
    rw [wsp_loC]
    exact h2 c0 hc0

theorem lowerL_idem {l : List Nat} : lowerL (lowerL l) = lowerL l := by
  simp only [lowerL, List.map_map]
  apply List.map_congr_left
  intro c _
  show loC (loC c) = loC c
  exact loC_idem

theorem titleGo_getLast :
    ∀ (l : List Nat) (b : Bool) (c : Nat), c ∈ (titleGo b l).getLast? →
      ∃ c0 ∈ l.getLast?, c = loC c0 ∨ c = upC c0 := by
  intro l
  induction l with
  | nil => intro b c hc; simp [titleGo] at hc
  | cons x xs ih =>
    intro b c hc
    cases xs with
    | nil =>
      simp only [titleGo, List.getLast?_singleton, Option.mem_def,
        Option.some.injEq] at hc
      refine ⟨x, by simp, ?_⟩
      split at hc
      · exact Or.inl hc.symm
      · exact Or.inr hc.symm
    | cons y ys =>
      have hc' : c ∈ (titleGo (isAlC x) (y :: ys)).getLast? := by
        simp only [titleGo] at hc
        rw [List.getLast?_cons_cons] at hc
        exact hc
      obtain ⟨c0, hc0, hor⟩ := ih (isAlC x) c hc'
      refine ⟨c0, ?_, hor⟩
      rw [List.getLast?_cons_cons]
      exact hc0

theorem stripL_titleL {l : List Nat} (h : stripL l = l) :
    stripL (titleL l) = titleL l := by
  obtain ⟨h1, h2⟩ := stripL_eq_self_iff.mp h
  apply stripL_eq_self_iff.mpr
  constructor
  · intro c hc
    cases l with
    | nil => simp [titleL, titleGo] at hc
    | cons x xs =>
      simp only [titleL, titleGo, Bool.false_eq_true, if_false, List.head?_cons,
        Option.mem_def, Option.some.injEq] at hc
      rw [← hc, wsp_upC]
      exact h1 x (by simp)
  · intro c hc
    obtain ⟨c0, hc0, hor⟩ := titleGo_getLast l false c hc
    rcases hor with h3 | h3
    · rw [h3, wsp_loC]
      exact h2 c0 hc0
    · rw [h3, wsp_upC]
      exact h2 c0 hc0

theorem titleGo_idem : ∀ (l : List Nat) (b : Bool),
    titleGo b (titleGo b l) = titleGo b l := by
  intro l
  induction l with
  | nil => intro b; rfl
  | cons x xs ih =>
    intro b
    cases b with
    | false =>
      simp only [titleGo, Bool.false_eq_true, if_false, upC_idem, isAlC_upC]
      rw [ih]
    | true =>
      simp only [titleGo, if_true, loC_idem, isAlC_loC]
      rw [ih]

theorem titleStrip_idem {v : Val} :
    titleS (stripS (titleS (stripS v))) = titleS (stripS v) := by
  cases v with
  | str s =>
    show titleS (stripS (Val.str (titleL (stripL s)))) = Val.str (titleL (stripL s))
    show titleS (Val.str (stripL (titleL (stripL s)))) = _
    rw [stripL_titleL stripL_idem]
    show Val.str (titleGo false (titleGo false (stripL s))) = _
    rw [titleGo_idem]
    rfl
  | null => rfl
  | num x => rfl

theorem lowerStrip_idem {v : Val} :
    lowerS (stripS (lowerS (stripS v))) = lowerS (stripS v) := by
  cases v with
  | str s =>
    show lowerS (stripS (Val.str (lowerL (stripL s)))) = Val.str (lowerL (stripL s))
    show lowerS (Val.str (stripL (lowerL (stripL s)))) = _
    rw [stripL_lowerL stripL_idem]
    show Val.str (lowerL (lowerL (stripL s))) = _
    rw [lowerL_idem]
  | null => rfl
  | num x => rfl

theorem toNumV_idem {v : Val} : toNumV (toNumV v) = toNumV v := by
  cases v with
  | num x => rfl
  | null => rfl
  | str s =>
    cases hp : parseQ s with
    | some q => simp only [toNumV, hp]
    | none => simp only [toNumV, hp]

theorem toDateV_idem {v : Val} : toDateV (toDateV v) = toDateV v := by
  cases v with
  | num x => rfl
  | null => rfl
  | str s =>
    cases hp : parseDateL s with
    | some n => simp only [toDateV, hp]
    | none => simp only [toDateV, hp]

theorem fillna0_num {x : NumF} : fillna0 (Val.num x) = Val.num x := by
  simp [fillna0]

theorem fillToNum_idem {v : Val} :
    fillna0 (toNumV (fillna0 (toNumV v))) = fillna0 (toNumV v) := by
  cases v with
  | num x =>
    show fillna0 (toNumV (fillna0 (Val.num x))) = fillna0 (Val.num x)
    rw [fillna0_num]
    show fillna0 (Val.num x) = Val.num x
    exact fillna0_num
  | null => rfl
  | str s =>
    cases hp : parseQ s with
    | some q =>
      show fillna0 (toNumV (fillna0 (toNumV (Val.str s)))) = fillna0 (toNumV (Val.str s))
      simp only [toNumV, hp]
      rw [fillna0_num]
      show fillna0 (toNumV (Val.num (NumF.fin q))) = fillna0 (Val.num (NumF.fin q))
      rfl
    | none =>
      show fillna0 (toNumV (fillna0 (toNumV (Val.str s)))) = fillna0 (toNumV (Val.str s))
      simp only [toNumV, hp]
      rfl

theorem map_eq_self {α : Type} {f : α → α} :
    ∀ (l : List α), (∀ x ∈ l, f x = x) → l.map f = l := by
  intro l
  induction l with
  | nil => intro _; rfl
  | cons x xs ih =>
    intro h
    simp only [List.map_cons, h x (by simp), List.cons.injEq, true_and]
    exact ih (fun y hy => h y (List.mem_cons_of_mem _ hy))

theorem set_eq_self_of_getD {l : List Val} :
    ∀ {i : Nat} {v : Val}, l.getD i Val.null = v → l.set i v = l := by
  induction l with
  | nil => intro i v _; rfl
  | cons x xs ih =>
    intro i v h
    cases i with
    | zero =>
      rw [List.getD_cons_zero] at h
      rw [← h]
      rfl
    | succ i =>
      rw [List.getD_cons_succ] at h
      show x :: xs.set i v = x :: xs
      rw [ih h]

theorem getD_zipWith {f : List Nat → Val → Val} :
    ∀ (cols : List (List Nat)) (r : List Val) (i : Nat), i < cols.length →
      i < r.length →
      (List.zipWith f cols r).getD i Val.null =
        f (cols.getD i []) (r.getD i Val.null) := by
  intro cols
  induction cols with
  | nil => intro r i hi _; simp at hi
  | cons c cs ih =>
    intro r i hi hr
    cases r with
    | nil => simp at hr
    | cons v vs =>
      cases i with
      | zero => rfl
      | succ i =>
        simp only [List.zipWith_cons_cons, List.getD_cons_succ]
        exact ih vs i (by simpa using hi) (by simpa using hr)

theorem zipWith_zipWith_same {f g : List Nat → Val → Val} :
    ∀ (cols : List (List Nat)) (r : List Val),
      List.zipWith f cols (List.zipWith g cols r) =
        List.zipWith (fun c v => f c (g c v)) cols r := by
  intro cols
  induction cols with
  | nil => intro r; rfl
  | cons c cs ih =>
    intro r
    cases r with
    | nil => rfl
    | cons v vs =>
      simp only [List.zipWith_cons_cons]
      rw [ih vs]

theorem zipWith_congr_fun {f g : List Nat → Val → Val}
    (h : ∀ c v, f c v = g c v) :
    ∀ (cols : List (List Nat)) (r : List Val),
      List.zipWith f cols r = List.zipWith g cols r := by
  intro cols
  induction cols with
  | nil => intro r; rfl
  | cons c cs ih =>
    intro r
    cases r with
    | nil => rfl
    | cons v vs =>
      simp only [List.zipWith_cons_cons]
      rw [h, ih vs]

theorem zipWith_eq_self {f : List Nat → Val → Val} :
    ∀ (cols : List (List Nat)) (r : List Val), r.length = cols.length →
      (∀ i, i < cols.length →
        f (cols.getD i []) (r.getD i Val.null) = r.getD i Val.null) →
      List.zipWith f cols r = r := by
  intro cols
  induction cols with
  | nil =>
    intro r hr _
    simp only [List.length_nil] at hr
    rw [List.eq_nil_of_length_eq_zero hr]
    rfl
  | cons c cs ih =>
    intro r hr h
    cases r with
    | nil => simp at hr
    | cons v vs =>
      simp only [List.zipWith_cons_cons]
      have h0 := h 0 (by simp)
      simp only [List.getD_cons_zero] at h0
      rw [h0]
      congr 1
      exact ih vs (by simpa using hr)
        (fun i hi => by
          have := h (i + 1) (by simpa using Nat.succ_lt_succ hi)
          simpa using this)

theorem getD_set_ne {l : List Val} {i k : Nat} {v : Val} (h : i ≠ k) :
    (l.set k v).getD i Val.null = l.getD i Val.null := by
  rw [List.getD_eq_getElem?_getD, List.getD_eq_getElem?_getD,
    List.getElem?_set_ne (fun he => h he.symm)]

theorem colIdx_self_singleton {c : List Nat} : colIdx [c] c = some 0 := by
  simp [colIdx]

theorem getD_append_last {r : List Val} {x : Val} :
    (r ++ [x]).getD r.length Val.null = x := by
  rw [List.getD_eq_getElem?_getD, List.getElem?_append_right le_rfl]
  simp

theorem getD_cols_append_last {A : List (List Nat)} {c : List Nat} :
    (A ++ [c]).getD A.length [] = c := by
  rw [List.getD_eq_getElem?_getD, List.getElem?_append_right le_rfl]
  simp

theorem getD_append_lt {r : List Val} {B : List Val} {i : Nat} (h : i < r.length) :
    (r ++ B).getD i Val.null = r.getD i Val.null := by
  rw [List.getD_append _ _ _ _ h]

theorem getD_cols_append_lt {A B : List (List Nat)} {i : Nat} (h : i < A.length) :
    (A ++ B).getD i [] = A.getD i [] := by
  rw [List.getD_append _ _ _ _ h]

theorem mapCells_idem_of_cell {f : List Nat → Val → Val}
    (hcell : ∀ c v, f c (f c v) = f c v) (t : Table) :
    mapCells f (mapCells f t) = mapCells f t := by
  simp only [mapCells, List.map_map]
  congr 1
  apply List.map_congr_left
  intro r _
  show List.zipWith f t.cols (List.zipWith f t.cols r) = List.zipWith f t.cols r
  rw [zipWith_zipWith_same]
  exact zipWith_congr_fun hcell t.cols r

theorem mapCells_eq_self {f : List Nat → Val → Val} {t : Table}
    (hwf : ∀ r ∈ t.rows, r.length = t.cols.length)
    (h : ∀ r ∈ t.rows, ∀ i, i < t.cols.length →
      f (t.cols.getD i []) (r.getD i Val.null) = r.getD i Val.null) :
    mapCells f t = t := by
  obtain ⟨cols, rows⟩ := t
  simp only [mapCells]
  congr 1
  apply map_eq_self
  intro r hr
  exact zipWith_eq_self cols r (hwf r hr) (fun i hi => h r hr i hi)

theorem mapCells_cell {f : List Nat → Val → Val} {t : Table}
    (hwf : ∀ r ∈ t.rows, r.length = t.cols.length) :
    ∀ r ∈ (mapCells f t).rows, ∃ r1 ∈ t.rows,
      (∀ i, i < t.cols.length →
        r.getD i Val.null = f (t.cols.getD i []) (r1.getD i Val.null)) ∧
      r.length = t.cols.length := by
  intro r hr
  simp only [mapCells, List.mem_map] at hr
  obtain ⟨r1, hr1, rfl⟩ := hr
  refine ⟨r1, hr1, ?_, ?_⟩
  · intro i hi
    exact getD_zipWith t.cols r1 i hi (by rw [hwf r1 hr1]; exact hi)
  · simp [List.length_zipWith, hwf r1 hr1]

theorem setColF_cols_cases {c : List Nat} {g : List (List Nat) → List Val → Val}
    {t : Table} :
    (colIdx t.cols c = none ∧ (setColF c g t).cols = t.cols ++ [c]) ∨
    (∃ k, colIdx t.cols c = some k ∧ (setColF c g t).cols = t.cols) := by
  unfold setColF
  cases h : colIdx t.cols c with
  | none => exact Or.inl ⟨rfl, rfl⟩
  | some k => exact Or.inr ⟨k, rfl, rfl⟩

theorem setColF_cell_cases {c : List Nat} {g : List (List Nat) → List Val → Val}
    {t : Table} (hwf : ∀ r ∈ t.rows, r.length = t.cols.length) :
    ∃ k, colIdx (setColF c g t).cols c = some k ∧
      (setColF c g t).cols.getD k [] = c ∧
      ∀ r ∈ (setColF c g t).rows, ∃ r0 ∈ t.rows,
        r.getD k Val.null = g t.cols r0 ∧
        ∀ i, i < (setColF c g t).cols.length → i ≠ k →
          (setColF c g t).cols.getD i [] = t.cols.getD i [] ∧
          i < t.cols.length ∧
          r.getD i Val.null = r0.getD i Val.null := by
  rcases @setColF_cols_cases c g t with ⟨hnone, hcols⟩ | ⟨k, hsome, hcols⟩
  · refine ⟨t.cols.length, ?_, ?_, ?_⟩
    · rw [hcols]
      have := @colIdx_append_right _ [c] _ _ hnone colIdx_self_singleton
      simpa using this
    · rw [hcols]
      exact getD_cols_append_last
    · intro r hr
      simp only [setColF, hnone, List.mem_map] at hr
      obtain ⟨r0, hr0, rfl⟩ := hr
      refine ⟨r0, hr0, ?_, ?_⟩
      · rw [show t.cols.length = r0.length from (hwf r0 hr0).symm]
        exact getD_append_last
      · intro i hi hik
        rw [hcols] at hi
        simp only [List.length_append, List.length_cons, List.length_nil] at hi
        have hilt : i < t.cols.length := by omega
        refine ⟨by rw [hcols]; exact getD_cols_append_lt hilt, hilt, ?_⟩
        exact getD_append_lt (by rw [hwf r0 hr0]; exact hilt)
  · refine ⟨k, ?_, ?_, ?_⟩
    · rw [hcols]; exact hsome
    · rw [hcols]; exact colIdx_getD hsome
    · intro r hr
      simp only [setColF, hsome, List.mem_map] at hr
      obtain ⟨r0, hr0, rfl⟩ := hr
      refine ⟨r0, hr0, ?_, ?_⟩
      · exact getD_set_self (by rw [hwf r0 hr0]; exact colIdx_lt_length hsome)
      · intro i hi hik
        rw [hcols] at hi
        exact ⟨by rw [hcols], hi, getD_set_ne hik⟩

theorem setColF_eq_self {c : List Nat} {g : List (List Nat) → List Val → Val}
    {t : Table} {k : Nat} (hk : colIdx t.cols c = some k)
    (hval : ∀ r ∈ t.rows, r.getD k Val.null = g t.cols r) :
    setColF c g t = t := by
  obtain ⟨cols, rows⟩ := t
  simp only [setColF, hk]
  congr 1
  apply map_eq_self
  intro r hr
  exact set_eq_self_of_getD (hval r hr)

theorem transform_materiales_idem (t : Table) :
    transform_materiales (transform_materiales t) = transform_materiales t := by
  simp only [transform_materiales]
  apply mapCells_idem_of_cell
  intro c v
  by_cases h1 : c = nm "tipo"
  · simp only [if_pos h1]
    exact titleStrip_idem
  · simp only [if_neg h1]
    by_cases h2 : c = nm "unidad_medida"
    · simp only [if_pos h2]
      exact lowerStrip_idem
    · simp only [if_neg h2]
      by_cases h3 : c = nm "cantidad_disponible"
      · simp only [if_pos h3]
        exact fillToNum_idem
      · simp only [if_neg h3]

theorem transform_empleados_idem (t : Table) :
    transform_empleados (transform_empleados t) = transform_empleados t := by
  simp only [transform_empleados]
  apply mapCells_idem_of_cell
  intro c v
  by_cases h1 : c = nm "nombre"
  · simp only [if_pos h1]
    exact stripS_stripS
  · simp only [if_neg h1]
    by_cases h2 : c = nm "cargo"
    · simp only [if_pos h2]
      exact titleStrip_idem
    · simp only [if_neg h2]
      by_cases h3 : c = nm "email"
      · simp only [if_pos h3]
        exact lowerStrip_idem
      · simp only [if_neg h3]

theorem transform_uso_materiales_idem (t : Table) :
    transform_uso_materiales (transform_uso_materiales t) =
      transform_uso_materiales t := by
  simp only [transform_uso_materiales]
  apply mapCells_idem_of_cell
  intro c v
  by_cases h1 : c = nm "cantidad_usada"
  · simp only [if_pos h1]
    exact fillToNum_idem
  · simp only [if_neg h1]

theorem transform_productos_idem (t : Table) :
    transform_productos (transform_productos t) = transform_productos t := by
  have hcell : ∀ (c : List Nat) (v : Val),
      (fun c v => if c = nm "nombre_producto" then stripS v
        else if c = nm "precio" then toNumV v else v) c
        ((fun c v => if c = nm "nombre_producto" then stripS v
          else if c = nm "precio" then toNumV v else v) c v) =
      (fun c v => if c = nm "nombre_producto" then stripS v
        else if c = nm "precio" then toNumV v else v) c v := by
    intro c v
    by_cases h1 : c = nm "nombre_producto"
    · simp only [if_pos h1]
      exact stripS_stripS
    · simp only [if_neg h1]
      by_cases h2 : c = nm "precio"
      · simp only [if_pos h2]
        exact toNumV_idem
      · simp only [if_neg h2]
  have hMM := @mapCells_idem_of_cell
    (fun c v => if c = nm "nombre_producto" then stripS v
      else if c = nm "precio" then toNumV v else v) hcell t
  simp only [transform_productos]
  by_cases hp : hasCol (mapCells (fun c v => if c = nm "nombre_producto" then stripS v
      else if c = nm "precio" then toNumV v else v) t) (nm "precio") = true
  · rw [if_pos hp]
    have hMX : mapCells (fun c v => if c = nm "nombre_producto" then stripS v
        else if c = nm "precio" then toNumV v else v)
        (filterRows (fun cols row => ¬ invalidPrice (getC cols row (nm "precio")))
          (mapCells (fun c v => if c = nm "nombre_producto" then stripS v
            else if c = nm "precio" then toNumV v else v) t)) =
        filterRows (fun cols row => ¬ invalidPrice (getC cols row (nm "precio")))
          (mapCells (fun c v => if c = nm "nombre_producto" then stripS v
            else if c = nm "precio" then toNumV v else v) t) := by
      simp only [mapCells, filterRows]
      congr 1
      apply map_eq_self
      intro r hr
      have hr2 := List.mem_of_mem_filter hr
      obtain ⟨r1, hr1, rfl⟩ := List.mem_map.mp hr2
      show List.zipWith _ t.cols (List.zipWith _ t.cols r1) = _
      rw [zipWith_zipWith_same]
      exact zipWith_congr_fun hcell t.cols r1
    rw [hMX]
    have hpf : hasCol (filterRows
        (fun cols row => ¬ invalidPrice (getC cols row (nm "precio")))
        (mapCells (fun c v => if c = nm "nombre_producto" then stripS v
          else if c = nm "precio" then toNumV v else v) t)) (nm "precio") = true := hp
    rw [if_pos hpf]
    simp only [filterRows]
    congr 1
    exact List.filter_eq_self.mpr (fun x hx => (List.mem_filter.mp hx).2)
  · rw [if_neg hp]
    rw [hMM, if_neg hp]

theorem setColF_getC_pres {c x : List Nat} {g : List (List Nat) → List Val → Val}
    {t : Table} {k xi : Nat} {r r0 : List Val}
    (hxi : colIdx t.cols x = some xi) (hxc : x ≠ c)
    (hkname : (setColF c g t).cols.getD k [] = c)
    (hrest : ∀ i, i < (setColF c g t).cols.length → i ≠ k →
      (setColF c g t).cols.getD i [] = t.cols.getD i [] ∧ i < t.cols.length ∧
      r.getD i Val.null = r0.getD i Val.null) :
    getC (setColF c g t).cols r x = getC t.cols r0 x := by
  have hxi' : colIdx (setColF c g t).cols x = some xi := by
    rcases @setColF_cols_cases c g t with ⟨hN, hC⟩ | ⟨k', hS, hC⟩
    · rw [hC]; exact colIdx_append_left hxi
    · rw [hC]; exact hxi
  have hxik : xi ≠ k := fun he =>
    hxc (by rw [← hkname, ← he]; exact (colIdx_getD hxi').symm)
  obtain ⟨_, _, hval⟩ := hrest xi (colIdx_lt_length hxi') hxik
  have h1 : getC (setColF c g t).cols r x = r.getD xi Val.null := by
    unfold getC
    rw [hxi']
  have h2 : getC t.cols r0 x = r0.getD xi Val.null := by
    unfold getC
    rw [hxi]
  rw [h1, h2, hval]

theorem transform_ordenes_idem (t : Table)
    (hwf : ∀ r ∈ t.rows, r.length = t.cols.length) :
    transform_ordenes_produccion (transform_ordenes_produccion t) =
      transform_ordenes_produccion t := by
  obtain ⟨u, hu⟩ : ∃ u, u =
      mapCells (fun c v => if c = nm "estado" then titleS (stripS v) else v)
        (mapCells (fun c v => if hasSub (nm "fecha") (lowerL c) then toDateV v else v)
          t) := ⟨_, rfl⟩
  have hwfm1 := @mapCells_wf
    (fun c v => if hasSub (nm "fecha") (lowerL c) then toDateV v else v) t hwf
  have hwfu : ∀ r ∈ u.rows, r.length = u.cols.length := by
    rw [hu]
    exact mapCells_wf hwfm1
  have hcolsu : u.cols = t.cols := by
    rw [hu, mapCells_cols, mapCells_cols]
  have hstabu1 : ∀ r0 ∈ u.rows, ∀ i, i < u.cols.length →
      (fun c v => if hasSub (nm "fecha") (lowerL c) then toDateV v else v)
        (u.cols.getD i []) (r0.getD i Val.null) = r0.getD i Val.null := by
    intro r0 hr0 i hi
    rw [hcolsu] at hi
    rw [hu] at hr0
    simp only [hcolsu]
    obtain ⟨rm, hrm, hval2, _⟩ := mapCells_cell hwfm1 r0 hr0
    simp only [mapCells_cols] at hval2
    obtain ⟨r1, hr1, hval1, _⟩ := mapCells_cell hwf rm hrm
    rw [hval2 i hi, hval1 i hi]
    by_cases hc : hasSub (nm "fecha") (lowerL (t.cols.getD i [])) = true
    · have hce : ¬ (t.cols.getD i [] = nm "estado") := fun he => by
        rw [he] at hc
        exact absurd hc (by decide)
      simp only [if_pos hc, if_neg hce]
      exact toDateV_idem
    · simp only [if_neg hc]
  have hstabu2 : ∀ r0 ∈ u.rows, ∀ i, i < u.cols.length →
      (fun c v => if c = nm "estado" then titleS (stripS v) else v)
        (u.cols.getD i []) (r0.getD i Val.null) = r0.getD i Val.null := by
    intro r0 hr0 i hi
    rw [hcolsu] at hi
    rw [hu] at hr0
    simp only [hcolsu]
    obtain ⟨rm, hrm, hval2, _⟩ := mapCells_cell hwfm1 r0 hr0
    simp only [mapCells_cols] at hval2
    obtain ⟨r1, hr1, hval1, _⟩ := mapCells_cell hwf rm hrm
    rw [hval2 i hi, hval1 i hi]
    by_cases hc : t.cols.getD i [] = nm "estado"
    · have hnf : ¬ (hasSub (nm "fecha") (lowerL (t.cols.getD i [])) = true) := by
        rw [hc]
        decide
      simp only [if_pos hc, if_neg hnf]
      exact titleStrip_idem
    · simp only [if_neg hc]
  have hm1u : mapCells
      (fun c v => if hasSub (nm "fecha") (lowerL c) then toDateV v else v) u = u :=
    mapCells_eq_self hwfu hstabu1
  have hm2u : mapCells
      (fun c v => if c = nm "estado" then titleS (stripS v) else v) u = u :=
    mapCells_eq_self hwfu hstabu2
  simp only [transform_ordenes_produccion]
  rw [← hu]
  by_cases hcond :
      (hasCol u (nm "fecha_orden") && hasCol u (nm "fecha_completado")) = true
  · rw [if_pos hcond]
    obtain ⟨X, hX⟩ : ∃ X, X = setColF (nm "duracion_dias")
        (fun cols row => subDays (getC cols row (nm "fecha_completado"))
          (getC cols row (nm "fecha_orden"))) u := ⟨_, rfl⟩
    rw [← hX]
    obtain ⟨k, hk, hkname, hXcells⟩ := @setColF_cell_cases (nm "duracion_dias")
      (fun cols row => subDays (getC cols row (nm "fecha_completado"))
        (getC cols row (nm "fecha_orden"))) u hwfu
    rw [← hX] at hk hkname hXcells
    have hwfX : ∀ r ∈ X.rows, r.length = X.cols.length := by
      rw [hX]
      exact setColF_wf hwfu
    have hstabX1 : ∀ r ∈ X.rows, ∀ i, i < X.cols.length →
        (fun c v => if hasSub (nm "fecha") (lowerL c) then toDateV v else v)
          (X.cols.getD i []) (r.getD i Val.null) = r.getD i Val.null := by
      intro r hr i hi
      obtain ⟨r0, hr0, hrk, hrest⟩ := hXcells r hr
      by_cases hik : i = k
      · subst hik
        simp only [hkname]
        rw [if_neg (by decide)]
      · obtain ⟨hname, hilt, hval⟩ := hrest i hi hik
        simp only [hname, hval]
        exact hstabu1 r0 hr0 i hilt
    have hstabX2 : ∀ r ∈ X.rows, ∀ i, i < X.cols.length →
        (fun c v => if c = nm "estado" then titleS (stripS v) else v)
          (X.cols.getD i []) (r.getD i Val.null) = r.getD i Val.null := by
      intro r hr i hi
      obtain ⟨r0, hr0, hrk, hrest⟩ := hXcells r hr
      by_cases hik : i = k
      · subst hik
        simp only [hkname]
        rw [if_neg (by decide)]
      · obtain ⟨hname, hilt, hval⟩ := hrest i hi hik
        simp only [hname, hval]
        exact hstabu2 r0 hr0 i hilt
    have hm1X : mapCells
        (fun c v => if hasSub (nm "fecha") (lowerL c) then toDateV v else v) X = X :=
      mapCells_eq_self hwfX hstabX1
    have hm2X : mapCells
        (fun c v => if c = nm "estado" then titleS (stripS v) else v) X = X :=
      mapCells_eq_self hwfX hstabX2
    rw [hm1X, hm2X]
    have h12 := hcond
    rw [Bool.and_eq_true] at h12
    obtain ⟨io, hio⟩ := Option.isSome_iff_exists.mp
      (by simpa [hasCol] using h12.1)
    obtain ⟨ic, hic⟩ := Option.isSome_iff_exists.mp
      (by simpa [hasCol] using h12.2)
    have hXfo : hasCol X (nm "fecha_orden") = true := by
      rw [hX]
      simp only [hasCol]
      rcases @setColF_cols_cases (nm "duracion_dias")
          (fun cols row => subDays (getC cols row (nm "fecha_completado"))
            (getC cols row (nm "fecha_orden"))) u with ⟨hN, hC⟩ | ⟨k', hS, hC⟩
      · rw [hC, colIdx_append_left hio]
        rfl
      · rw [hC, hio]
        rfl
    have hXfc : hasCol X (nm "fecha_completado") = true := by
      rw [hX]
      simp only [hasCol]
      rcases @setColF_cols_cases (nm "duracion_dias")
          (fun cols row => subDays (getC cols row (nm "fecha_completado"))
            (getC cols row (nm "fecha_orden"))) u with ⟨hN, hC⟩ | ⟨k', hS, hC⟩
      · rw [hC, colIdx_append_left hic]
        rfl
      · rw [hC, hic]
        rfl
    rw [if_pos (show (hasCol X (nm "fecha_orden") &&
        hasCol X (nm "fecha_completado")) = true by rw [hXfo, hXfc]; rfl)]
    apply setColF_eq_self hk
    intro r hr
    obtain ⟨r0, hr0, hrk, hrest⟩ := hXcells r hr
    rw [hrk]
    show subDays (getC u.cols r0 (nm "fecha_completado"))
        (getC u.cols r0 (nm "fecha_orden")) =
      subDays (getC X.cols r (nm "fecha_completado"))
        (getC X.cols r (nm "fecha_orden"))
    rw [hX] at hkname hrest ⊢
    rw [setColF_getC_pres hic (by decide) hkname hrest,
      setColF_getC_pres hio (by decide) hkname hrest]
  · rw [if_neg hcond]
    rw [hm1u, hm2u, if_neg hcond]

theorem transform_detalles_idem (t : Table)
    (hwf : ∀ r ∈ t.rows, r.length = t.cols.length) :
    transform_detalles_orden (transform_detalles_orden t) =
      transform_detalles_orden t := by
  obtain ⟨u, hu⟩ : ∃ u, u = mapCells
      (fun c v => if c = nm "cantidad" || c = nm "subtotal" then toNumV v else v)
      t := ⟨_, rfl⟩
  have hcell : ∀ (c : List Nat) (v : Val),
      (fun c v => if c = nm "cantidad" || c = nm "subtotal" then toNumV v else v) c
        ((fun c v => if c = nm "cantidad" || c = nm "subtotal" then toNumV v else v)
          c v) =
      (fun c v => if c = nm "cantidad" || c = nm "subtotal" then toNumV v else v)
        c v := by
    intro c v
    by_cases hc : (decide (c = nm "cantidad") || decide (c = nm "subtotal")) = true
    · simp only [if_pos hc]
      exact toNumV_idem
    · simp only [if_neg hc]
  have hwfu : ∀ r ∈ u.rows, r.length = u.cols.length := by
    rw [hu]
    exact mapCells_wf hwf
  have hcolsu : u.cols = t.cols := by
    rw [hu, mapCells_cols]
  have hstabu : ∀ r0 ∈ u.rows, ∀ i, i < u.cols.length →
      (fun c v => if c = nm "cantidad" || c = nm "subtotal" then toNumV v else v)
        (u.cols.getD i []) (r0.getD i Val.null) = r0.getD i Val.null := by
    intro r0 hr0 i hi
    rw [hcolsu] at hi
    rw [hu] at hr0
    simp only [hcolsu]
    obtain ⟨r1, hr1, hval1, _⟩ := mapCells_cell hwf r0 hr0
    rw [hval1 i hi]
    exact hcell _ _
  have hmu : mapCells
      (fun c v => if c = nm "cantidad" || c = nm "subtotal" then toNumV v else v)
      u = u :=
    mapCells_eq_self hwfu hstabu
  simp only [transform_detalles_orden]
  rw [← hu]
  by_cases hcond : (hasCol u (nm "cantidad") && hasCol u (nm "subtotal")) = true
  · rw [if_pos hcond]
    obtain ⟨X, hX⟩ : ∃ X, X = setColF (nm "precio_unitario")
        (fun cols row => divV (getC cols row (nm "subtotal"))
          (getC cols row (nm "cantidad"))) u := ⟨_, rfl⟩
    rw [← hX]
    obtain ⟨k, hk, hkname, hXcells⟩ := @setColF_cell_cases (nm "precio_unitario")
      (fun cols row => divV (getC cols row (nm "subtotal"))
        (getC cols row (nm "cantidad"))) u hwfu
    rw [← hX] at hk hkname hXcells
    have hwfX : ∀ r ∈ X.rows, r.length = X.cols.length := by
      rw [hX]
      exact setColF_wf hwfu
    have hstabX : ∀ r ∈ X.rows, ∀ i, i < X.cols.length →
        (fun c v => if c = nm "cantidad" || c = nm "subtotal" then toNumV v else v)
          (X.cols.getD i []) (r.getD i Val.null) = r.getD i Val.null := by
      intro r hr i hi
      obtain ⟨r0, hr0, hrk, hrest⟩ := hXcells r hr
      by_cases hik : i = k
      · subst hik
        simp only [hkname]
        rw [if_neg (by decide)]
      · obtain ⟨hname, hilt, hval⟩ := hrest i hi hik
        simp only [hname, hval]
        exact hstabu r0 hr0 i hilt
    have hmX : mapCells
        (fun c v => if c = nm "cantidad" || c = nm "subtotal" then toNumV v else v)
        X = X :=
      mapCells_eq_self hwfX hstabX
    rw [hmX]
    have h12 := hcond
    rw [Bool.and_eq_true] at h12
    obtain ⟨iq, hiq⟩ := Option.isSome_iff_exists.mp
      (by simpa [hasCol] using h12.1)
    obtain ⟨is0, his⟩ := Option.isSome_iff_exists.mp
      (by simpa [hasCol] using h12.2)
    have hXq : hasCol X (nm "cantidad") = true := by
      rw [hX]
      simp only [hasCol]
      rcases @setColF_cols_cases (nm "precio_unitario")
          (fun cols row => divV (getC cols row (nm "subtotal"))
            (getC cols row (nm "cantidad"))) u with ⟨hN, hC⟩ | ⟨k', hS, hC⟩
      · rw [hC, colIdx_append_left hiq]
        rfl
      · rw [hC, hiq]
        rfl
    have hXs : hasCol X (nm "subtotal") = true := by
      rw [hX]
      simp only [hasCol]
      rcases @setColF_cols_cases (nm "precio_unitario")
          (fun cols row => divV (getC cols row (nm "subtotal"))
            (getC cols row (nm "cantidad"))) u with ⟨hN, hC⟩ | ⟨k', hS, hC⟩
      · rw [hC, colIdx_append_left his]
        rfl
      · rw [hC, his]
        rfl
    rw [if_pos (show (hasCol X (nm "cantidad") &&
        hasCol X (nm "subtotal")) = true by rw [hXq, hXs]; rfl)]
    apply setColF_eq_self hk
    intro r hr
    obtain ⟨r0, hr0, hrk, hrest⟩ := hXcells r hr
    rw [hrk]
    show divV (getC u.cols r0 (nm "subtotal")) (getC u.cols r0 (nm "cantidad")) =
      divV (getC X.cols r (nm "subtotal")) (getC X.cols r (nm "cantidad"))
    rw [hX] at hkname hrest ⊢
    rw [setColF_getC_pres his (by decide) hkname hrest,
      setColF_getC_pres hiq (by decide) hkname hrest]
  · rw [if_neg hcond]
    rw [hmu, if_neg hcond]

/-- C8 (counterexample): cleaning Customers is not idempotent.  On the
collision table the first pass rewrites row 1 to `a1@x.com`, making it a
duplicate of row 2, so a second pass rewrites again. -/
theorem C8_counterexample :
    (transform_clientes cliCol).bind transform_clientes ≠
      transform_clientes cliCol := by
  decide

/-- C8 (amended): every per-entity cleaning operation except the
Customer one is idempotent on tables with well-formed rows: applying it
twice yields output identical to applying it once.  The Customer cleaner
is not idempotent (see the counterexample): its duplicate-email suffixes
can create fresh duplicates that a second pass rewrites again. -/
theorem C8_idempotence (t : Table)
    (hwf : ∀ r ∈ t.rows, r.length = t.cols.length) :
    transform_ordenes_produccion (transform_ordenes_produccion t) =
      transform_ordenes_produccion t ∧
    transform_productos (transform_productos t) = transform_productos t ∧
    transform_materiales (transform_materiales t) = transform_materiales t ∧
    transform_empleados (transform_empleados t) = transform_empleados t ∧
    transform_detalles_orden (transform_detalles_orden t) =
      transform_detalles_orden t ∧
    transform_uso_materiales (transform_uso_materiales t) =
      transform_uso_materiales t :=
  ⟨transform_ordenes_idem t hwf, transform_productos_idem t,
   transform_materiales_idem t, transform_empleados_idem t,
   transform_detalles_idem t hwf, transform_uso_materiales_idem t⟩

/-- C8 (witness): the amended theorem applied to the scenario order
table, whose single row matches its four columns. -/
theorem C8_idempotence_witness :
    transform_ordenes_produccion (transform_ordenes_produccion ordScen) =
      transform_ordenes_produccion ordScen ∧
    transform_productos (transform_productos ordScen) = transform_productos ordScen ∧
    transform_materiales (transform_materiales ordScen) = transform_materiales ordScen ∧
    transform_empleados (transform_empleados ordScen) = transform_empleados ordScen ∧
    transform_detalles_orden (transform_detalles_orden ordScen) =
      transform_detalles_orden ordScen ∧
    transform_uso_materiales (transform_uso_materiales ordScen) =
      transform_uso_materiales ordScen :=
  C8_idempotence ordScen (by decide)
